import Mathlib

/-!
# Reconciliation core of the InsightFinder Terraform provider

A shallow embedding of the canonicalisation, label-alignment and name
resolution routines of `internal/provider` and `internal/provider/client`, of
the client operations and of the project, log-label, ServiceNow and JWT
resources, with the properties the specification states about them.

Go strings are Lean `String`s; Go maps with string keys are association lists
that are read with `mapGet` and written with `mapSet`; a Go function returning
`(value, error)` returns `Except String value`, the string being the error
message.  Functions of the Go standard library that the code calls
(`encoding/json`, `strings.ToLower`) are parameters of the embedding; the
mutex `logLabelMutex` is a step relation on the state of two concurrent calls.
-/

set_option autoImplicit false

namespace InsightFinder

/-- Results of Go functions returning `(value, error)` are compared by value. -/
instance instDecidableEqExcept {ε α : Type} [DecidableEq ε] [DecidableEq α] :
    DecidableEq (Except ε α)
  | Except.ok a, Except.ok b =>
      if h : a = b then isTrue (by rw [h]) else isFalse (fun h2 => h (by cases h2; rfl))
  | Except.error a, Except.error b =>
      if h : a = b then isTrue (by rw [h]) else isFalse (fun h2 => h (by cases h2; rfl))
  | Except.ok _, Except.error _ => isFalse (fun h => by cases h)
  | Except.error _, Except.ok _ => isFalse (fun h => by cases h)

/-! ## Go maps with string keys -/

/-- Read of a Go map: `v, ok := m[k]`. -/
def mapGet {β : Type} : List (String × β) → String → Option β
  | [], _ => none
  | (k, v) :: rest, key => if k = key then some v else mapGet rest key

/-- Write of a Go map: `m[k] = v`; an existing key keeps its place. -/
def mapSet {β : Type} : List (String × β) → String → β → List (String × β)
  | [], key, val => [(key, val)]
  | (k, v) :: rest, key, val =>
      if k = key then (k, val) :: rest else (k, v) :: mapSet rest key val

/-! ## encoding/json as used by normalizeJSON -/

/-- The two functions of Go's `encoding/json` that `normalizeJSON` calls:
`json.Unmarshal` into an `interface{}` (here a value of type `V`, `none` when
it reports an error) and `json.Marshal` of such a value. -/
structure JSONCodec (V : Type) where
  Unmarshal : String → Option V
  Marshal : V → Option String

/-- The empty string is not a JSON text: `json.Unmarshal` reports
"unexpected end of JSON input". -/
def JSONCodec.RejectsEmpty {V : Type} (json : JSONCodec V) : Prop :=
  json.Unmarshal "" = none

/-- Every value that `json.Unmarshal` produced can be marshalled. -/
def JSONCodec.EncodesDecoded {V : Type} (json : JSONCodec V) : Prop :=
  ∀ s v, json.Unmarshal s = some v → ∃ out, json.Marshal v = some out

/-- The value decoded from the text `[]` is marshalled as `[]`. -/
def JSONCodec.EmptyArrayCompact {V : Type} (json : JSONCodec V) : Prop :=
  ∀ v, json.Unmarshal "[]" = some v → json.Marshal v = some "[]"

/-- The output of `json.Marshal` is in canonical form: decoding it and
marshalling again gives the same bytes. -/
def JSONCodec.Canonical {V : Type} (json : JSONCodec V) : Prop :=
  ∀ v out v2 out2, json.Marshal v = some out → json.Unmarshal out = some v2 →
    json.Marshal v2 = some out2 → out2 = out

/-- `normalizeJSON` of resource_project.go. -/
def normalizeJSON {V : Type} (json : JSONCodec V) (jsonStr : String) : String :=
  if jsonStr = "" ∨ jsonStr = "[]" then jsonStr
  else
    match json.Unmarshal jsonStr with
    | none => jsonStr
    | some data =>
      match json.Marshal data with
      | none => jsonStr
      | some normalized => normalized

/-! ## An executable codec for arrays of plain strings

Label rule sets are JSON arrays of strings.  The codec below decodes and
encodes that fragment (arrays of strings that need no escape sequence) the way
`encoding/json` does and rejects every other text; it instantiates
`JSONCodec` in the examples. -/

namespace StringArray

inductive Token where
  | lbracket
  | rbracket
  | comma
  | str (s : List Char)
  deriving DecidableEq, Repr

/-- The double quote. -/
def dquote : Char := Char.ofNat 34

/-- JSON insignificant whitespace. -/
def isJSONSpace (c : Char) : Bool :=
  c = ' ' || c = '\t' || c = '\r' || c = '\n'

/-- Characters that both the decoder and the encoder (HTML escaping on) copy
as they are. -/
def isPlain (c : Char) : Bool :=
  decide (32 ≤ c.toNat) && c != dquote && c != Char.ofNat 92 && c != '<' && c != '>'
    && c != '&' && c != Char.ofNat 0x2028 && c != Char.ofNat 0x2029

/-- The scanner; the first argument holds the characters of the string being
read, most recent first. -/
def lex : Option (List Char) → List Char → Option (List Token)
  | none, [] => some []
  | some _, [] => none
  | none, c :: cs =>
      if isJSONSpace c then lex none cs
      else if c = '[' then (lex none cs).map (Token.lbracket :: ·)
      else if c = ']' then (lex none cs).map (Token.rbracket :: ·)
      else if c = ',' then (lex none cs).map (Token.comma :: ·)
      else if c = dquote then lex (some []) cs
      else none
  | some acc, c :: cs =>
      if c = dquote then (lex none cs).map (Token.str acc.reverse :: ·)
      else if isPlain c then lex (some (c :: acc)) cs
      else none

def parseElems : List Token → Option (List String)
  | [Token.rbracket] => some []
  | Token.comma :: Token.str s :: rest => (parseElems rest).map (String.mk s :: ·)
  | _ => none

def parseArray : List Token → Option (List String)
  | [Token.lbracket, Token.rbracket] => some []
  | Token.lbracket :: Token.str s :: rest => (parseElems rest).map (String.mk s :: ·)
  | _ => none

def quote (s : String) : List Char := dquote :: (s.data ++ [dquote])

def renderElems : List String → List Char
  | [] => [']']
  | s :: rest => ',' :: (quote s ++ renderElems rest)

def render : List String → List Char
  | [] => ['[', ']']
  | s :: rest => '[' :: (quote s ++ renderElems rest)

def allPlain (v : List String) : Bool := v.all (fun s => s.data.all isPlain)

def codec : JSONCodec (List String) where
  Unmarshal := fun s => (lex none s.data).bind parseArray
  Marshal := fun v => if allPlain v then some (String.mk (render v)) else none

end StringArray

/-! ## Label settings: convertLogLabelsToState -/

/-- A `types.String` of the Terraform plugin framework. -/
inductive TFString where
  | null
  | unknown
  | known (s : String)
  deriving DecidableEq, Repr

/-- `types.StringValue`. -/
def StringValue (s : String) : TFString := TFString.known s

/-- `ValueString`: the known value, the empty string for null and unknown. -/
def TFString.ValueString : TFString → String
  | TFString.known s => s
  | _ => ""

/-- `logLabelSettingModel` of resource_log_labels.go. -/
structure logLabelSettingModel where
  LabelType : TFString
  LogLabelString : TFString
  deriving DecidableEq, Repr

/-- The table `apiFieldToLabelType` of `convertLogLabelsToState`. -/
def apiFieldToLabelType : List (String × String) :=
  [ ("whitelist", "whitelist"),
    ("trainingWhitelist", "trainingWhitelist"),
    ("trainingBlacklistLabels", "blacklist"),
    ("featurelist", "featurelist"),
    ("incidentlist", "incidentlist"),
    ("triagelist", "triagelist"),
    ("patternNameLabels", "patternName"),
    ("patternSignatureLabels", "patternSignature"),
    ("patternMatchRegexLabels", "patternMatchRegex"),
    ("patternIgnoreRegexLabels", "patternIgnoreRegex"),
    ("customActionLabels", "customAction"),
    ("logEventIDLabels", "logEventID"),
    ("logSeverityLabels", "logSeverity"),
    ("logStatusCodeLabels", "logStatusCode"),
    ("alertEventTypeLabels", "alertEventType"),
    ("anomalyFeatureLabels", "anomalyFeature"),
    ("dataFilterLabels", "dataFilter"),
    ("instanceNameLabels", "instanceName"),
    ("dataQualityCheckLabels", "dataQualityCheck"),
    ("extractionBlacklist", "extractionBlacklist") ]

/-- The list `defaultOrder` (and the identical `labelTypeOrder`) of
`convertLogLabelsToState`. -/
def defaultOrder : List String :=
  [ "trainingWhitelist", "featurelist", "incidentlist", "triagelist", "patternName",
    "whitelist", "blacklist", "patternSignature", "patternMatchRegex",
    "patternIgnoreRegex", "customAction", "logEventID", "logSeverity",
    "logStatusCode", "alertEventType", "anomalyFeature", "dataFilter",
    "instanceName", "dataQualityCheck", "extractionBlacklist" ]

/-- One iteration of the loop that fills `apiDataMap`. -/
def apiDataStep {V : Type} (json : JSONCodec V) (apiDataMap : List (String × String))
    (entry : String × String) : List (String × String) :=
  match mapGet apiFieldToLabelType entry.1 with
  | some labelType =>
      if entry.2 ≠ "" ∧ entry.2 ≠ "[]" then
        mapSet apiDataMap labelType (normalizeJSON json entry.2)
      else apiDataMap
  | none => apiDataMap

/-- The map `apiDataMap`: the loop over `apiLabels`, whose entries are listed
in the order the iteration visits them. -/
def buildApiDataMap {V : Type} (json : JSONCodec V) (apiLabels : List (String × String)) :
    List (String × String) :=
  apiLabels.foldl (apiDataStep json) []

/-- One iteration of the first pass: the state is `(result, processedTypes)`. -/
def firstPassStep (apiDataMap : List (String × String))
    (st : List logLabelSettingModel × List String) (existing : logLabelSettingModel) :
    List logLabelSettingModel × List String :=
  let labelType := existing.LabelType.ValueString
  match mapGet apiDataMap labelType with
  | some normalizedJSON =>
      (st.1 ++ [{ LabelType := StringValue labelType,
                  LogLabelString := StringValue normalizedJSON }],
       labelType :: st.2)
  | none => st

/-- One iteration of the second pass over `defaultOrder`. -/
def secondPassStep (apiDataMap : List (String × String)) (processedTypes : List String)
    (result : List logLabelSettingModel) (labelType : String) : List logLabelSettingModel :=
  if ¬ (labelType ∈ processedTypes) then
    match mapGet apiDataMap labelType with
    | some normalizedJSON =>
        result ++ [{ LabelType := StringValue labelType,
                     LogLabelString := StringValue normalizedJSON }]
    | none => result
  else result

/-- `convertLogLabelsToState` of resource_project.go.  The reverse table
`labelTypeToAPIField`, which the function builds and never reads, is left out. -/
def convertLogLabelsToState {V : Type} (json : JSONCodec V)
    (apiLabels : List (String × String)) (existingState : List logLabelSettingModel) :
    List logLabelSettingModel :=
  let apiDataMap := buildApiDataMap json apiLabels
  if existingState.length > 0 then
    let st := existingState.foldl (firstPassStep apiDataMap) ([], [])
    defaultOrder.foldl (secondPassStep apiDataMap st.2) st.1
  else
    defaultOrder.foldl (secondPassStep apiDataMap []) []

/-- The label type `labelType` has a non-empty rule set in the API response:
some field of the response that the table maps to it holds a string other than
the empty string and `[]`. -/
def hasRuleSet (apiLabels : List (String × String)) (labelType : String) : Bool :=
  apiLabels.any (fun entry =>
    decide (mapGet apiFieldToLabelType entry.1 = some labelType)
      && decide (entry.2 ≠ "") && decide (entry.2 ≠ "[]"))

/-- The label types of a list of settings. -/
def labelTypes (settings : List logLabelSettingModel) : List String :=
  settings.map (fun s => s.LabelType.ValueString)

/-! ## Name resolution: client/servicenow.go -/

/-- `unicode.IsSpace`, the white space that `strings.TrimSpace` removes. -/
def isSpace (c : Char) : Bool :=
  let n := c.toNat
  n = 0x09 || n = 0x0A || n = 0x0B || n = 0x0C || n = 0x0D || n = 0x20 || n = 0x85
    || n = 0xA0 || n = 0x1680 || (decide (0x2000 ≤ n) && decide (n ≤ 0x200A))
    || n = 0x2028 || n = 0x2029 || n = 0x202F || n = 0x205F || n = 0x3000

/-- `strings.TrimSpace`. -/
def TrimSpace (s : String) : String :=
  String.mk ((s.data.dropWhile isSpace).reverse.dropWhile isSpace).reverse

/-- `SystemKey` of client/jwt.go. -/
structure SystemKey where
  UserName : String
  SystemName : String
  EnvironmentName : String
  deriving DecidableEq, Repr

/-- `SystemFramework` of client/jwt.go, without the field `Settings` that is
never decoded (`json:"-"`). -/
structure SystemFramework where
  SystemKey : SystemKey
  SystemID : String
  SystemName : String
  SystemDisplayName : String
  SystemSetting : String
  EnvironmentArr : List String
  deriving DecidableEq, Repr

/-- `SystemFrameworkResponse` of client/jwt.go. -/
structure SystemFrameworkResponse where
  Success : Bool
  Message : String
  OwnSystemArr : List String
  EnvironmentArr : List String
  ShareSystemArr : List String
  deriving DecidableEq, Repr

/-- The library functions the resolver calls: `strings.ToLower` and
`json.Unmarshal` of one catalog string into a `SystemFramework` (`none` when it
reports an error). -/
structure GoLib where
  ToLower : String → String
  UnmarshalSystem : String → Option SystemFramework

/-- The loop `for _, candidate := range idCandidates`: the first candidate that
is not empty, the empty string when there is none. -/
def firstNonEmpty : List String → String
  | [] => ""
  | candidate :: rest => if candidate ≠ "" then candidate else firstNonEmpty rest

/-- The identifier `resolvedID` of a catalog entry. -/
def resolvedID (system : SystemFramework) : String :=
  firstNonEmpty [TrimSpace system.SystemKey.SystemName, TrimSpace system.SystemID,
    TrimSpace system.SystemName]

/-- One iteration of the loop over `nameCandidates`. -/
def registerName (lib : GoLib) (id : String) (nameToID : List (String × String))
    (candidate : String) : List (String × String) :=
  if candidate = "" then nameToID
  else
    let normalized := lib.ToLower candidate
    match mapGet nameToID normalized with
    | some _ => nameToID
    | none => mapSet nameToID normalized id

/-- One iteration of the loop over `systems` in `ResolveSystemNameToIDs`. -/
def nameToIDStep (lib : GoLib) (nameToID : List (String × String)) (systemStr : String) :
    List (String × String) :=
  match lib.UnmarshalSystem systemStr with
  | none => nameToID
  | some system =>
      if resolvedID system = "" then nameToID
      else
        [TrimSpace system.SystemDisplayName, TrimSpace system.SystemName].foldl
          (registerName lib (resolvedID system)) nameToID

/-- The map `nameToID` after the loop over `systems`. -/
def buildNameToID (lib : GoLib) (systems : List String) : List (String × String) :=
  systems.foldl (nameToIDStep lib) []

/-- The loop over `systemNames`: it returns at the first name that is empty
after trimming, otherwise it yields `systemIDs` and `missing`. -/
def lookupNames (lib : GoLib) (nameToID : List (String × String)) :
    List String → List String → List String → Except String (List String × List String)
  | [], systemIDs, missing => Except.ok (systemIDs, missing)
  | name :: rest, systemIDs, missing =>
      let trimmed := TrimSpace name
      if trimmed = "" then Except.error "system name cannot be empty"
      else
        match mapGet nameToID (lib.ToLower trimmed) with
        | some id => lookupNames lib nameToID rest (systemIDs ++ [id]) missing
        | none => lookupNames lib nameToID rest systemIDs (missing ++ [trimmed])

/-- `ResolveSystemNameToIDs` of client/servicenow.go; `fetched` is what
`c.GetSystemFramework(username, true)` returned. -/
def ResolveSystemNameToIDs (lib : GoLib)
    (fetched : Except String (Option SystemFrameworkResponse)) (systemNames : List String) :
    Except String (List String) :=
  if systemNames.length = 0 then Except.ok []
  else
    match fetched with
    | Except.error err => Except.error ("failed to get system framework: " ++ err)
    | Except.ok none => Except.error "no systems found"
    | Except.ok (some systemFramework) =>
        let systems := systemFramework.OwnSystemArr ++ systemFramework.ShareSystemArr
        if systems.length = 0 then Except.error "no systems found"
        else
          let nameToID := buildNameToID lib systems
          if nameToID.length = 0 then Except.error "no systems found"
          else
            match lookupNames lib nameToID systemNames [] [] with
            | Except.error err => Except.error err
            | Except.ok (systemIDs, missing) =>
                if missing.length > 0 then
                  Except.error ("system(s) not found: " ++ ", ".intercalate missing)
                else Except.ok systemIDs

/-- One iteration of the loop over `systems` in `ResolveSystemIDsToNames`. -/
def idToNameStep (lib : GoLib) (idToName : List (String × String)) (systemStr : String) :
    List (String × String) :=
  match lib.UnmarshalSystem systemStr with
  | none => idToName
  | some system =>
      if resolvedID system = "" then idToName
      else
        let displayName :=
          if TrimSpace system.SystemDisplayName = "" then TrimSpace system.SystemName
          else TrimSpace system.SystemDisplayName
        if displayName = "" then idToName
        else mapSet idToName (resolvedID system) displayName

/-- The map `idToName` after the loop over `systems`. -/
def buildIDToName (lib : GoLib) (systems : List String) : List (String × String) :=
  systems.foldl (idToNameStep lib) []

/-- One iteration of the loop over `systemIDs` in `ResolveSystemIDsToNames`. -/
def lookupIDStep (idToName : List (String × String)) (systemNames : List String)
    (id : String) : List String :=
  let trimmedID := TrimSpace id
  if trimmedID = "" then systemNames
  else
    match mapGet idToName trimmedID with
    | some name => systemNames ++ [name]
    | none => systemNames ++ [trimmedID]

/-- `ResolveSystemIDsToNames` of client/servicenow.go; `fetched` is what
`c.GetSystemFramework(username, true)` returned. -/
def ResolveSystemIDsToNames (lib : GoLib)
    (fetched : Except String (Option SystemFrameworkResponse)) (systemIDs : List String) :
    Except String (List String) :=
  if systemIDs.length = 0 then Except.ok []
  else
    match fetched with
    | Except.error err => Except.error ("failed to get system framework: " ++ err)
    | Except.ok none => Except.error "no systems found"
    | Except.ok (some systemFramework) =>
        let systems := systemFramework.OwnSystemArr ++ systemFramework.ShareSystemArr
        if systems.length = 0 then Except.error "no systems found"
        else
          let idToName := buildIDToName lib systems
          Except.ok (systemIDs.foldl (lookupIDStep idToName) [])

/-- The setting recorded for a label type: its entry of `apiDataMap`, if any. -/
def settingFor (apiDataMap : List (String × String)) (labelType : String) :
    Option logLabelSettingModel :=
  (mapGet apiDataMap labelType).map (fun normalizedJSON =>
    { LabelType := StringValue labelType, LogLabelString := StringValue normalizedJSON })

/-- The alignment contract of the specification, stated on lists: the previous
entries still in `apiDataMap`, in their order, then the entries of the default
order that are in `apiDataMap` and were not in the previous list. -/
def aligned (apiDataMap : List (String × String)) (existingState : List logLabelSettingModel) :
    List logLabelSettingModel :=
  existingState.filterMap (fun e => settingFor apiDataMap e.LabelType.ValueString)
    ++ defaultOrder.filterMap (fun labelType =>
        if labelType ∈ labelTypes existingState then none
        else settingFor apiDataMap labelType)

/-! ## The catalog as the specification sees it -/

/-- The catalog entries: the catalog strings that decode. -/
def catalogEntries (lib : GoLib) (systems : List String) : List SystemFramework :=
  systems.filterMap lib.UnmarshalSystem

/-- The folded names of an entry: its display name and its system name,
trimmed, when not blank, in lower case. -/
def entryNames (lib : GoLib) (system : SystemFramework) : List String :=
  ([TrimSpace system.SystemDisplayName, TrimSpace system.SystemName].filter
    (fun candidate => decide (candidate ≠ ""))).map lib.ToLower

/-- The entry has a resolved identifier and carries the folded name `key`. -/
def answersTo (lib : GoLib) (key : String) (system : SystemFramework) : Bool :=
  decide (resolvedID system ≠ "") && decide (key ∈ entryNames lib system)

/-- The first catalog entry, in catalog order, that has a resolved identifier
and carries the folded name `key`. -/
def firstMatch (lib : GoLib) (systems : List String) (key : String) : Option SystemFramework :=
  (catalogEntries lib systems).find? (answersTo lib key)

/-- The display name that `ResolveSystemIDsToNames` records for an entry. -/
def displayNameOf (system : SystemFramework) : String :=
  if TrimSpace system.SystemDisplayName = "" then TrimSpace system.SystemName
  else TrimSpace system.SystemDisplayName

/-- No catalog entry with a resolved identifier carries the fold of the trimmed
name `trimmed`. -/
def unmatched (lib : GoLib) (systems : List String) (trimmed : String) : Bool :=
  (catalogEntries lib systems).all (fun e => !answersTo lib (lib.ToLower trimmed) e)

/-- The entry has the resolved identifier `id` and a display name to record. -/
def namesID (id : String) (system : SystemFramework) : Bool :=
  decide (resolvedID system = id) && decide (resolvedID system ≠ "")
    && decide (displayNameOf system ≠ "")

/-- The last catalog entry, in catalog order, that has the resolved identifier
`id` and a display name. -/
def lastNamed (lib : GoLib) (systems : List String) (id : String) : Option SystemFramework :=
  (catalogEntries lib systems).reverse.find? (namesID id)

/-- The name returned for a trimmed identifier: the display name of the last
entry with that identifier, the identifier itself when there is none. -/
def nameOrID (lib : GoLib) (systems : List String) (id : String) : String :=
  match lastNamed lib systems id with
  | some system => displayNameOf system
  | none => id

/-! ## Example data -/

/-- Lower case of the ASCII letters, on which `strings.ToLower` agrees. -/
def asciiLower (s : String) : String := String.mk (s.data.map Char.toLower)

/-- A catalog entry with the given identifier and display name. -/
def mkSystem (id displayName : String) : SystemFramework :=
  { SystemKey := { UserName := "", SystemName := "", EnvironmentName := "" },
    SystemID := id, SystemName := "", SystemDisplayName := displayName,
    SystemSetting := "", EnvironmentArr := [] }

def sysAJSON : String := "\x7b\"systemId\":\"1\",\"systemDisplayName\":\"sysA\"\x7d"

def sysBJSON : String := "\x7b\"systemId\":\"2\",\"systemDisplayName\":\"sysB\"\x7d"

def sysA2JSON : String := "\x7b\"systemId\":\"3\",\"systemDisplayName\":\"SYSA\"\x7d"

def nameOnlyJSON : String := "\x7b\"systemDisplayName\":\"X\"\x7d"

def sysXJSON : String := "\x7b\"systemId\":\"2\",\"systemDisplayName\":\"x\"\x7d"

/-- The decoder of the examples: `json.Unmarshal` on the catalog strings above. -/
def exampleLib : GoLib where
  ToLower := asciiLower
  UnmarshalSystem := mapGet
    [ (sysAJSON, mkSystem "1" "sysA"), (sysBJSON, mkSystem "2" "sysB"),
      (sysA2JSON, mkSystem "3" "SYSA"), (nameOnlyJSON, mkSystem "" "X"),
      (sysXJSON, mkSystem "2" "x") ]

/-- A fetched catalog with the given own and shared systems. -/
def mkResponse (own shared : List String) : SystemFrameworkResponse :=
  { Success := true, Message := "", OwnSystemArr := own, EnvironmentArr := [],
    ShareSystemArr := shared }

/-- A recorded label setting. -/
def mkSetting (labelType rules : String) : logLabelSettingModel :=
  { LabelType := StringValue labelType, LogLabelString := StringValue rules }

/-! ## Dynamic values and the library used by the client -/

/-- The values an `interface{}` holds in this code: what `json.Unmarshal`
decodes into an `interface{}` (nil, bool, float64, string, slices and maps),
the integer types that the type switches of the project resource name, and a
byte slice. -/
inductive GoValue (F : Type) where
  | nil
  | bool (b : Bool)
  | float64 (x : F)
  | int64 (n : Int)
  | int (n : Int)
  | string (s : String)
  | bytes (data : String)
  | slice (elems : List (GoValue F))
  | map (members : List (String × GoValue F))

/-- The operations on `float64` values (of type `F`) that the code uses. -/
structure Float64Ops (F : Type) where
  zero : F
  isZero : F → Bool
  ofInt : Int → F
  toInt64 : F → Int

/-- The library functions the client and the resources call: `json.Unmarshal`
into an `interface{}` and `json.Marshal` with the text of their errors, the
`float64` conversions, `strings.EqualFold`, `url.QueryEscape`, and
`json.Unmarshal` into the response structures `SystemFrameworkResponse` and
`LogLabelsResponse` (of which the map `Keywords` is kept) and into a
`map[string]interface{}` (`none` is the nil map), and `StructJSON key text`,
the value under `key` of the settings map for a struct field of
`ProjectSettings` into which `text` was decoded (`none`: the zero struct). -/
structure ClientLib (F : Type) where
  Unmarshal : String → Except String (GoValue F)
  Marshal : GoValue F → Except String String
  float : Float64Ops F
  EqualFold : String → String → Bool
  QueryEscape : String → String
  UnmarshalFramework : String → Except String SystemFrameworkResponse
  UnmarshalKeywords : String → Except String (List (String × GoValue F))
  UnmarshalMap : String → Except String (Option (List (String × GoValue F)))
  StructJSON : String → Option String → GoValue F

/-- The functions `json.Unmarshal` and `json.Marshal` of the library as the
codec of `normalizeJSON`. -/
def ClientLib.codec {F : Type} (lib : ClientLib F) : JSONCodec (GoValue F) where
  Unmarshal := fun s => (lib.Unmarshal s).toOption
  Marshal := fun v => (lib.Marshal v).toOption

/-- `strings.Contains`. -/
def Contains (s substr : String) : Bool :=
  s.data.tails.any (fun t => substr.data.isPrefixOf t)

/-- What `DoRequest` returns: the response body and the status code, or the
error. -/
abbrev Response := Except String (String × Int)

/-! ## client/loglabels.go -/

/-- The table `mapping` of `MapLabelTypeToAPIField`. -/
def labelTypeMapping : List (String × String) :=
  [ ("whitelist", "whitelist"),
    ("trainingWhitelist", "trainingWhitelist"),
    ("blacklist", "trainingBlacklistLabels"),
    ("featurelist", "featurelist"),
    ("incidentlist", "incidentlist"),
    ("triagelist", "triagelist"),
    ("anomalyFeature", "anomalyFeatureLabels"),
    ("dataFilter", "dataFilterLabels"),
    ("patternName", "patternNameLabels"),
    ("instanceName", "instanceNameLabels"),
    ("dataQualityCheck", "dataQualityCheckLabels"),
    ("extractionBlacklist", "extractionBlacklist") ]

/-- `MapLabelTypeToAPIField` of client/loglabels.go. -/
def MapLabelTypeToAPIField (labelType : String) : String :=
  match mapGet labelTypeMapping labelType with
  | some apiField => apiField
  | none => labelType

/-- One iteration of the loop over `response.Keywords` in `GetLogLabels`. -/
def keywordStep {F : Type} (lib : ClientLib F) (result : List (String × String))
    (entry : String × GoValue F) : List (String × String) :=
  match lib.Marshal entry.2 with
  | Except.ok jsonBytes => mapSet result entry.1 jsonBytes
  | Except.error _ => result

/-- `GetLogLabels` of client/loglabels.go; `res` is what `DoRequest` returned.
The result `none` is the nil map. -/
def GetLogLabels {F : Type} (lib : ClientLib F) (res : Response) :
    Except String (Option (List (String × String))) :=
  match res with
  | Except.error err => Except.error err
  | Except.ok (body, statusCode) =>
      if statusCode = 404 ∨ statusCode = 204 then Except.ok none
      else if statusCode ≠ 200 then
        Except.error ("failed to get log labels: HTTP " ++ toString statusCode)
      else
        match lib.UnmarshalKeywords body with
        | Except.error err => Except.error ("failed to parse response: " ++ err)
        | Except.ok keywords => Except.ok (some (keywords.foldl (keywordStep lib) []))

/-- A `time.Duration`, in nanoseconds: `time.Second`. -/
def Second : Int := 1000000000

/-- The `http.Client`, of which the timeout is kept. -/
structure HTTPClient where
  Timeout : Int
  deriving DecidableEq, Repr

/-- `Client` of client/client.go. -/
structure Client where
  BaseURL : String
  Username : String
  LicenseKey : String
  HTTPClient : HTTPClient
  deriving DecidableEq, Repr

/-- `NewClient` of client/client.go. -/
def NewClient (baseURL username licenseKey : String) : Except String Client :=
  if baseURL = "" then Except.error "base URL cannot be empty"
  else if username = "" then Except.error "username cannot be empty"
  else if licenseKey = "" then Except.error "license key cannot be empty"
  else
    Except.ok
      { BaseURL := baseURL, Username := username, LicenseKey := licenseKey,
        HTTPClient := { Timeout := Second * 30 } }

/-- An HTTP request as `DoRequest` builds it; the authentication and content
type headers are the same on every request. -/
structure HTTPRequest where
  Method : String
  URL : String
  Body : Option String
  deriving DecidableEq, Repr

/-- The HTTP round trip: the answer to the request that is the `n`-th of the
operation, read in full, or the error that `DoRequest` reports. -/
abbrev Transport := Nat → HTTPRequest → Response

/-- The request that `DoRequest` builds, or its marshalling error. -/
def newRequest {F : Type} (lib : ClientLib F) (c : Client) (method path : String)
    (body : GoValue F) : Except String HTTPRequest :=
  match body with
  | GoValue.nil => Except.ok { Method := method, URL := c.BaseURL ++ path, Body := none }
  | body =>
      match lib.Marshal body with
      | Except.error err => Except.error ("failed to marshal request body: " ++ err)
      | Except.ok jsonBody =>
          Except.ok { Method := method, URL := c.BaseURL ++ path, Body := some jsonBody }

/-- `DoRequest` of client/client.go as the `n`-th request of an operation: the
requests sent (none or one) and the result. -/
def DoRequest {F : Type} (lib : ClientLib F) (c : Client) (transport : Transport) (n : Nat)
    (method path : String) (body : GoValue F) : List HTTPRequest × Response :=
  match newRequest lib c method path body with
  | Except.error err => ([], Except.error err)
  | Except.ok req => ([req], transport n req)

/-- The map `requestBody` of `DeleteLogLabels`. -/
def deleteRequestBody {F : Type} (labelType : String) : GoValue F :=
  GoValue.map [("logLabelSettingCreate",
    GoValue.map [("labelType", GoValue.string labelType),
      ("logLabelString", GoValue.string "[]")])]

/-- The loop of `DeleteLogLabels` from its `n`-th request on: the requests
sent and the error returned, `none` for success. -/
def deleteLoop {F : Type} (lib : ClientLib F) (c : Client) (transport : Transport)
    (path : String) : Nat → List String → List HTTPRequest × Option String
  | _, [] => ([], none)
  | n, labelType :: rest =>
      match lib.Marshal (deleteRequestBody labelType) with
      | Except.error err =>
          ([], some ("failed to marshal log label delete request: " ++ err))
      | Except.ok bodyJSON =>
          match DoRequest lib c transport n "POST" path (GoValue.bytes bodyJSON) with
          | (sent, Except.error err) => (sent, some err)
          | (sent, Except.ok (body, statusCode)) =>
              if statusCode ≠ 200 ∧ statusCode ≠ 204 then
                (sent, some ("failed to delete log label: HTTP " ++ toString statusCode
                  ++ " - " ++ body))
              else
                let next := deleteLoop lib c transport path (n + 1) rest
                (sent ++ next.1, next.2)

/-- The path of the label endpoint. -/
def labelPath {F : Type} (lib : ClientLib F) (projectName username : String) : String :=
  "/api/external/v1/watch-tower-setting?projectName=" ++ lib.QueryEscape projectName
    ++ "&customerName=" ++ lib.QueryEscape username

/-- `DeleteLogLabels` of client/loglabels.go: the requests sent and the error
returned, `none` for success. -/
def DeleteLogLabels {F : Type} (lib : ClientLib F) (c : Client) (transport : Transport)
    (projectName username : String) (labelTypes : List String) :
    List HTTPRequest × Option String :=
  deleteLoop lib c transport (labelPath lib projectName username) 0 labelTypes

/-- The request that `DeleteLogLabels` sends for a label type, or the error of
one of the two calls of `json.Marshal` on the way. -/
def deleteRequest {F : Type} (lib : ClientLib F) (c : Client) (path labelType : String) :
    Except String HTTPRequest :=
  match lib.Marshal (deleteRequestBody labelType) with
  | Except.error err => Except.error ("failed to marshal log label delete request: " ++ err)
  | Except.ok bodyJSON => newRequest lib c "POST" path (GoValue.bytes bodyJSON)

/-! ## The status handling of the read operations -/

/-- `GetSystemFramework` of client/jwt.go; `res` is what `DoRequest` returned. -/
def GetSystemFramework {F : Type} (lib : ClientLib F) (res : Response) :
    Except String (Option SystemFrameworkResponse) :=
  match res with
  | Except.error err => Except.error err
  | Except.ok (body, statusCode) =>
      if statusCode = 404 then Except.ok none
      else if statusCode ≠ 200 then
        Except.error ("failed to get system framework: HTTP " ++ toString statusCode)
      else
        match lib.UnmarshalFramework body with
        | Except.error err => Except.error ("failed to parse response: " ++ err)
        | Except.ok response => Except.ok (some response)

/-- `GetProject` of client/project.go up to the parsing of the body: `parse` is
the rest of the function, which runs for status 200 only and yields the
project, the absent result or a parse error. -/
def GetProject {P : Type} (parse : String → Except String (Option P)) (res : Response) :
    Except String (Option P) :=
  match res with
  | Except.error err => Except.error err
  | Except.ok (body, statusCode) =>
      if statusCode = 404 ∨ statusCode = 204 then Except.ok none
      else if statusCode ≠ 200 then
        Except.error ("failed to get project: HTTP " ++ toString statusCode)
      else parse body

/-- `GetServiceNowConfig` of client/servicenow.go up to the parsing of the
body: `parse` is the rest of the function, which runs for status 200 only. -/
def GetServiceNowConfig {P : Type} (parse : String → Except String (Option P))
    (res : Response) : Except String (Option P) :=
  match res with
  | Except.error err => Except.error err
  | Except.ok (body, statusCode) =>
      if statusCode = 404 ∨ statusCode = 204 then Except.ok none
      else if statusCode ≠ 200 then
        Except.error ("failed to get ServiceNow config: HTTP " ++ toString statusCode)
      else parse body

/-! ## client/jwt.go: GetJWTConfig -/

/-- `JWTConfig` of client/jwt.go. -/
structure JWTConfig where
  SystemName : String
  SystemID : String
  JWTSecret : String
  JWTType : Int
  deriving DecidableEq, Repr

/-- The inner loop of `searchLoop`: some identifier candidate of the system is
not empty and equal to `targetID` up to case. -/
def matchesTarget {F : Type} (lib : ClientLib F) (targetID : String)
    (system : SystemFramework) : Bool :=
  [TrimSpace system.SystemKey.SystemName, TrimSpace system.SystemID,
    TrimSpace system.SystemName].any
    (fun candidate => decide (candidate ≠ "") && lib.EqualFold candidate targetID)

/-- The loop `searchLoop` of `GetJWTConfig`: the first system of the catalog
that decodes and matches. -/
def searchLoop {F : Type} (golib : GoLib) (lib : ClientLib F) (targetID : String) :
    List String → Option SystemFramework
  | [] => none
  | systemStr :: rest =>
      match golib.UnmarshalSystem systemStr with
      | none => searchLoop golib lib targetID rest
      | some system =>
          if matchesTarget lib targetID system then some system
          else searchLoop golib lib targetID rest

/-- The end of `GetJWTConfig`, from the parsing of the system settings on;
`fetched3` is what `GetSystemFramework` returned to `ResolveSystemIDsToNames`. -/
def jwtConfigOf {F : Type} (golib : GoLib) (lib : ClientLib F)
    (fetched3 : Except String (Option SystemFrameworkResponse))
    (normalizedName targetID : String) (matchingSystem : SystemFramework) :
    Except String (Option JWTConfig) :=
  let trimmed := TrimSpace matchingSystem.SystemSetting
  let parsed : Except String (Option (List (String × GoValue F))) :=
    if trimmed ≠ "" then lib.UnmarshalMap trimmed else Except.ok none
  match parsed with
  | Except.error err =>
      Except.error ("failed to parse system settings for '" ++ normalizedName ++ "': " ++ err)
  | Except.ok settings =>
      let displayName :=
        match ResolveSystemIDsToNames golib fetched3 [targetID] with
        | Except.ok (first :: _) =>
            if TrimSpace first ≠ "" then TrimSpace first else normalizedName
        | _ => normalizedName
      let jwtConfig : JWTConfig :=
        { SystemName := displayName, SystemID := targetID, JWTSecret := "", JWTType := 1 }
      match settings with
      | none => Except.ok (some jwtConfig)
      | some settings =>
          let withSecret :=
            match mapGet settings "systemLevelJWTSecret" with
            | some (GoValue.string secret) => { jwtConfig with JWTSecret := secret }
            | _ => jwtConfig
          match mapGet settings "jwtType" with
          | some (GoValue.float64 jwtType) =>
              Except.ok (some { withSecret with JWTType := lib.float.toInt64 jwtType })
          | _ => Except.ok (some withSecret)

/-- `GetJWTConfig` of client/jwt.go; `fetched1`, `fetched2` and `fetched3` are
what the three calls of `GetSystemFramework` returned: the one of
`ResolveSystemNameToIDs`, the one of `GetJWTConfig` itself and the one of
`ResolveSystemIDsToNames`. -/
def GetJWTConfig {F : Type} (golib : GoLib) (lib : ClientLib F)
    (fetched1 fetched2 fetched3 : Except String (Option SystemFrameworkResponse))
    (systemName : String) : Except String (Option JWTConfig) :=
  let normalizedName := TrimSpace systemName
  if normalizedName = "" then
    Except.error "system name is required to fetch JWT configuration"
  else
    match ResolveSystemNameToIDs golib fetched1 [normalizedName] with
    | Except.error err =>
        if Contains (golib.ToLower err) "not found" then Except.ok none
        else Except.error err
    | Except.ok [] => Except.ok none
    | Except.ok (first :: _) =>
        let targetID := TrimSpace first
        if targetID = "" then
          Except.error ("system '" ++ normalizedName ++ "' returned empty identifier")
        else
          match fetched2 with
          | Except.error err => Except.error err
          | Except.ok none => Except.ok none
          | Except.ok (some response) =>
              match searchLoop golib lib targetID
                  (response.OwnSystemArr ++ response.ShareSystemArr) with
              | none => Except.ok none
              | some matchingSystem =>
                  jwtConfigOf golib lib fetched3 normalizedName targetID matchingSystem

/-! ## resource_log_labels.go: Read -/

/-- `logLabelsResourceModel` of resource_log_labels.go. -/
structure logLabelsResourceModel where
  ID : TFString
  ProjectName : TFString
  LabelSettings : List logLabelSettingModel
  deriving DecidableEq, Repr

/-- One iteration of the loop over `state.LabelSettings` in `Read`. -/
def readLabelStep {F : Type} (lib : ClientLib F) (currentLabels : List (String × String))
    (updatedSettings : List logLabelSettingModel) (setting : logLabelSettingModel) :
    List logLabelSettingModel :=
  let labelType := setting.LabelType.ValueString
  let apiField := MapLabelTypeToAPIField labelType
  match mapGet currentLabels apiField with
  | some labels =>
      if labels ≠ "" then
        match lib.Marshal (GoValue.string labels) with
        | Except.error _ => updatedSettings
        | Except.ok labelsJSON =>
            updatedSettings ++ [{ LabelType := StringValue labelType,
                                  LogLabelString := StringValue labelsJSON }]
      else updatedSettings
  | none => updatedSettings

/-- `Read` of the log labels resource; `fetched` is what `GetLogLabels`
returned.  The result is the error, `none` when the resource is removed from
the state, or the refreshed state. -/
def logLabelsResource.Read {F : Type} (lib : ClientLib F) (state : logLabelsResourceModel)
    (fetched : Except String (Option (List (String × String)))) :
    Except String (Option logLabelsResourceModel) :=
  match fetched with
  | Except.error err => Except.error ("Could not read log labels: " ++ err)
  | Except.ok currentLabels =>
      let currentLabels := currentLabels.getD []
      if currentLabels.length = 0 then Except.ok none
      else
        let updatedSettings := state.LabelSettings.foldl (readLabelStep lib currentLabels) []
        if updatedSettings.length = 0 then Except.ok none
        else Except.ok (some { state with LabelSettings := updatedSettings })

/-! ## resource_project.go: the project model -/

/-- A value of a scalar attribute of the Terraform plugin framework
(`types.Int64`, `types.Float64`, `types.String`, `types.Bool`). -/
inductive TFValue (F : Type) where
  | null
  | unknown
  | int64 (n : Int)
  | float64 (x : F)
  | string (s : String)
  | bool (b : Bool)
  deriving DecidableEq, Repr

/-- `IsNull`. -/
def TFValue.IsNull {F : Type} : TFValue F → Bool
  | TFValue.null => true
  | _ => false

/-- `ValueInt64`: zero for null and unknown. -/
def TFValue.ValueInt64 {F : Type} : TFValue F → Int
  | TFValue.int64 n => n
  | _ => 0

/-- `ValueFloat64`: zero for null and unknown. -/
def TFValue.ValueFloat64 {F : Type} (zero : F) : TFValue F → F
  | TFValue.float64 x => x
  | _ => zero

/-- `ValueString` of a scalar attribute: empty for null and unknown. -/
def TFValue.ValueString {F : Type} : TFValue F → String
  | TFValue.string s => s
  | _ => ""

/-- `ValueBool`: false for null and unknown. -/
def TFValue.ValueBool {F : Type} : TFValue F → Bool
  | TFValue.bool b => b
  | _ => false

/-- The attribute `log_label_settings`, a `types.List`. -/
inductive TFList where
  | null
  | unknown
  | known (elems : List logLabelSettingModel)
  deriving DecidableEq, Repr

/-- How a settings attribute is read from and written to the API: the helper
that reads it (`getInt64`, `getFloat64`, `getString`, `getBool`, and
`getJSONString` for the JSON attributes) and the type of the field of
`client.ProjectSettings` it is written to (a struct for `jsonStruct`, a
`[]interface{}` for `jsonList`). -/
inductive FieldKind where
  | int64
  | float64
  | string
  | bool
  | jsonStruct
  | jsonList
  deriving DecidableEq, Repr

/-- One settings attribute: the field of `projectResourceModel`, its kind, the
key of the API settings map (the JSON tag of the field of `ProjectSettings`)
and whether the tag has `omitempty`. -/
structure SettingField where
  name : String
  kind : FieldKind
  key : String
  omitEmpty : Bool
  deriving DecidableEq, Repr

/-- The settings attributes, first part (project, basic configuration, anomaly
and detection settings). -/
def settingFields1 : List SettingField :=
  [
    SettingField.mk "ProjectDisplayName" FieldKind.string "projectDisplayName" true,
    SettingField.mk "CValue" FieldKind.int64 "cValue" true,
    SettingField.mk "PValue" FieldKind.float64 "pValue" true,
    SettingField.mk "ProjectTimeZone" FieldKind.string "projectTimeZone" true,
    SettingField.mk "SamplingInterval" FieldKind.int64 "samplingInterval" true,
    SettingField.mk "UBLRetentionTime" FieldKind.int64 "UBLRetentionTime" true,
    SettingField.mk "AlertAverageTime" FieldKind.int64 "alertAverageTime" true,
    SettingField.mk "AlertHourlyCost" FieldKind.float64 "alertHourlyCost" true,
    SettingField.mk "AnomalyDetectionMode" FieldKind.int64 "anomalyDetectionMode" true,
    SettingField.mk "AnomalySamplingInterval" FieldKind.int64 "anomalySamplingInterval" true,
    SettingField.mk "AvgPerIncidentDowntimeCost" FieldKind.float64 "avgPerIncidentDowntimeCost" true,
    SettingField.mk "CausalPredictionSetting" FieldKind.int64 "causalPredictionSetting" true,
    SettingField.mk "CausalMinDelay" FieldKind.string "causalMinDelay" true,
    SettingField.mk "ColdEventThreshold" FieldKind.int64 "coldEventThreshold" true,
    SettingField.mk "ColdNumberLimit" FieldKind.int64 "coldNumberLimit" true,
    SettingField.mk "CollectAllRareEventsFlag" FieldKind.bool "collectAllRareEventsFlag" true,
    SettingField.mk "DailyModelSpan" FieldKind.int64 "dailyModelSpan" true,
    SettingField.mk "DisableLogCompressEvent" FieldKind.bool "disableLogCompressEvent" true,
    SettingField.mk "DisableModelKeywordStatsCollection" FieldKind.bool "disableModelKeywordStatsCollection" true,
    SettingField.mk "EnableAnomalyScoreEscalation" FieldKind.bool "enableAnomalyScoreEscalation" true,
    SettingField.mk "EnableHotEvent" FieldKind.bool "enableHotEvent" true,
    SettingField.mk "EnableNewAlertEmail" FieldKind.bool "enableNewAlertEmail" true,
    SettingField.mk "EnableStreamDetection" FieldKind.bool "enableStreamDetection" true,
    SettingField.mk "EscalationAnomalyScoreThreshold" FieldKind.string "escalationAnomalyScoreThreshold" true,
    SettingField.mk "FeatureOutlierSensitivity" FieldKind.string "featureOutlierSensitivity" true
  ]

/-- The settings attributes, second part. -/
def settingFields2 : List SettingField :=
  [
    SettingField.mk "FeatureOutlierThreshold" FieldKind.float64 "featureOutlierThreshold" true,
    SettingField.mk "HotEventCalmDownPeriod" FieldKind.int64 "hotEventCalmDownPeriod" true,
    SettingField.mk "HotEventDetectionMode" FieldKind.int64 "hotEventDetectionMode" true,
    SettingField.mk "HotEventThreshold" FieldKind.int64 "hotEventThreshold" true,
    SettingField.mk "HotNumberLimit" FieldKind.int64 "hotNumberLimit" true,
    SettingField.mk "IgnoreAnomalyScoreThreshold" FieldKind.string "ignoreAnomalyScoreThreshold" true,
    SettingField.mk "IgnoreInstanceForKB" FieldKind.bool "ignoreInstanceForKB" true,
    SettingField.mk "IncidentPredictionEventLimit" FieldKind.int64 "incidentPredictionEventLimit" true,
    SettingField.mk "IncidentPredictionWindow" FieldKind.int64 "incidentPredictionWindow" true,
    SettingField.mk "IncidentRelationSearchWindow" FieldKind.int64 "incidentRelationSearchWindow" true,
    SettingField.mk "InstanceConvertFlag" FieldKind.bool "instanceConvertFlag" true,
    SettingField.mk "InstanceDownEnable" FieldKind.bool "instanceDownEnable" true,
    SettingField.mk "IsEdgeBrain" FieldKind.bool "isEdgeBrain" true,
    SettingField.mk "IsGroupingByInstance" FieldKind.bool "isGroupingByInstance" true,
    SettingField.mk "IsTracePrompt" FieldKind.bool "isTracePrompt" true,
    SettingField.mk "ShowInstanceDown" FieldKind.bool "showInstanceDown" true,
    SettingField.mk "KeywordFeatureNumber" FieldKind.int64 "keywordFeatureNumber" true,
    SettingField.mk "KeywordSetting" FieldKind.int64 "keywordSetting" true,
    SettingField.mk "LargeProject" FieldKind.bool "largeProject" true,
    SettingField.mk "LogAnomalyEventBaseScore" FieldKind.string "logAnomalyEventBaseScore" true,
    SettingField.mk "LogDetectionMinCount" FieldKind.int64 "logDetectionMinCount" true,
    SettingField.mk "LogDetectionSize" FieldKind.int64 "logDetectionSize" true,
    SettingField.mk "LogPatternLimitLevel" FieldKind.int64 "logPatternLimitLevel" true,
    SettingField.mk "MaxLogModelSize" FieldKind.int64 "maxLogModelSize" true,
    SettingField.mk "MaximumDetectionWaitTime" FieldKind.int64 "maximumDetectionWaitTime" true
  ]

/-- The settings attributes, third part. -/
def settingFields3 : List SettingField :=
  [
    SettingField.mk "MaximumThreads" FieldKind.int64 "maximumThreads" true,
    SettingField.mk "ModelKeywordSetting" FieldKind.int64 "modelKeywordSetting" true,
    SettingField.mk "MultiLineFlag" FieldKind.bool "multiLineFlag" true,
    SettingField.mk "NlpFlag" FieldKind.bool "nlpFlag" true,
    SettingField.mk "PrettyJsonConvertorFlag" FieldKind.bool "prettyJsonConvertorFlag" true,
    SettingField.mk "MaximumRootCauseResultSize" FieldKind.int64 "maximumRootCauseResultSize" true,
    SettingField.mk "MinIncidentPredictionWindow" FieldKind.int64 "minIncidentPredictionWindow" true,
    SettingField.mk "MinValidModelSpan" FieldKind.int64 "minValidModelSpan" true,
    SettingField.mk "MultiHopSearchLevel" FieldKind.int64 "multiHopSearchLevel" true,
    SettingField.mk "MultiHopSearchLimit" FieldKind.string "multiHopSearchLimit" true,
    SettingField.mk "NewAlertFlag" FieldKind.bool "newAlertFlag" true,
    SettingField.mk "NewPatternNumberLimit" FieldKind.int64 "newPatternNumberLimit" true,
    SettingField.mk "NewPatternRange" FieldKind.int64 "newPatternRange" true,
    SettingField.mk "NormalEventCausalFlag" FieldKind.bool "normalEventCausalFlag" true,
    SettingField.mk "PredictionCountThreshold" FieldKind.int64 "predictionCountThreshold" true,
    SettingField.mk "PredictionProbabilityThreshold" FieldKind.float64 "predictionProbabilityThreshold" true,
    SettingField.mk "PredictionRuleActiveCondition" FieldKind.int64 "predictionRuleActiveCondition" true,
    SettingField.mk "PredictionRuleActiveThreshold" FieldKind.float64 "predictionRuleActiveThreshold" true,
    SettingField.mk "PredictionRuleFalsePositiveThreshold" FieldKind.int64 "predictionRuleFalsePositiveThreshold" true,
    SettingField.mk "PredictionRuleInactiveThreshold" FieldKind.float64 "predictionRuleInactiveThreshold" true,
    SettingField.mk "ProjectModelFlag" FieldKind.bool "projectModelFlag" true,
    SettingField.mk "Proxy" FieldKind.string "proxy" true,
    SettingField.mk "RareAnomalyType" FieldKind.int64 "rareAnomalyType" true,
    SettingField.mk "RareEventAlertThresholds" FieldKind.int64 "rareEventAlertThresholds" false,
    SettingField.mk "RareNumberLimit" FieldKind.int64 "rareNumberLimit" true
  ]

/-- The settings attributes, last part (up to the JSON attributes). -/
def settingFields4 : List SettingField :=
  [
    SettingField.mk "RetentionTime" FieldKind.int64 "retentionTime" true,
    SettingField.mk "RootCauseCountThreshold" FieldKind.int64 "rootCauseCountThreshold" true,
    SettingField.mk "RootCauseLogMessageSearchRange" FieldKind.int64 "rootCauseLogMessageSearchRange" true,
    SettingField.mk "RootCauseProbabilityThreshold" FieldKind.float64 "rootCauseProbabilityThreshold" true,
    SettingField.mk "RootCauseRankSetting" FieldKind.int64 "rootCauseRankSetting" true,
    SettingField.mk "SimilaritySensitivity" FieldKind.string "similaritySensitivity" true,
    SettingField.mk "TrainingFilter" FieldKind.bool "trainingFilter" true,
    SettingField.mk "MaxWebHookRequestSize" FieldKind.int64 "maxWebHookRequestSize" true,
    SettingField.mk "WebhookAlertDampening" FieldKind.int64 "webhookAlertDampening" true,
    SettingField.mk "WebhookBlackListSetStr" FieldKind.string "webhookBlackListSetStr" true,
    SettingField.mk "WebhookCriticalKeywordSetStr" FieldKind.string "webhookCriticalKeywordSetStr" true,
    SettingField.mk "WebhookTypeSetStr" FieldKind.string "webhookTypeSetStr" true,
    SettingField.mk "WebhookUrl" FieldKind.string "webhookUrl" true,
    SettingField.mk "WhitelistNumberLimit" FieldKind.int64 "whitelistNumberLimit" true,
    SettingField.mk "ZoneNameKey" FieldKind.string "zoneNameKey" false,
    SettingField.mk "BaseValueSetting" FieldKind.jsonStruct "baseValueSetting" true,
    SettingField.mk "CdfSetting" FieldKind.jsonList "cdfSetting" true,
    SettingField.mk "EmailSetting" FieldKind.jsonStruct "emailSetting" true,
    SettingField.mk "InstanceGroupingUpdate" FieldKind.jsonStruct "instanceGroupingUpdate" true,
    SettingField.mk "LlmEvaluationSetting" FieldKind.jsonStruct "llmEvaluationSetting" true,
    SettingField.mk "LogToLogSettingList" FieldKind.jsonList "logToLogSettingList" true,
    SettingField.mk "WebhookHeaderList" FieldKind.jsonList "webhookHeaderList" true,
    SettingField.mk "SharedUsernames" FieldKind.jsonList "sharedUsernames" true
  ]

/-- The 98 settings attributes, in the order in which `Create`, `Read` and
`Update` read them from the API response.  `Create` overrides the same 98
fields from the configuration and `populateSettings` writes the same 98 fields
(in other orders; every statement touches its own field only). -/
def settingFields : List SettingField :=
  settingFields1 ++ settingFields2 ++ settingFields3 ++ settingFields4

/-- `projectCreationConfigModel` of resource_project.go. -/
structure projectCreationConfigModel where
  DataType : TFString
  InstanceType : TFString
  ProjectCloudType : TFString
  InsightAgentType : TFString
  deriving DecidableEq, Repr

/-- `projectResourceModel` of resource_project.go; the 98 settings attributes
are held in `settings`, by the name of their field. -/
structure projectResourceModel (F : Type) where
  ID : TFString
  ProjectName : TFString
  SystemName : TFString
  ProjectCreationConfig : Option projectCreationConfigModel
  settings : String → TFValue F
  LogLabelSettings : TFList

/-- `ProjectConfig` of client/project.go. -/
structure ProjectConfig (F : Type) where
  ProjectName : String
  ProjectDisplayName : String
  SystemName : String
  DataType : String
  InstanceType : String
  ProjectCloudType : String
  InsightAgentType : String
  ProjectCreationType : String
  CValue : Int
  PValue : F
  Settings : Option (List (String × GoValue F))

/-- Assignment to one settings field. -/
def setField {F : Type} (m : String → TFValue F) (name : String) (v : TFValue F) :
    String → TFValue F :=
  fun n => if n = name then v else m n

/-- The helper `getInt64` of `Create`, `Read` and `Update`. -/
def getInt64 {F : Type} (lib : ClientLib F) (settings : List (String × GoValue F))
    (key : String) : TFValue F :=
  match mapGet settings key with
  | some (GoValue.float64 v) => TFValue.int64 (lib.float.toInt64 v)
  | some (GoValue.int64 v) => TFValue.int64 v
  | some (GoValue.int v) => TFValue.int64 v
  | _ => TFValue.null

/-- The helper `getFloat64`. -/
def getFloat64 {F : Type} (lib : ClientLib F) (settings : List (String × GoValue F))
    (key : String) : TFValue F :=
  match mapGet settings key with
  | some (GoValue.float64 v) => TFValue.float64 v
  | some (GoValue.int64 v) => TFValue.float64 (lib.float.ofInt v)
  | some (GoValue.int v) => TFValue.float64 (lib.float.ofInt v)
  | _ => TFValue.null

/-- The helper `getString`. -/
def getString {F : Type} (settings : List (String × GoValue F)) (key : String) : TFValue F :=
  match mapGet settings key with
  | some (GoValue.string str) => TFValue.string str
  | _ => TFValue.null

/-- The helper `getBool`. -/
def getBool {F : Type} (settings : List (String × GoValue F)) (key : String) : TFValue F :=
  match mapGet settings key with
  | some (GoValue.bool b) => TFValue.bool b
  | _ => TFValue.null

/-- The helper `getJSONString`. -/
def getJSONString {F : Type} (lib : ClientLib F) (settings : List (String × GoValue F))
    (key : String) : TFValue F :=
  match mapGet settings key with
  | none => TFValue.null
  | some GoValue.nil => TFValue.null
  | some (GoValue.string str) => TFValue.string str
  | some val =>
      match lib.Marshal val with
      | Except.ok jsonBytes => TFValue.string jsonBytes
      | Except.error _ => TFValue.null

/-- The value read from the API settings for a settings attribute. -/
def readField {F : Type} (lib : ClientLib F) (settings : List (String × GoValue F))
    (f : SettingField) : TFValue F :=
  match f.kind with
  | FieldKind.int64 => getInt64 lib settings f.key
  | FieldKind.float64 => getFloat64 lib settings f.key
  | FieldKind.string => getString settings f.key
  | FieldKind.bool => getBool settings f.key
  | FieldKind.jsonStruct => getJSONString lib settings f.key
  | FieldKind.jsonList => getJSONString lib settings f.key

/-- The block "Populate all fields from API response": every settings field
is assigned the value read from the API settings. -/
def populateFromAPI {F : Type} (lib : ClientLib F) (settings : List (String × GoValue F))
    (m : String → TFValue F) : String → TFValue F :=
  settingFields.foldl (fun m f => setField m f.name (readField lib settings f)) m

/-- The block "Always preserve config values over API values" of `Create`. -/
def preserveConfig {F : Type} (config : String → TFValue F) (m : String → TFValue F) :
    String → TFValue F :=
  settingFields.foldl
    (fun m f => if (config f.name).IsNull then m else setField m f.name (config f.name)) m

/-- Modelled from the specification (the numeric coercion rule and the settings
view as a tagged union): the recorded value of a field of kind `kind` for the
entry `entry` of the remote settings map.  An integer field truncates a float
and takes an integer as it is; a float field passes a float through and
converts an integer; a string or boolean field takes a value of its own type;
a JSON field takes a string as it is and, of any other value that is not nil,
the compact JSON text; every other entry, and the absence of an entry, gives
null. -/
def coerced {F : Type} (lib : ClientLib F) : FieldKind → Option (GoValue F) → TFValue F
  | _, none => TFValue.null
  | FieldKind.int64, some (GoValue.float64 x) => TFValue.int64 (lib.float.toInt64 x)
  | FieldKind.int64, some (GoValue.int64 n) => TFValue.int64 n
  | FieldKind.int64, some (GoValue.int n) => TFValue.int64 n
  | FieldKind.int64, some _ => TFValue.null
  | FieldKind.float64, some (GoValue.float64 x) => TFValue.float64 x
  | FieldKind.float64, some (GoValue.int64 n) => TFValue.float64 (lib.float.ofInt n)
  | FieldKind.float64, some (GoValue.int n) => TFValue.float64 (lib.float.ofInt n)
  | FieldKind.float64, some _ => TFValue.null
  | FieldKind.string, some (GoValue.string s) => TFValue.string s
  | FieldKind.string, some _ => TFValue.null
  | FieldKind.bool, some (GoValue.bool b) => TFValue.bool b
  | FieldKind.bool, some _ => TFValue.null
  | _, some GoValue.nil => TFValue.null
  | _, some (GoValue.string s) => TFValue.string s
  | _, some value =>
      match lib.Marshal value with
      | Except.ok text => TFValue.string text
      | Except.error _ => TFValue.null

/-- The helper `parseJSONField` of `populateSettings`. -/
def parseJSONField {F : Type} (lib : ClientLib F) (jsonStr : String) : GoValue F :=
  if jsonStr = "" then GoValue.nil
  else
    match lib.Unmarshal jsonStr with
    | Except.error _ => GoValue.string jsonStr
    | Except.ok result => result

/-- The text decoded into a struct field of `ProjectSettings`: the parsed
attribute marshalled again, when the attribute is set, parses to a value other
than nil and can be marshalled. -/
def structSource {F : Type} (lib : ClientLib F) (v : TFValue F) : Option String :=
  if v.IsNull then none
  else
    match parseJSONField lib v.ValueString with
    | GoValue.nil => none
    | parsed => (lib.Marshal parsed).toOption

/-- What one settings attribute contributes to the map that `populateSettings`
returns: the field of `ProjectSettings` is assigned when the attribute is not
null, the struct is marshalled (a field with `omitempty` is left out when it
holds the zero value of its type or an empty slice; a struct is never left
out) and decoded into a map (integers become `float64`).  The outer `none` is
the run-time panic of a failed type assertion `.([]interface{})`. -/
def settingEntry {F : Type} (lib : ClientLib F) (plan : String → TFValue F)
    (f : SettingField) : Option (Option (String × GoValue F)) :=
  let v := plan f.name
  match f.kind with
  | FieldKind.int64 =>
      let n := if v.IsNull then 0 else v.ValueInt64
      some (if f.omitEmpty ∧ n = 0 then none
        else some (f.key, GoValue.float64 (lib.float.ofInt n)))
  | FieldKind.float64 =>
      let x := if v.IsNull then lib.float.zero else v.ValueFloat64 lib.float.zero
      some (if f.omitEmpty ∧ lib.float.isZero x = true then none
        else some (f.key, GoValue.float64 x))
  | FieldKind.string =>
      let s := if v.IsNull then "" else v.ValueString
      some (if f.omitEmpty ∧ s = "" then none else some (f.key, GoValue.string s))
  | FieldKind.bool =>
      let b := if v.IsNull then false else v.ValueBool
      some (if f.omitEmpty ∧ b = false then none else some (f.key, GoValue.bool b))
  | FieldKind.jsonStruct =>
      some (some (f.key, lib.StructJSON f.key (structSource lib v)))
  | FieldKind.jsonList =>
      if v.IsNull then some (if f.omitEmpty then none else some (f.key, GoValue.nil))
      else
        match parseJSONField lib v.ValueString with
        | GoValue.slice elems =>
            some (if f.omitEmpty ∧ elems.isEmpty = true then none
              else some (f.key, GoValue.slice elems))
        | _ => none

/-- The struct fields of `ProjectSettings` that `populateSettings` never
assigns and that are marshalled all the same: a struct is not left out by
`omitempty`.  (`CompositeRCALimit`, an `int` that is never assigned, is left
out.) -/
def unassignedStructKeys : List String :=
  [ "logLabelSettingCreate", "logLabelSettingRemove", "logToMetricCreate",
    "logToMetricDelete", "logJsonTypeUpdate" ]

/-- The entries of the settings attributes in the map that `populateSettings`
returns; `none` as soon as one of them panics. -/
def collectEntries {F : Type} (lib : ClientLib F) (plan : String → TFValue F) :
    List SettingField → Option (List (String × GoValue F))
  | [] => some []
  | f :: rest =>
      match settingEntry lib plan f with
      | none => none
      | some entry =>
          match collectEntries lib plan rest with
          | none => none
          | some entries => some (entry.toList ++ entries)

/-- `populateSettings` of resource_project.go; `none` is a run-time panic.
The map is the list of its entries. -/
def populateSettings {F : Type} (lib : ClientLib F) (plan : projectResourceModel F) :
    Option (List (String × GoValue F)) :=
  match collectEntries lib plan.settings settingFields with
  | none => none
  | some entries =>
      let projectName :=
        if plan.ProjectName = TFString.null ∨ plan.ProjectName.ValueString = "" then []
        else [("projectName", GoValue.string plan.ProjectName.ValueString)]
      some (projectName ++ entries
        ++ unassignedStructKeys.map (fun key => (key, lib.StructJSON key none)))

/-- What the calls of the client returned during `Create` or `Update`: the
errors of `CreateProject`, `UpdateProject` and `CreateOrUpdateLogLabels`
(`none` for success) and the result of `GetProject`. -/
structure ProjectAPI (F : Type) where
  CreateProject : Option String
  UpdateProject : Option String
  GetProject : Except String (Option (ProjectConfig F))
  CreateOrUpdateLogLabels : Option String

/-- The settings of a project read back, an empty map when nil. -/
def settingsOf {F : Type} (project : ProjectConfig F) : List (String × GoValue F) :=
  project.Settings.getD []

/-- The loop that builds `normalizedSettings` in `Create`. -/
def normalizeSettings {F : Type} (lib : ClientLib F) (configSettings : List logLabelSettingModel) :
    List logLabelSettingModel :=
  configSettings.map (fun setting =>
    { LabelType := setting.LabelType,
      LogLabelString := StringValue (normalizeJSON lib.codec setting.LogLabelString.ValueString) })

/-- The state of `Create` after the read-back returned `project`: the
configuration with the fields read from the API when the project is there, the
plan otherwise, and in both cases the configured values over them. -/
def mergeReadBack {F : Type} (lib : ClientLib F) (plan config : projectResourceModel F)
    (project : Option (ProjectConfig F)) : projectResourceModel F :=
  let plan :=
    match project with
    | some project =>
        { config with
          ID := config.ProjectName,
          settings := populateFromAPI lib (settingsOf project) config.settings }
    | none => plan
  { plan with settings := preserveConfig config.settings plan.settings }

/-- The block "Process log_label_settings" of `Create`, with the following
block that records an empty list for a null attribute; `none` when applying
the labels fails. -/
def createLabels {F : Type} (lib : ClientLib F) (api : ProjectAPI F)
    (config plan : projectResourceModel F) : Option (projectResourceModel F) :=
  match config.LogLabelSettings with
  | TFList.known configSettings =>
      if configSettings.length > 0 then
        match api.CreateOrUpdateLogLabels with
        | some _ => none
        | none =>
            some { plan with
              LogLabelSettings := TFList.known (normalizeSettings lib configSettings) }
      else some plan
  | TFList.null => some { plan with LogLabelSettings := TFList.known [] }
  | TFList.unknown => some plan

/-- The block "Process log_label_settings" of `Update`. -/
def updateLabels {F : Type} (api : ProjectAPI F)
    (config plan : projectResourceModel F) : Option (projectResourceModel F) :=
  match config.LogLabelSettings with
  | TFList.known configSettings =>
      if configSettings.length > 0 then
        match api.CreateOrUpdateLogLabels with
        | some _ => none
        | none => some { plan with LogLabelSettings := config.LogLabelSettings }
      else some plan
  | TFList.null => some { plan with LogLabelSettings := TFList.known [] }
  | TFList.unknown => some plan

/-- The fields that do not come from the API are taken from the
configuration. -/
def keepConfigOnly {F : Type} (config plan : projectResourceModel F) :
    projectResourceModel F :=
  { plan with
    SystemName := config.SystemName,
    ProjectCreationConfig := config.ProjectCreationConfig }

/-- `Create` of the project resource: the state it records, `none` when it
returns with an error diagnostic or panics before it sets the state.  `plan`
and `config` are the plan and the configuration of the request. -/
def projectResource.Create {F : Type} (lib : ClientLib F) (api : ProjectAPI F)
    (plan config : projectResourceModel F) : Option (projectResourceModel F) :=
  match plan.ProjectCreationConfig with
  | none => none
  | some _ =>
      match api.CreateProject with
      | some _ => none
      | none =>
          let plan := { plan with ID := plan.ProjectName }
          match populateSettings lib plan with
          | none => none
          | some _ =>
              match api.GetProject with
              | Except.error _ => some config
              | Except.ok project =>
                  (createLabels lib api config (mergeReadBack lib plan config project)).map
                    (keepConfigOnly config)

/-- The state of `Update` after the read-back: the fields read from the API
when the project is there, the plan otherwise. -/
def refreshFromAPI {F : Type} (lib : ClientLib F) (api : ProjectAPI F)
    (plan : projectResourceModel F) : projectResourceModel F :=
  match api.GetProject with
  | Except.ok (some project) =>
      { plan with settings := populateFromAPI lib (settingsOf project) plan.settings }
  | _ => plan

/-- `Update` of the project resource: the state it records, `none` when it
returns with an error diagnostic or panics before it sets the state. -/
def projectResource.Update {F : Type} (lib : ClientLib F) (api : ProjectAPI F)
    (plan config : projectResourceModel F) : Option (projectResourceModel F) :=
  match populateSettings lib config with
  | none => none
  | some _ =>
      match api.UpdateProject with
      | some _ => none
      | none =>
          (updateLabels api config (refreshFromAPI lib api plan)).map (keepConfigOnly config)

/-! ## resource_servicenow.go: the identifier and its import -/

/-- The loop of `strings.Split` for a separator that is not empty, on
characters: `cur` is the piece being read, in reverse, and `skip` the number of
characters of a separator just found that are still to be passed over. -/
def splitLoop (sep : List Char) : Nat → List Char → List Char → List (List Char)
  | _, cur, [] => [cur.reverse]
  | skip + 1, cur, _ :: rest => splitLoop sep skip cur rest
  | 0, cur, c :: rest =>
      if sep.isPrefixOf (c :: rest) then
        cur.reverse :: splitLoop sep (sep.length - 1) [] rest
      else splitLoop sep 0 (c :: cur) rest

/-- `strings.Split`: the pieces of `s` between the occurrences of `sep`; an
empty separator splits after each character. -/
def Split (s sep : String) : List String :=
  if sep = "" then s.data.map (fun c => String.mk [c])
  else (splitLoop sep.data 0 [] s.data).map String.mk

/-- The attributes that `ImportState` sets. -/
structure servicenowImport where
  Account : String
  ServiceHost : String
  ID : String
  deriving DecidableEq, Repr

/-- `ImportState` of resource_servicenow.go: the attributes set, or the error
diagnostic (summary and detail). -/
def servicenowResource.ImportState (id : String) : Except (String × String) servicenowImport :=
  let parts := Split id "@"
  if parts.length ≠ 2 then
    Except.error ("Invalid Import ID", "Import ID must be in the format: account@service_host")
  else
    Except.ok { Account := parts.getD 0 "", ServiceHost := parts.getD 1 "", ID := id }

/-- The identifier that `Create` of resource_servicenow.go records:
`fmt.Sprintf("%s@%s", plan.Account.ValueString(), plan.ServiceHost.ValueString())`. -/
def servicenowResource.CreateID (account serviceHost : TFString) : String :=
  account.ValueString ++ "@" ++ serviceHost.ValueString

/-! ## resource_jwt_config.go: Create and Update -/

/-- The function `len` on a Go string: the number of bytes of its UTF-8
encoding. -/
def len (s : String) : Nat := s.utf8ByteSize

/-- A `types.Int64` of the Terraform plugin framework. -/
inductive TFInt64 where
  | null
  | unknown
  | known (n : Int)
  deriving DecidableEq, Repr

/-- `jwtConfigResourceModel` of resource_jwt_config.go. -/
structure jwtConfigResourceModel where
  ID : TFString
  SystemName : TFString
  JWTSecret : TFString
  JWTType : TFInt64
  deriving DecidableEq, Repr

/-- `resolveSystemID` of resource_jwt_config.go; `fetched` is what
`GetSystemFramework` returned to `ResolveSystemNameToIDs`. -/
def jwtConfigResource.resolveSystemID (lib : GoLib)
    (fetched : Except String (Option SystemFrameworkResponse)) (systemName : String) :
    Except String String :=
  let trimmedName := TrimSpace systemName
  if trimmedName = "" then Except.error "system name cannot be empty"
  else
    match ResolveSystemNameToIDs lib fetched [trimmedName] with
    | Except.error err => Except.error err
    | Except.ok [] => Except.error ("system '" ++ trimmedName ++ "' not found")
    | Except.ok (first :: _) =>
        let id := TrimSpace first
        if id = "" then
          Except.error ("system '" ++ trimmedName ++ "' returned empty identifier")
        else Except.ok id

/-- The calls of the client that `Create` and `Update` of the JWT resource
make. -/
inductive JWTCall where
  | GetSystemFramework
  | CreateOrUpdateJWTConfig (config : JWTConfig)
  deriving DecidableEq, Repr

/-- The body that `Create` and `Update` of resource_jwt_config.go share:
`failure` is the summary of the diagnostic of a failed remote call and
`setID` tells whether the identifier is set (`Create`) or kept (`Update`).
The result is the list of the calls made and the state recorded or the error
diagnostic (summary and detail); `fetched` is what `GetSystemFramework`
returned and `remote` what `CreateOrUpdateJWTConfig` returns. -/
def jwtConfigResource.apply (lib : GoLib) (failure detail : String) (setID : Bool)
    (fetched : Except String (Option SystemFrameworkResponse))
    (remote : JWTConfig → Option String) (plan : jwtConfigResourceModel) :
    List JWTCall × Except (String × String) jwtConfigResourceModel :=
  let jwtSecret := plan.JWTSecret.ValueString
  if len jwtSecret < 6 then
    ([], Except.error ("Invalid JWT Secret", "JWT secret must be at least 6 characters long."))
  else
    let resolving :=
      if TrimSpace plan.SystemName.ValueString = "" then [] else [JWTCall.GetSystemFramework]
    match jwtConfigResource.resolveSystemID lib fetched plan.SystemName.ValueString with
    | Except.error err =>
        (resolving, Except.error ("Error Resolving System Name",
          "Could not find system '" ++ plan.SystemName.ValueString ++ "': " ++ err))
    | Except.ok systemID =>
        let jwtType :=
          match plan.JWTType with
          | TFInt64.known n => n
          | _ => 1
        let jwtConfig : JWTConfig :=
          { SystemName := plan.SystemName.ValueString, SystemID := systemID,
            JWTSecret := jwtSecret, JWTType := jwtType }
        match remote jwtConfig with
        | some err =>
            (resolving ++ [JWTCall.CreateOrUpdateJWTConfig jwtConfig],
              Except.error (failure, detail ++ err))
        | none =>
            (resolving ++ [JWTCall.CreateOrUpdateJWTConfig jwtConfig],
              Except.ok
                { plan with
                  ID := if setID then plan.SystemName else plan.ID,
                  JWTType := TFInt64.known jwtType })

/-- `Create` of resource_jwt_config.go. -/
def jwtConfigResource.Create (lib : GoLib)
    (fetched : Except String (Option SystemFrameworkResponse))
    (remote : JWTConfig → Option String) (plan : jwtConfigResourceModel) :
    List JWTCall × Except (String × String) jwtConfigResourceModel :=
  jwtConfigResource.apply lib "Error Creating JWT Config" "Could not create JWT config: " true
    fetched remote plan

/-- `Update` of resource_jwt_config.go. -/
def jwtConfigResource.Update (lib : GoLib)
    (fetched : Except String (Option SystemFrameworkResponse))
    (remote : JWTConfig → Option String) (plan : jwtConfigResourceModel) :
    List JWTCall × Except (String × String) jwtConfigResourceModel :=
  jwtConfigResource.apply lib "Error Updating JWT Config" "Could not update JWT config: " false
    fetched remote plan

/-! ## resource_servicenow.go: alignSystemMappings and Read -/

/-- The first loop of `alignSystemMappings`, from index `i` on: the map
`idToName`. -/
def alignNames (systemNames : List String) :
    Nat → List String → List (String × String) → List (String × String)
  | _, [], idToName => idToName
  | i, id :: rest, idToName =>
      let trimmedID := TrimSpace id
      if trimmedID = "" then alignNames systemNames (i + 1) rest idToName
      else
        let name := if i < systemNames.length then TrimSpace (systemNames.getD i "") else ""
        let name := if name = "" then trimmedID else name
        alignNames systemNames (i + 1) rest (mapSet idToName trimmedID name)

/-- The second loop of `alignSystemMappings`: `seen` is the set of the
identifiers already appended. -/
def alignLoop (idToName : List (String × String)) :
    List String → List String → List String × List String → List String × List String
  | [], _, aligned => aligned
  | rawID :: rest, seen, aligned =>
      let id := TrimSpace rawID
      if id = "" then alignLoop idToName rest seen aligned
      else if id ∈ seen then alignLoop idToName rest seen aligned
      else
        alignLoop idToName rest (id :: seen)
          (aligned.1 ++ [id], aligned.2 ++ [(mapGet idToName id).getD ""])

/-- `alignSystemMappings` of resource_servicenow.go. -/
def alignSystemMappings (systemIDs systemNames : List String) : List String × List String :=
  if systemIDs.length = 0 then ([], systemNames)
  else alignLoop (alignNames systemNames 0 systemIDs []) systemIDs [] ([], [])

/-- The fields of `client.ServiceNowConfig` that `Read` uses for the system
lists. -/
structure ServiceNowConfig where
  SystemIDs : List String
  SystemNames : List String
  deriving DecidableEq, Repr

/-- The test of `Read` that the recorded identifiers are still valid: the API
reports as many identifiers, and each recorded identifier, trimmed, is among
the trimmed identifiers of the API. -/
def stateOrderKept (stateSystemIDs apiSystemIDs : List String) : Bool :=
  decide (stateSystemIDs.length = apiSystemIDs.length)
    && stateSystemIDs.all (fun stateID =>
      decide (TrimSpace stateID ∈ apiSystemIDs.map TrimSpace))

/-- `Read` of resource_servicenow.go, for the attributes `system_ids` and
`system_names`: the error diagnostic, `none` when the resource is removed from
the state, or the two lists recorded (`none` for the null list of names).
`fetched` is what `GetServiceNowConfig` returned, `resolve` is
`ResolveSystemIDsToNames`, and the two attributes of the prior state are
`none` when null or unknown. -/
def servicenowResource.Read (resolve : List String → Except String (List String))
    (fetched : Except String (Option ServiceNowConfig))
    (stateIDs stateNames : Option (List String)) :
    Except (String × String) (Option (List String × Option (List String))) :=
  match fetched with
  | Except.error err =>
      Except.error ("Error Reading ServiceNow Config",
        "Could not read ServiceNow config: " ++ err)
  | Except.ok none => Except.ok none
  | Except.ok (some config) =>
      let stateSystemNames := stateNames.getD []
      let stateSystemIDs := stateIDs.getD []
      if config.SystemIDs.length > 0 then
        let kept := stateOrderKept stateSystemIDs config.SystemIDs
        let systemIDs := if kept then stateSystemIDs else config.SystemIDs
        let resolvedNames := if kept then stateSystemNames else []
        if resolvedNames.length = 0 then
          let aligned :=
            match resolve systemIDs with
            | Except.ok names => alignSystemMappings systemIDs names
            | Except.error _ =>
                if config.SystemNames.length > 0 then
                  alignSystemMappings systemIDs config.SystemNames
                else alignSystemMappings systemIDs []
          Except.ok (some (aligned.1, some aligned.2))
        else Except.ok (some (systemIDs, some resolvedNames))
      else Except.ok (some (config.SystemIDs, none))

/-- The part of `Create` of resource_servicenow.go that resolves the two system
lists of the plan (`none` for a null or unknown list) and aligns them: the
error diagnostic, or the identifiers and names that are sent and recorded.
`fetched` is what `GetSystemFramework` returned. -/
def servicenowResource.CreateMappings (lib : GoLib)
    (fetched : Except String (Option SystemFrameworkResponse))
    (planSystemNames planSystemIDs : Option (List String)) :
    Except (String × String) (List String × List String) :=
  match planSystemNames with
  | some systemNames =>
      match ResolveSystemNameToIDs lib fetched systemNames with
      | Except.error err =>
          Except.error ("Error Resolving System Names",
            "Could not resolve system names to IDs: " ++ err)
      | Except.ok resolvedIDs => Except.ok (alignSystemMappings resolvedIDs systemNames)
  | none =>
      match planSystemIDs with
      | some systemIDs =>
          match ResolveSystemIDsToNames lib fetched systemIDs with
          | Except.error err =>
              Except.error ("Error Resolving System IDs",
                "Could not resolve system IDs to names: " ++ err)
          | Except.ok names => Except.ok (alignSystemMappings systemIDs names)
      | none => Except.ok (alignSystemMappings [] [])

/-- The distinct entries of a list, in the order of their first occurrence. -/
def distinctInOrder : List String → List String
  | [] => []
  | x :: rest => x :: (distinctInOrder rest).filter (fun y => decide (y ≠ x))

/-- The identifiers of a list that are not blank, trimmed. -/
def trimmedIDs (systemIDs : List String) : List String :=
  (systemIDs.map TrimSpace).filter (fun t => decide (t ≠ ""))

/-- The index of the last occurrence of the trimmed identifier `id` in
`systemIDs`. -/
def lastOccurrence (systemIDs : List String) (id : String) : Option Nat :=
  ((systemIDs.enum.filter (fun p => decide (TrimSpace p.2 = id))).getLast?).map (fun p => p.1)

/-- The name that goes with an identifier: the trimmed name at the index of
the last occurrence of the identifier, the identifier itself when that name is
blank or missing. -/
def alignedName (systemIDs systemNames : List String) (id : String) : String :=
  match (lastOccurrence systemIDs id).bind systemNames.get? with
  | none => id
  | some name => if TrimSpace name = "" then id else TrimSpace name

/-! ## client/loglabels.go: the mutex of the label operations -/

/-- What an operation does with `logLabelMutex` and the transport, in order. -/
inductive GateEvent where
  | lock
  | unlock
  | request (req : HTTPRequest)
  deriving DecidableEq, Repr

/-- The fields of `LogLabelSetting` that are sent. -/
structure LogLabelSetting where
  LabelType : String
  LogLabelString : String
  deriving DecidableEq, Repr

/-- The map `requestBody` of `CreateOrUpdateLogLabels`. -/
def createRequestBody {F : Type} (setting : LogLabelSetting) : GoValue F :=
  GoValue.map [("logLabelSettingCreate",
    GoValue.map [("labelType", GoValue.string setting.LabelType),
      ("logLabelString", GoValue.string setting.LogLabelString)])]

/-- The check of the response of a write in `CreateOrUpdateLogLabels`: the
error for a response that says `"success": false`. -/
def responseFailure {F : Type} (lib : ClientLib F) (body : String) : Option String :=
  match lib.UnmarshalMap body with
  | Except.error _ => none
  | Except.ok response =>
      match mapGet (response.getD []) "success" with
      | some (GoValue.bool false) =>
          match mapGet (response.getD []) "message" with
          | some (GoValue.string msg) => some ("log label configuration failed: " ++ msg)
          | _ => some "log label configuration failed"
      | _ => none

/-- The loop of `CreateOrUpdateLogLabels` from its `n`-th request on: the
requests sent and the error returned, `none` for success. -/
def createLoop {F : Type} (lib : ClientLib F) (c : Client) (transport : Transport)
    (path : String) : Nat → List LogLabelSetting → List HTTPRequest × Option String
  | _, [] => ([], none)
  | n, setting :: rest =>
      match DoRequest lib c transport n "POST" path (createRequestBody setting) with
      | (sent, Except.error err) => (sent, some err)
      | (sent, Except.ok (body, statusCode)) =>
          if statusCode ≠ 200 then
            (sent, some ("failed to create/update log label: HTTP " ++ toString statusCode
              ++ " - " ++ body))
          else
            match responseFailure lib body with
            | some err => (sent, some err)
            | none =>
                let next := createLoop lib c transport path (n + 1) rest
                (sent ++ next.1, next.2)

/-- `CreateOrUpdateLogLabels` of client/loglabels.go: what it does with the
mutex and the transport, in order (`logLabelMutex.Lock()`, the requests, the
deferred `logLabelMutex.Unlock()`), and the error returned, `none` for
success. -/
def CreateOrUpdateLogLabels {F : Type} (lib : ClientLib F) (c : Client) (transport : Transport)
    (projectName username : String) (settings : List LogLabelSetting) :
    List GateEvent × Option String :=
  let result := createLoop lib c transport (labelPath lib projectName username) 0 settings
  (GateEvent.lock :: (result.1.map GateEvent.request ++ [GateEvent.unlock]), result.2)

/-- What `DeleteLogLabels` does with the mutex and the transport, in order:
the function does not touch `logLabelMutex`, the events are its requests. -/
def DeleteLogLabels.events {F : Type} (lib : ClientLib F) (c : Client) (transport : Transport)
    (projectName username : String) (labelTypes : List String) : List GateEvent :=
  (DeleteLogLabels lib c transport projectName username labelTypes).1.map GateEvent.request

/-- The discipline of the gate on a sequence of events, `held` telling whether
the mutex is held at its start: the mutex is locked only when free and
unlocked only when held, every request is made while it is held, and it is
free at the end. -/
def gateDiscipline : Bool → List GateEvent → Bool
  | held, [] => !held
  | held, GateEvent.lock :: rest => !held && gateDiscipline true rest
  | held, GateEvent.unlock :: rest => held && gateDiscipline false rest
  | held, GateEvent.request _ :: rest => held && gateDiscipline held rest

/-- Two concurrent calls, named `false` and `true`, and the mutex they share:
the call that holds the mutex, the events each call has still to perform, and
the requests made so far, each with the call that made it. -/
structure GateState where
  holder : Option Bool
  pending : Bool → List GateEvent
  trace : List (Bool × HTTPRequest)

/-- The state before either call has started. -/
def GateState.initial (first second : List GateEvent) : GateState :=
  { holder := none, pending := fun b => if b then second else first, trace := [] }

/-- One step of the call `b`, when the scheduler picks it: `Lock` returns only
when the mutex is free (a call that waits for it makes no step), `Unlock`
frees it, a request is appended to the trace. -/
def GateState.step (s : GateState) (b : Bool) : GateState :=
  match s.pending b with
  | [] => s
  | GateEvent.lock :: rest =>
      if s.holder = none then
        { s with holder := some b, pending := fun t => if t = b then rest else s.pending t }
      else s
  | GateEvent.unlock :: rest =>
      { s with holder := none, pending := fun t => if t = b then rest else s.pending t }
  | GateEvent.request req :: rest =>
      { s with
        pending := fun t => if t = b then rest else s.pending t,
        trace := s.trace ++ [(b, req)] }

/-- The state after the scheduler has picked the calls of `schedule`, in
order. -/
def GateState.run (schedule : List Bool) (s : GateState) : GateState :=
  schedule.foldl GateState.step s

/-- The requests of one call all come before the requests of the other. -/
def Serialized (trace : List (Bool × HTTPRequest)) : Prop :=
  ∃ b before after, trace = before ++ after
    ∧ (∀ e ∈ before, e.1 = b) ∧ (∀ e ∈ after, e.1 = !b)

/-- The events of a call of `CreateOrUpdateLogLabels` that has not started. -/
def idleProg (p : List GateEvent) : Prop :=
  ∃ reqs : List HTTPRequest,
    p = GateEvent.lock :: (reqs.map GateEvent.request ++ [GateEvent.unlock])

/-- The events left to a call of `CreateOrUpdateLogLabels` that holds the
mutex. -/
def runningProg (p : List GateEvent) : Prop :=
  ∃ reqs : List HTTPRequest, p = reqs.map GateEvent.request ++ [GateEvent.unlock]

/-- The invariant of two concurrent calls of `CreateOrUpdateLogLabels`: each
call has finished, has not started, or holds the mutex; a call that has not
started has made no request; the requests of the call that holds the mutex
come after those of the other call; the trace is serialized. -/
structure GateInv (s : GateState) : Prop where
  shape : ∀ b, s.pending b = [] ∨ idleProg (s.pending b)
    ∨ (s.holder = some b ∧ runningProg (s.pending b))
  idle : ∀ b, idleProg (s.pending b) → ∀ e ∈ s.trace, e.1 = !b
  held : ∀ b, s.holder = some b → ∃ before after, s.trace = before ++ after
    ∧ (∀ e ∈ before, e.1 = !b) ∧ (∀ e ∈ after, e.1 = b)
  serial : Serialized s.trace

/-! ## An executable library for the examples -/

/-- The `float64` values of the examples are the integers. -/
def intFloat : Float64Ops Int where
  zero := 0
  isZero := fun x => decide (x = 0)
  ofInt := fun n => n
  toInt64 := fun x => x

/-- The backslash. -/
def backslash : Char := Char.ofNat 92

/-- The JSON text of a string whose characters need no escape other than the
one of the double quote and of the backslash. -/
def quoteJSON (s : String) : Option (List Char) :=
  (s.data.mapM (fun c =>
      if c = StringArray.dquote ∨ c = backslash then some [backslash, c]
      else if StringArray.isPlain c then some [c]
      else none)).map
    (fun parts => StringArray.dquote :: (parts.flatten ++ [StringArray.dquote]))

/-- The order of map keys in the output of `json.Marshal`: by bytes. -/
def charsLE : List Char → List Char → Bool
  | [], _ => true
  | _ :: _, [] => false
  | a :: as, b :: bs =>
      if a.toNat < b.toNat then true
      else if b.toNat < a.toNat then false
      else charsLE as bs

def insertMember {α : Type} (m : String × α) : List (String × α) → List (String × α)
  | [] => [m]
  | x :: xs => if charsLE m.1.data x.1.data then m :: x :: xs else x :: insertMember m xs

def sortMembers {α : Type} (members : List (String × α)) : List (String × α) :=
  members.foldr insertMember []

/-- The base64 alphabet. -/
def base64Char (n : Nat) : Char :=
  if n < 26 then Char.ofNat (65 + n)
  else if n < 52 then Char.ofNat (97 + (n - 26))
  else if n < 62 then Char.ofNat (48 + (n - 52))
  else if n = 62 then '+'
  else '/'

/-- Standard base64 with padding, of a list of bytes. -/
def base64 : List Nat → List Char
  | [] => []
  | [a] => [base64Char (a / 4), base64Char (a % 4 * 16), '=', '=']
  | [a, b] =>
      [base64Char (a / 4), base64Char (a % 4 * 16 + b / 16), base64Char (b % 16 * 4), '=']
  | a :: b :: c :: rest =>
      base64Char (a / 4) :: base64Char (a % 4 * 16 + b / 16)
        :: base64Char (b % 16 * 4 + c / 64) :: base64Char (c % 64) :: base64 rest

/-- The bytes of an ASCII string. -/
def asciiBytes (s : String) : Option (List Nat) :=
  s.data.mapM (fun c => if c.toNat < 128 then some c.toNat else none)

/-- Separates the encoded elements with commas. -/
def joinComma : List (List Char) → List Char
  | [] => []
  | [x] => x
  | x :: rest => x ++ (',' :: joinComma rest)

/-- The compact encoding `json.Marshal` of values of bounded depth, numbers
being integers. -/
def encodeJSON : Nat → GoValue Int → Option (List Char)
  | 0, _ => none
  | _ + 1, GoValue.nil => some "null".data
  | _ + 1, GoValue.bool b => some (if b then "true".data else "false".data)
  | _ + 1, GoValue.float64 x => some (toString x).data
  | _ + 1, GoValue.int64 n => some (toString n).data
  | _ + 1, GoValue.int n => some (toString n).data
  | _ + 1, GoValue.string s => quoteJSON s
  | _ + 1, GoValue.bytes data =>
      (asciiBytes data).map (fun bs => StringArray.dquote :: (base64 bs ++ [StringArray.dquote]))
  | fuel + 1, GoValue.slice elems =>
      (elems.mapM (encodeJSON fuel)).map (fun parts => '[' :: (joinComma parts ++ [']']))
  | fuel + 1, GoValue.map members =>
      ((sortMembers members).mapM (fun (m : String × GoValue Int) =>
          match quoteJSON m.1, encodeJSON fuel m.2 with
          | some k, some v => some (k ++ (':' :: v))
          | _, _ => none)).map
        (fun parts => Char.ofNat 123 :: (joinComma parts ++ [Char.ofNat 125]))

/-- The body of the label endpoint in the examples. -/
def keywordsJSON : String := "\x7b\"keywords\":\x7b\"whitelist\":[\"ERROR\"]\x7d\x7d"

/-- The library of the examples: arrays of plain strings are decoded, values of
depth at most eight are encoded, names are compared by their ASCII lower case
and need no escaping in a URL. -/
def exampleClientLib : ClientLib Int where
  Unmarshal := fun s =>
    match StringArray.codec.Unmarshal s with
    | some xs => Except.ok (GoValue.slice (xs.map GoValue.string))
    | none => Except.error "invalid character"
  Marshal := fun v =>
    match encodeJSON 8 v with
    | some cs => Except.ok (String.mk cs)
    | none => Except.error "json: unsupported value"
  float := intFloat
  EqualFold := fun a b => decide (asciiLower a = asciiLower b)
  QueryEscape := fun s => s
  UnmarshalFramework := fun _ => Except.error "unexpected end of JSON input"
  UnmarshalKeywords := fun s =>
    if s = keywordsJSON then
      Except.ok [("whitelist", GoValue.slice [GoValue.string "ERROR"])]
    else Except.error "unexpected end of JSON input"
  UnmarshalMap := fun _ => Except.error "unexpected end of JSON input"
  StructJSON := fun _ _ => GoValue.map []

/-- The client of the examples. -/
def exampleClient : Client :=
  { BaseURL := "https://if.example", Username := "user", LicenseKey := "key",
    HTTPClient := { Timeout := Second * 30 } }

/-! ## Example data for the project resource -/

/-- A project model with no settings attribute set. -/
def exampleModel : projectResourceModel Int :=
  { ID := TFString.null, ProjectName := StringValue "proj1", SystemName := StringValue "sysA",
    ProjectCreationConfig := some
      { DataType := StringValue "Log", InstanceType := StringValue "PrivateCloud",
        ProjectCloudType := StringValue "PrivateCloud", InsightAgentType := TFString.null },
    settings := fun _ => TFValue.null,
    LogLabelSettings := TFList.null }

/-- The model with one settings attribute set. -/
def withSetting (m : projectResourceModel Int) (name : String) (v : TFValue Int) :
    projectResourceModel Int :=
  { m with settings := setField m.settings name v }

/-- A project read back with the given settings map. -/
def projectWith (settings : List (String × GoValue Int)) : ProjectConfig Int :=
  { ProjectName := "proj1", ProjectDisplayName := "", SystemName := "", DataType := "",
    InstanceType := "", ProjectCloudType := "", InsightAgentType := "",
    ProjectCreationType := "", CValue := 0, PValue := 0, Settings := some settings }

/-- Every call of the client succeeds and the project is read back with the
given settings map. -/
def apiReturning (settings : List (String × GoValue Int)) : ProjectAPI Int :=
  { CreateProject := none, UpdateProject := none,
    GetProject := Except.ok (some (projectWith settings)),
    CreateOrUpdateLogLabels := none }

/-- The model with the given label settings declared. -/
def withLabels (m : projectResourceModel Int) (labels : List logLabelSettingModel) :
    projectResourceModel Int :=
  { m with LogLabelSettings := TFList.known labels }

/-- The plan that the framework derives from a configuration on `Create`: the
settings attributes are optional and computed, so an attribute that the
configuration leaves null is unknown in the plan. -/
def plannedFrom (config : projectResourceModel Int) : projectResourceModel Int :=
  { config with
    settings := fun name =>
      if (config.settings name).IsNull then TFValue.unknown else config.settings name }

/-- A configuration that declares `c_value = 7` and the four list attributes as
empty arrays. -/
def declaredModel : projectResourceModel Int :=
  withSetting (withSetting (withSetting (withSetting
    (withSetting exampleModel "CValue" (TFValue.int64 7))
    "CdfSetting" (TFValue.string "[]"))
    "LogToLogSettingList" (TFValue.string "[]"))
    "WebhookHeaderList" (TFValue.string "[]"))
    "SharedUsernames" (TFValue.string "[]")

/-- The settings that the remote reports in the examples. -/
def remoteSettings : List (String × GoValue Int) :=
  [ ("cValue", GoValue.float64 5), ("pValue", GoValue.float64 2),
    ("samplingInterval", GoValue.float64 600), ("proxy", GoValue.string "http://proxy"),
    ("enableHotEvent", GoValue.bool true), ("retentionTime", GoValue.string "long"),
    ("emailSetting", GoValue.slice [GoValue.string "a"]) ]

/-! # Properties -/

/-! ## Go maps -/

theorem mapGet_mapSet_same {β : Type} (m : List (String × β)) (k : String) (v : β) :
    mapGet (mapSet m k v) k = some v := by
  induction m with
  | nil => simp [mapSet, mapGet]
  | cons p rest ih =>
    obtain ⟨k0, v0⟩ := p
    by_cases h : k0 = k
    · simp [mapSet, mapGet, h]
    · simp [mapSet, mapGet, h, ih]

theorem mapGet_mapSet_other {β : Type} (m : List (String × β)) (k k2 : String) (v : β)
    (h : k ≠ k2) : mapGet (mapSet m k v) k2 = mapGet m k2 := by
  induction m with
  | nil => simp [mapSet, mapGet, h]
  | cons p rest ih =>
    obtain ⟨k0, v0⟩ := p
    by_cases h0 : k0 = k
    · subst h0
      simp [mapSet, mapGet, h]
    · simp only [mapSet, h0, if_false, mapGet, ih]

/-! ## The string-array codec -/

namespace StringArray

theorem lex_plain (cs : List Char) :
    ∀ (st : Option (List Char)) (toks : List Token), lex st cs = some toks →
      (∀ acc, st = some acc → ∀ c ∈ acc, isPlain c = true) →
      ∀ s, Token.str s ∈ toks → ∀ c ∈ s, isPlain c = true := by
  induction cs with
  | nil =>
    intro st toks h _ s hs
    cases st with
    | none => simp [lex] at h; subst h; simp at hs
    | some acc => simp [lex] at h
  | cons c cs ih =>
    intro st toks h hacc s hs
    cases st with
    | none =>
      have hnone : ∀ acc, (none : Option (List Char)) = some acc → ∀ c ∈ acc, isPlain c = true := by
        intro acc h0; cases h0
      simp only [lex] at h
      split_ifs at h with h1 h2 h3 h4 h5
      · exact ih none toks h hnone s hs
      · simp only [Option.map_eq_some'] at h
        obtain ⟨t, ht, rfl⟩ := h
        simp only [List.mem_cons] at hs
        rcases hs with hs | hs
        · cases hs
        · exact ih none t ht hnone s hs
      · simp only [Option.map_eq_some'] at h
        obtain ⟨t, ht, rfl⟩ := h
        simp only [List.mem_cons] at hs
        rcases hs with hs | hs
        · cases hs
        · exact ih none t ht hnone s hs
      · simp only [Option.map_eq_some'] at h
        obtain ⟨t, ht, rfl⟩ := h
        simp only [List.mem_cons] at hs
        rcases hs with hs | hs
        · cases hs
        · exact ih none t ht hnone s hs
      · refine ih (some []) toks h ?_ s hs
        intro acc h0 c hc
        cases h0
        simp at hc
    | some acc =>
      have hnone : ∀ acc, (none : Option (List Char)) = some acc → ∀ c ∈ acc, isPlain c = true := by
        intro acc h0; cases h0
      simp only [lex] at h
      split_ifs at h with h1 h2
      · simp only [Option.map_eq_some'] at h
        obtain ⟨t, ht, rfl⟩ := h
        simp only [List.mem_cons] at hs
        rcases hs with hs | hs
        · cases hs
          intro c hc
          exact hacc acc rfl c (List.mem_reverse.mp hc)
        · exact ih none t ht hnone s hs
      · refine ih (some (c :: acc)) toks h ?_ s hs
        intro acc2 h0 c2 hc2
        cases h0
        simp only [List.mem_cons] at hc2
        rcases hc2 with rfl | hc2
        · exact h2
        · exact hacc acc rfl c2 hc2

theorem parseElems_plain (toks : List Token) :
    ∀ v, parseElems toks = some v →
      (∀ s, Token.str s ∈ toks → ∀ c ∈ s, isPlain c = true) → allPlain v = true := by
  induction toks using parseElems.induct with
  | case1 => intro v h _; simp [parseElems] at h; subst h; simp [allPlain]
  | case2 s rest ih =>
    intro v h hp
    simp only [parseElems, Option.map_eq_some'] at h
    obtain ⟨w, hw, rfl⟩ := h
    have h1 := ih w hw (fun s2 hs2 => hp s2 (by simp [hs2]))
    have h2 := hp s (by simp)
    simp only [allPlain, List.all_cons, Bool.and_eq_true] at *
    exact ⟨by simpa using h2, h1⟩
  | case3 toks h1 h2 =>
    intro v h _
    rw [parseElems] at h
    · cases h
    · exact h1
    · exact h2

theorem unmarshal_plain (s : String) (v : List String) (h : codec.Unmarshal s = some v) :
    allPlain v = true := by
  simp only [codec, Option.bind_eq_some] at h
  obtain ⟨toks, hlex, hparse⟩ := h
  have hp := lex_plain s.data none toks hlex (by intro acc h0; cases h0)
  unfold parseArray at hparse
  split at hparse
  · cases hparse
    simp [allPlain]
  · rename_i x rest
    simp only [Option.map_eq_some'] at hparse
    obtain ⟨w, hw, rfl⟩ := hparse
    have h1 := parseElems_plain _ w hw (fun s2 hs2 => hp s2 (by simp [hs2]))
    have h2 := hp x (by simp)
    simp only [allPlain, List.all_cons, Bool.and_eq_true] at *
    exact ⟨by simpa using h2, h1⟩
  · cases hparse

theorem isPlain_ne_dquote (c : Char) (h : isPlain c = true) : c ≠ dquote := by
  intro hc
  subst hc
  revert h
  decide

theorem lex_string (s : List Char) :
    ∀ (acc rest : List Char), (∀ c ∈ s, isPlain c = true) →
      lex (some acc) (s ++ dquote :: rest)
        = (lex none rest).map (Token.str (acc.reverse ++ s) :: ·) := by
  induction s with
  | nil => intro acc rest _; simp [lex]
  | cons c cs ih =>
    intro acc rest hp
    have hc : isPlain c = true := hp c (by simp)
    have hq : c ≠ dquote := isPlain_ne_dquote c hc
    rw [List.cons_append, lex]
    simp only [hq, if_false, hc, if_true]
    rw [ih (c :: acc) rest (fun d hd => hp d (by simp [hd]))]
    simp

theorem lex_renderElems (v : List String) (hv : allPlain v = true) :
    ∃ toks, lex none (renderElems v) = some toks ∧ parseElems toks = some v := by
  induction v with
  | nil => exact ⟨[Token.rbracket], by decide, by simp [parseElems]⟩
  | cons s rest ih =>
    simp only [allPlain, List.all_cons, Bool.and_eq_true] at hv
    obtain ⟨toks, h1, h2⟩ := ih (by simpa [allPlain] using hv.2)
    refine ⟨Token.comma :: Token.str s.data :: toks, ?_, ?_⟩
    · have hs : ∀ c ∈ s.data, isPlain c = true := by simpa using hv.1
      have hlex := lex_string s.data [] (renderElems rest) hs
      have hcomma : lex none (',' :: (quote s ++ renderElems rest))
          = (lex none (quote s ++ renderElems rest)).map (Token.comma :: ·) := by
        rw [lex]
        simp only [show isJSONSpace ',' = false by decide, show ¬ (',' = '[') by decide,
          show ¬ (',' = ']') by decide, if_false, if_true, Bool.false_eq_true]
      have hquote : lex none (quote s ++ renderElems rest)
          = lex (some []) (s.data ++ dquote :: renderElems rest) := by
        simp only [quote, List.cons_append, List.append_assoc, List.singleton_append,
        List.nil_append]
        rw [lex]
        simp only [show isJSONSpace dquote = false by decide, show ¬ (dquote = '[') by decide,
          show ¬ (dquote = ']') by decide, show ¬ (dquote = ',') by decide, if_false, if_true,
          Bool.false_eq_true]
      rw [renderElems, hcomma, hquote, hlex, h1]
      simp
    · simp [parseElems, h2]

theorem unmarshal_render (v : List String) (hv : allPlain v = true) :
    codec.Unmarshal (String.mk (render v)) = some v := by
  cases v with
  | nil => decide
  | cons s rest =>
    simp only [allPlain, List.all_cons, Bool.and_eq_true] at hv
    obtain ⟨toks, h1, h2⟩ := lex_renderElems rest (by simpa [allPlain] using hv.2)
    have hs : ∀ c ∈ s.data, isPlain c = true := by simpa using hv.1
    have hlex := lex_string s.data [] (renderElems rest) hs
    have hbr : lex none ('[' :: (quote s ++ renderElems rest))
        = (lex none (quote s ++ renderElems rest)).map (Token.lbracket :: ·) := by
      rw [lex]
      simp only [show isJSONSpace '[' = false by decide, if_false, if_true,
        Bool.false_eq_true]
    have hquote : lex none (quote s ++ renderElems rest)
        = lex (some []) (s.data ++ dquote :: renderElems rest) := by
      simp only [quote, List.cons_append, List.append_assoc, List.singleton_append,
        List.nil_append]
      rw [lex]
      simp only [show isJSONSpace dquote = false by decide, show ¬ (dquote = '[') by decide,
        show ¬ (dquote = ']') by decide, show ¬ (dquote = ',') by decide, if_false, if_true,
        Bool.false_eq_true]
    simp only [codec, render, hbr, hquote, hlex, h1]
    simp [parseArray, h2]

theorem codec_rejectsEmpty : codec.RejectsEmpty := by
  unfold JSONCodec.RejectsEmpty
  decide

theorem codec_encodesDecoded : codec.EncodesDecoded := by
  intro s v h
  have hp := unmarshal_plain s v h
  exact ⟨String.mk (render v), by simp [codec, hp]⟩

theorem codec_emptyArrayCompact : codec.EmptyArrayCompact := by
  intro v h
  have h0 : codec.Unmarshal "[]" = some [] := by decide
  rw [h0] at h
  cases h
  decide

theorem codec_canonical : codec.Canonical := by
  intro v out v2 out2 h1 h2 h3
  have hv : allPlain v = true := by
    by_contra hv
    simp [codec, hv] at h1
  have hout : out = String.mk (render v) := by
    simp [codec, hv] at h1
    exact h1.symm
  rw [hout, unmarshal_render v hv] at h2
  cases h2
  rw [h1] at h3
  cases h3
  rfl

end StringArray

/-! ## normalizeJSON -/

theorem normalizeJSON_of_marshal {V : Type} (json : JSONCodec V)
    (hEmpty : json.RejectsEmpty) (hArr : json.EmptyArrayCompact)
    (s : String) (v : V) (out : String)
    (h : json.Unmarshal s = some v) (hm : json.Marshal v = some out) :
    normalizeJSON json s = out := by
  unfold normalizeJSON
  by_cases h0 : s = ""
  · subst h0
    rw [hEmpty] at h
    cases h
  · by_cases h1 : s = "[]"
    · subst h1
      have := hArr v h
      rw [this] at hm
      cases hm
      simp
    · simp [h0, h1, h, hm]

theorem normalizeJSON_cases {V : Type} (json : JSONCodec V) (s : String) :
    normalizeJSON json s = s ∨
      ∃ v out, json.Marshal v = some out ∧ normalizeJSON json s = out := by
  unfold normalizeJSON
  split_ifs with h
  · exact Or.inl rfl
  · cases hu : json.Unmarshal s with
    | none => exact Or.inl rfl
    | some v =>
      cases hm : json.Marshal v with
      | none => exact Or.inl (by simp [hm])
      | some out => exact Or.inr ⟨v, out, hm, by simp [hm]⟩

theorem normalizeJSON_fixes_marshalled {V : Type} (json : JSONCodec V)
    (hCanon : json.Canonical) (v : V) (out : String) (hm : json.Marshal v = some out) :
    normalizeJSON json out = out := by
  unfold normalizeJSON
  split_ifs with h
  · rfl
  · cases hu : json.Unmarshal out with
    | none => rfl
    | some v2 =>
      cases hm2 : json.Marshal v2 with
      | none => simp [hm2]
      | some out2 =>
        simp only [hm2]
        exact hCanon v out v2 out2 hm hu hm2

/-! ## convertLogLabelsToState -/

theorem mapGet_mem {β : Type} (m : List (String × β)) (k : String) (v : β)
    (h : mapGet m k = some v) : (k, v) ∈ m := by
  induction m with
  | nil => simp [mapGet] at h
  | cons p rest ih =>
    obtain ⟨k0, v0⟩ := p
    by_cases h0 : k0 = k
    · simp [mapGet, h0] at h
      simp [h0, h]
    · simp only [mapGet, h0, if_false] at h
      exact List.mem_cons_of_mem _ (ih h)

theorem table_value_mem_defaultOrder (apiField labelType : String)
    (h : mapGet apiFieldToLabelType apiField = some labelType) :
    labelType ∈ defaultOrder := by
  have hmem := mapGet_mem _ _ _ h
  have hall : ∀ p ∈ apiFieldToLabelType, p.2 ∈ defaultOrder := by decide
  exact hall _ hmem

theorem hasRuleSet_mem_defaultOrder (apiLabels : List (String × String)) (labelType : String)
    (h : hasRuleSet apiLabels labelType = true) : labelType ∈ defaultOrder := by
  simp only [hasRuleSet, List.any_eq_true, Bool.and_eq_true, decide_eq_true_eq] at h
  obtain ⟨entry, _, ⟨htab, _⟩, _⟩ := h
  exact table_value_mem_defaultOrder _ _ htab

theorem apiDataStep_isSome {V : Type} (json : JSONCodec V) (m : List (String × String))
    (entry : String × String) (labelType : String) :
    (mapGet (apiDataStep json m entry) labelType).isSome
      = ((mapGet m labelType).isSome
          || (decide (mapGet apiFieldToLabelType entry.1 = some labelType)
              && decide (entry.2 ≠ "") && decide (entry.2 ≠ "[]"))) := by
  unfold apiDataStep
  cases htab : mapGet apiFieldToLabelType entry.1 with
  | none => simp
  | some lt0 =>
    by_cases hne : entry.2 ≠ "" ∧ entry.2 ≠ "[]"
    · simp only []
      rw [if_pos hne]
      by_cases hlt : lt0 = labelType
      · subst hlt
        simp [mapGet_mapSet_same, hne.1, hne.2]
      · rw [mapGet_mapSet_other _ _ _ _ hlt]
        simp [hlt]
    · simp only []
      rw [if_neg hne]
      have : (decide (entry.2 ≠ "") && decide (entry.2 ≠ "[]")) = false := by
        by_cases h1 : entry.2 = ""
        · simp [h1]
        · by_cases h2 : entry.2 = "[]"
          · simp [h2]
          · exact absurd ⟨h1, h2⟩ hne
      rw [Bool.and_assoc, this]
      simp

theorem foldl_apiDataStep_isSome {V : Type} (json : JSONCodec V)
    (apiLabels : List (String × String)) :
    ∀ (m : List (String × String)) (labelType : String),
      (mapGet (apiLabels.foldl (apiDataStep json) m) labelType).isSome
        = ((mapGet m labelType).isSome || hasRuleSet apiLabels labelType) := by
  induction apiLabels with
  | nil => intro m lt; simp [hasRuleSet]
  | cons entry rest ih =>
    intro m lt
    rw [List.foldl_cons, ih, apiDataStep_isSome]
    simp only [hasRuleSet, List.any_cons, Bool.or_assoc]

theorem buildApiDataMap_isSome {V : Type} (json : JSONCodec V)
    (apiLabels : List (String × String)) (labelType : String) :
    (mapGet (buildApiDataMap json apiLabels) labelType).isSome
      = hasRuleSet apiLabels labelType := by
  unfold buildApiDataMap
  rw [foldl_apiDataStep_isSome]
  simp [mapGet]

theorem firstPass_result (D : List (String × String)) (prev : List logLabelSettingModel) :
    ∀ st : List logLabelSettingModel × List String,
      (prev.foldl (firstPassStep D) st).1
        = st.1 ++ prev.filterMap (fun e => settingFor D e.LabelType.ValueString) := by
  induction prev with
  | nil => intro st; simp
  | cons e rest ih =>
    intro st
    rw [List.foldl_cons, ih]
    cases h : mapGet D e.LabelType.ValueString with
    | none => simp [firstPassStep, settingFor, h]
    | some js => simp [firstPassStep, settingFor, h]

theorem firstPass_processed (D : List (String × String)) (prev : List logLabelSettingModel) :
    ∀ (st : List logLabelSettingModel × List String) (labelType : String),
      labelType ∈ (prev.foldl (firstPassStep D) st).2
        ↔ labelType ∈ st.2
            ∨ (labelType ∈ labelTypes prev ∧ (mapGet D labelType).isSome = true) := by
  induction prev with
  | nil => intro st lt; simp [labelTypes]
  | cons e rest ih =>
    intro st lt
    rw [List.foldl_cons, ih]
    cases h : mapGet D e.LabelType.ValueString with
    | none =>
      simp only [firstPassStep, h, labelTypes, List.map_cons, List.mem_cons]
      constructor
      · rintro (h1 | ⟨h2, h3⟩)
        · exact Or.inl h1
        · exact Or.inr ⟨Or.inr h2, h3⟩
      · rintro (h1 | ⟨h2 | h2, h3⟩)
        · exact Or.inl h1
        · subst h2
          rw [h] at h3
          cases h3
        · exact Or.inr ⟨h2, h3⟩
    | some js =>
      simp only [firstPassStep, h, labelTypes, List.map_cons, List.mem_cons]
      constructor
      · rintro ((h1 | h1) | ⟨h2, h3⟩)
        · subst h1
          exact Or.inr ⟨Or.inl rfl, by simp [h]⟩
        · exact Or.inl h1
        · exact Or.inr ⟨Or.inr h2, h3⟩
      · rintro (h1 | ⟨h2 | h2, h3⟩)
        · exact Or.inl (Or.inr h1)
        · exact Or.inl (Or.inl h2)
        · exact Or.inr ⟨h2, h3⟩

theorem secondPass_result (D : List (String × String)) (processed : List String)
    (order : List String) :
    ∀ result : List logLabelSettingModel,
      order.foldl (secondPassStep D processed) result
        = result ++ order.filterMap (fun labelType =>
            if labelType ∈ processed then none else settingFor D labelType) := by
  induction order with
  | nil => intro result; simp
  | cons lt rest ih =>
    intro result
    rw [List.foldl_cons, ih]
    by_cases hp : lt ∈ processed
    · simp [secondPassStep, hp]
    · cases h : mapGet D lt with
      | none => simp [secondPassStep, hp, settingFor, h]
      | some js => simp [secondPassStep, hp, settingFor, h]

theorem convert_eq_aligned {V : Type} (json : JSONCodec V)
    (apiLabels : List (String × String)) (existingState : List logLabelSettingModel) :
    convertLogLabelsToState json apiLabels existingState
      = aligned (buildApiDataMap json apiLabels) existingState := by
  unfold convertLogLabelsToState aligned
  generalize buildApiDataMap json apiLabels = D
  by_cases hlen : existingState.length > 0
  · simp only [hlen, if_true]
    rw [secondPass_result, firstPass_result]
    simp only [List.nil_append]
    congr 1
    apply List.filterMap_congr
    intro lt _
    have hproc := firstPass_processed D existingState ([], []) lt
    simp only [List.not_mem_nil, false_or] at hproc
    by_cases hmem : lt ∈ labelTypes existingState
    · cases h : mapGet D lt with
      | none =>
        have : ¬ lt ∈ (existingState.foldl (firstPassStep D) ([], [])).2 := by
          rw [hproc]; simp [h]
        simp [this, hmem, settingFor, h]
      | some js =>
        have : lt ∈ (existingState.foldl (firstPassStep D) ([], [])).2 := by
          rw [hproc]; simp [h, hmem]
        simp [this, hmem]
    · have : ¬ lt ∈ (existingState.foldl (firstPassStep D) ([], [])).2 := by
        rw [hproc]; simp [hmem]
      simp [this, hmem]
  · have hnil : existingState = [] := by
      cases existingState with
      | nil => rfl
      | cons e rest => simp at hlen
    subst hnil
    simp only [List.length_nil, gt_iff_lt, lt_self_iff_false, if_false]
    rw [secondPass_result]
    simp [labelTypes]

theorem labelTypes_nil : labelTypes [] = [] := rfl

theorem labelTypes_cons (e : logLabelSettingModel) (l : List logLabelSettingModel) :
    labelTypes (e :: l) = e.LabelType.ValueString :: labelTypes l := rfl

theorem labelTypes_append (l1 l2 : List logLabelSettingModel) :
    labelTypes (l1 ++ l2) = labelTypes l1 ++ labelTypes l2 := by
  simp [labelTypes]

theorem settingFor_none (D : List (String × String)) (lt : String) (h : mapGet D lt = none) :
    settingFor D lt = none := by
  simp [settingFor, h]

theorem settingFor_some (D : List (String × String)) (lt js : String)
    (h : mapGet D lt = some js) :
    settingFor D lt = some { LabelType := StringValue lt, LogLabelString := StringValue js } := by
  simp [settingFor, h]

theorem valueString_stringValue (s : String) : (StringValue s).ValueString = s := rfl

theorem labelTypes_aligned (D : List (String × String)) (prev : List logLabelSettingModel) :
    labelTypes (aligned D prev)
      = (labelTypes prev).filter (fun lt => (mapGet D lt).isSome)
        ++ defaultOrder.filter (fun lt =>
            (mapGet D lt).isSome && !decide (lt ∈ labelTypes prev)) := by
  have h1 : ∀ l : List logLabelSettingModel,
      labelTypes (l.filterMap (fun e => settingFor D e.LabelType.ValueString))
        = (labelTypes l).filter (fun lt => (mapGet D lt).isSome) := by
    intro l
    induction l with
    | nil => rfl
    | cons e rest ih =>
      cases h : mapGet D e.LabelType.ValueString with
      | none =>
        simp only [List.filterMap_cons, settingFor_none _ _ h, labelTypes_cons,
          List.filter_cons, h, Option.isSome_none, Bool.false_eq_true, if_false, ih]
      | some js =>
        simp only [List.filterMap_cons, settingFor_some _ _ _ h, labelTypes_cons,
          List.filter_cons, h, Option.isSome_some, if_true, ih, valueString_stringValue]
  have h2 : ∀ l : List String,
      labelTypes (l.filterMap (fun lt =>
          if lt ∈ labelTypes prev then none else settingFor D lt))
        = l.filter (fun lt => (mapGet D lt).isSome && !decide (lt ∈ labelTypes prev)) := by
    intro l
    induction l with
    | nil => rfl
    | cons lt rest ih =>
      by_cases hmem : lt ∈ labelTypes prev
      · simp only [List.filterMap_cons, hmem, if_true, List.filter_cons, ih, decide_True,
          Bool.not_true, Bool.and_false, Bool.false_eq_true, if_false]
      · cases h : mapGet D lt with
        | none =>
          simp only [List.filterMap_cons, hmem, if_false, settingFor_none _ _ h,
            List.filter_cons, ih, h, Option.isSome_none, Bool.false_and, Bool.false_eq_true]
        | some js =>
          simp only [List.filterMap_cons, hmem, if_false, settingFor_some _ _ _ h,
            labelTypes_cons, valueString_stringValue, List.filter_cons, ih, h,
            Option.isSome_some, decide_False, Bool.not_false, Bool.and_self, if_true]
  unfold aligned
  rw [labelTypes_append, h1, h2]

theorem settingFor_labelType (D : List (String × String)) (lt : String)
    (e : logLabelSettingModel) (h : settingFor D lt = some e) :
    e.LabelType.ValueString = lt := by
  cases hg : mapGet D lt with
  | none => rw [settingFor_none _ _ hg] at h; cases h
  | some js =>
    rw [settingFor_some _ _ _ hg] at h
    cases h
    rfl

theorem mem_aligned_settingFor (D : List (String × String)) (prev : List logLabelSettingModel)
    (e : logLabelSettingModel) (h : e ∈ aligned D prev) :
    settingFor D e.LabelType.ValueString = some e := by
  unfold aligned at h
  rw [List.mem_append, List.mem_filterMap, List.mem_filterMap] at h
  rcases h with ⟨e0, _, h0⟩ | ⟨lt, _, h0⟩
  · rw [settingFor_labelType _ _ _ h0]
    exact h0
  · by_cases hm : lt ∈ labelTypes prev
    · simp [hm] at h0
    · simp only [hm, if_false] at h0
      rw [settingFor_labelType _ _ _ h0]
      exact h0

theorem filterMap_eq_self_of {α : Type} (f : α → Option α) (l : List α)
    (h : ∀ a ∈ l, f a = some a) : l.filterMap f = l := by
  induction l with
  | nil => rfl
  | cons a rest ih =>
    rw [List.filterMap_cons, h a (by simp)]
    simp only
    rw [ih (fun b hb => h b (List.mem_cons_of_mem _ hb))]

theorem mem_labelTypes_aligned (D : List (String × String)) (prev : List logLabelSettingModel)
    (lt : String) (hd : lt ∈ defaultOrder) (hs : (mapGet D lt).isSome = true) :
    lt ∈ labelTypes (aligned D prev) := by
  rw [labelTypes_aligned, List.mem_append, List.mem_filter, List.mem_filter]
  by_cases hm : lt ∈ labelTypes prev
  · exact Or.inl ⟨hm, hs⟩
  · exact Or.inr ⟨hd, by simp [hs, hm]⟩

theorem aligned_idempotent (D : List (String × String)) (prev : List logLabelSettingModel) :
    aligned D (aligned D prev) = aligned D prev := by
  have h1 : (aligned D prev).filterMap (fun e => settingFor D e.LabelType.ValueString)
      = aligned D prev :=
    filterMap_eq_self_of _ _ (fun e he => mem_aligned_settingFor D prev e he)
  have h2 : defaultOrder.filterMap (fun labelType =>
      if labelType ∈ labelTypes (aligned D prev) then none else settingFor D labelType) = [] := by
    rw [List.filterMap_eq_nil_iff]
    intro lt hlt
    by_cases hm : lt ∈ labelTypes (aligned D prev)
    · simp [hm]
    · simp only [hm, if_false]
      cases hg : mapGet D lt with
      | none => exact settingFor_none _ _ hg
      | some js => exact absurd (mem_labelTypes_aligned D prev lt hlt (by simp [hg])) hm
  have hdef : aligned D (aligned D prev)
      = (aligned D prev).filterMap (fun e => settingFor D e.LabelType.ValueString)
        ++ defaultOrder.filterMap (fun labelType =>
            if labelType ∈ labelTypes (aligned D prev) then none
            else settingFor D labelType) := rfl
  rw [hdef, h1, h2, List.append_nil]

theorem defaultOrder_nodup : defaultOrder.Nodup := by decide

theorem labelTypes_convert {V : Type} (json : JSONCodec V)
    (apiLabels : List (String × String)) (prev : List logLabelSettingModel) :
    labelTypes (convertLogLabelsToState json apiLabels prev)
      = (labelTypes prev).filter (fun lt => hasRuleSet apiLabels lt)
        ++ defaultOrder.filter (fun lt =>
            hasRuleSet apiLabels lt && !decide (lt ∈ labelTypes prev)) := by
  rw [convert_eq_aligned, labelTypes_aligned]
  simp only [buildApiDataMap_isSome]

/-! ## The claims on canonicalisation and label alignment -/

/-- C1. Two JSON texts that `json.Unmarshal` decodes to the same value are
normalised to the same bytes, for every `encoding/json` that rejects the empty
text, marshals what it decoded and marshals the empty array as `[]`. -/
theorem normalizeJSON_same_value {V : Type} (json : JSONCodec V)
    (hEmpty : json.RejectsEmpty) (hEnc : json.EncodesDecoded)
    (hArr : json.EmptyArrayCompact) (s1 s2 : String) (v : V)
    (h1 : json.Unmarshal s1 = some v) (h2 : json.Unmarshal s2 = some v) :
    normalizeJSON json s1 = normalizeJSON json s2 := by
  obtain ⟨out, hm⟩ := hEnc s1 v h1
  rw [normalizeJSON_of_marshal json hEmpty hArr s1 v out h1 hm,
    normalizeJSON_of_marshal json hEmpty hArr s2 v out h2 hm]

/-- Witness of C1: the example of the specification, an array written with and
without insignificant white space. -/
theorem normalizeJSON_same_value_witness :
    StringArray.codec.Unmarshal "[\"a\",\"b\"]" = some ["a", "b"]
      ∧ StringArray.codec.Unmarshal "[ \"a\" , \"b\" ]" = some ["a", "b"]
      ∧ normalizeJSON StringArray.codec "[\"a\",\"b\"]"
          = normalizeJSON StringArray.codec "[ \"a\" , \"b\" ]" :=
  ⟨by decide, by decide,
    normalizeJSON_same_value StringArray.codec StringArray.codec_rejectsEmpty
      StringArray.codec_encodesDecoded StringArray.codec_emptyArrayCompact
      "[\"a\",\"b\"]" "[ \"a\" , \"b\" ]" ["a", "b"] (by decide) (by decide)⟩

/-- C2. `normalizeJSON` is idempotent on every string, valid JSON or not, for
every `encoding/json` whose marshalled output is canonical. -/
theorem normalizeJSON_idempotent {V : Type} (json : JSONCodec V)
    (hCanon : json.Canonical) (s : String) :
    normalizeJSON json (normalizeJSON json s) = normalizeJSON json s := by
  rcases normalizeJSON_cases json s with h | ⟨v, out, hm, h⟩
  · rw [h]
    exact h
  · rw [h]
    exact normalizeJSON_fixes_marshalled json hCanon v out hm

/-- Witness of C2: an array with insignificant white space is normalised to
its compact form, which is a fixed point. -/
theorem normalizeJSON_idempotent_witness :
    normalizeJSON StringArray.codec "[ \"ERROR\" , \"WARN\" ]" = "[\"ERROR\",\"WARN\"]"
      ∧ normalizeJSON StringArray.codec
          (normalizeJSON StringArray.codec "[ \"ERROR\" , \"WARN\" ]")
        = normalizeJSON StringArray.codec "[ \"ERROR\" , \"WARN\" ]" :=
  ⟨by decide,
    normalizeJSON_idempotent StringArray.codec StringArray.codec_canonical
      "[ \"ERROR\" , \"WARN\" ]"⟩

/-- C3. Refreshing the label settings from an unchanged API response is a
fixed point: converting again with the converted list as the previous state
returns the same list, entry for entry. -/
theorem convertLogLabelsToState_fixed_point {V : Type} (json : JSONCodec V)
    (apiLabels : List (String × String)) (existingState : List logLabelSettingModel) :
    convertLogLabelsToState json apiLabels
        (convertLogLabelsToState json apiLabels existingState)
      = convertLogLabelsToState json apiLabels existingState := by
  rw [convert_eq_aligned json apiLabels existingState, convert_eq_aligned]
  exact aligned_idempotent _ _

/-- C4. The label types of the converted list are the previous label types
that have a non-empty rule set in the API response, in their previous order,
followed by the other label types with a non-empty rule set in the default
order; with no previous list it is the default order filtered to the types
present. -/
theorem convertLogLabelsToState_order {V : Type} (json : JSONCodec V)
    (apiLabels : List (String × String)) (existingState : List logLabelSettingModel) :
    labelTypes (convertLogLabelsToState json apiLabels existingState)
        = (labelTypes existingState).filter (fun lt => hasRuleSet apiLabels lt)
          ++ defaultOrder.filter (fun lt =>
              hasRuleSet apiLabels lt && !decide (lt ∈ labelTypes existingState))
      ∧ labelTypes (convertLogLabelsToState json apiLabels [])
        = defaultOrder.filter (fun lt => hasRuleSet apiLabels lt) := by
  refine ⟨labelTypes_convert json apiLabels existingState, ?_⟩
  rw [labelTypes_convert json apiLabels []]
  simp [labelTypes]

/-- C5 as stated fails: a label type repeated in the previous list is repeated
in the result. -/
theorem convertLogLabelsToState_repeats :
    hasRuleSet [("whitelist", "[\"ERROR\"]")] "whitelist" = true
      ∧ (labelTypes (convertLogLabelsToState StringArray.codec [("whitelist", "[\"ERROR\"]")]
          [mkSetting "whitelist" "[\"ERROR\"]", mkSetting "whitelist" "[\"ERROR\"]"])).count
            "whitelist" = 2 := by
  decide

/-- C5, amended. A label type occurs in the result exactly when it is a
recognised type with a non-empty rule set in the API response; it then occurs
as often as in the previous list, and once when the previous list does not
hold it. -/
theorem convertLogLabelsToState_types_count {V : Type} (json : JSONCodec V)
    (apiLabels : List (String × String)) (existingState : List logLabelSettingModel)
    (labelType : String) :
    (labelTypes (convertLogLabelsToState json apiLabels existingState)).count labelType
      = if labelType ∈ defaultOrder ∧ hasRuleSet apiLabels labelType = true then
          max 1 ((labelTypes existingState).count labelType)
        else 0 := by
  rw [labelTypes_convert json apiLabels existingState, List.count_append]
  by_cases hr : hasRuleSet apiLabels labelType = true
  · have hd : labelType ∈ defaultOrder := hasRuleSet_mem_defaultOrder _ _ hr
    rw [if_pos ⟨hd, hr⟩, List.count_filter (by simpa using hr)]
    by_cases hm : labelType ∈ labelTypes existingState
    · have h2 : List.count labelType (defaultOrder.filter (fun lt =>
          hasRuleSet apiLabels lt && !decide (lt ∈ labelTypes existingState))) = 0 := by
        apply List.count_eq_zero_of_not_mem
        simp [List.mem_filter, hm]
      have h1 : 1 ≤ List.count labelType (labelTypes existingState) :=
        List.count_pos_iff.mpr hm
      rw [h2, Nat.add_zero, max_eq_right h1]
    · have h1 : List.count labelType (labelTypes existingState) = 0 :=
        List.count_eq_zero_of_not_mem hm
      rw [h1, List.count_filter (by simp [hr, hm]),
        List.count_eq_one_of_mem defaultOrder_nodup hd]
      rfl
  · have h0 : ¬ (labelType ∈ defaultOrder ∧ hasRuleSet apiLabels labelType = true) :=
      fun h => hr h.2
    rw [if_neg h0]
    have h1 : List.count labelType ((labelTypes existingState).filter
        (fun lt => hasRuleSet apiLabels lt)) = 0 := by
      apply List.count_eq_zero_of_not_mem
      simp [List.mem_filter, hr]
    have h2 : List.count labelType (defaultOrder.filter (fun lt =>
        hasRuleSet apiLabels lt && !decide (lt ∈ labelTypes existingState))) = 0 := by
      apply List.count_eq_zero_of_not_mem
      simp [List.mem_filter, hr]
    rw [h1, h2]

/-! ## Name resolution -/

theorem registerName_get (lib : GoLib) (id : String) (m : List (String × String))
    (c key : String) :
    mapGet (registerName lib id m c) key
      = (mapGet m key).or (if c ≠ "" ∧ lib.ToLower c = key then some id else none) := by
  unfold registerName
  by_cases hc : c = ""
  · simp [hc, Option.or_none]
  · simp only [hc, if_false, ne_eq, not_false_eq_true, true_and]
    cases hg : mapGet m (lib.ToLower c) with
    | none =>
      simp only []
      by_cases hk : lib.ToLower c = key
      · subst hk
        simp [mapGet_mapSet_same, hg]
      · rw [mapGet_mapSet_other _ _ _ _ hk]
        simp [hk, Option.or_none]
    | some v =>
      simp only []
      by_cases hk : lib.ToLower c = key
      · subst hk
        simp [hg]
      · simp [hk, Option.or_none]

theorem mem_entryNames (lib : GoLib) (system : SystemFramework) (key : String) :
    key ∈ entryNames lib system
      ↔ (TrimSpace system.SystemDisplayName ≠ ""
            ∧ lib.ToLower (TrimSpace system.SystemDisplayName) = key)
          ∨ (TrimSpace system.SystemName ≠ ""
            ∧ lib.ToLower (TrimSpace system.SystemName) = key) := by
  unfold entryNames
  simp only [List.mem_map, List.mem_filter, List.mem_cons, List.mem_singleton,
    List.not_mem_nil, or_false, decide_eq_true_eq]
  constructor
  · rintro ⟨c, ⟨hc | hc, hne⟩, hk⟩
    · subst hc; exact Or.inl ⟨hne, hk⟩
    · subst hc; exact Or.inr ⟨hne, hk⟩
  · rintro (⟨hne, hk⟩ | ⟨hne, hk⟩)
    · exact ⟨_, ⟨Or.inl rfl, hne⟩, hk⟩
    · exact ⟨_, ⟨Or.inr rfl, hne⟩, hk⟩

theorem nameToIDStep_get (lib : GoLib) (m : List (String × String)) (systemStr key : String) :
    mapGet (nameToIDStep lib m systemStr) key
      = (mapGet m key).or
          (((lib.UnmarshalSystem systemStr).filter (answersTo lib key)).map resolvedID) := by
  unfold nameToIDStep
  cases hd : lib.UnmarshalSystem systemStr with
  | none => simp [Option.or_none]
  | some e =>
    simp only []
    by_cases hid : resolvedID e = ""
    · simp [hid, answersTo, Option.filter, Option.or_none]
    · simp only [hid, if_false, List.foldl_cons, List.foldl_nil]
      rw [registerName_get, registerName_get, Option.or_assoc]
      congr 1
      have hmem := mem_entryNames lib e key
      by_cases h1 : TrimSpace e.SystemDisplayName ≠ ""
          ∧ lib.ToLower (TrimSpace e.SystemDisplayName) = key
      · have : answersTo lib key e = true := by
          simp only [answersTo, Bool.and_eq_true, decide_eq_true_eq]
          exact ⟨hid, hmem.mpr (Or.inl h1)⟩
        simp [h1, Option.filter, this]
      · by_cases h2 : TrimSpace e.SystemName ≠ ""
            ∧ lib.ToLower (TrimSpace e.SystemName) = key
        · have : answersTo lib key e = true := by
            simp only [answersTo, Bool.and_eq_true, decide_eq_true_eq]
            exact ⟨hid, hmem.mpr (Or.inr h2)⟩
          simp [h1, h2, Option.filter, this]
        · have : answersTo lib key e = false := by
            have hnot : ¬ key ∈ entryNames lib e := by
              rw [hmem]
              rintro (h | h)
              · exact h1 h
              · exact h2 h
            simp [answersTo, hnot]
          simp [h1, h2, Option.filter, this]

theorem firstMatch_cons (lib : GoLib) (systemStr : String) (rest : List String)
    (key : String) :
    firstMatch lib (systemStr :: rest) key
      = ((lib.UnmarshalSystem systemStr).filter (answersTo lib key)).or
          (firstMatch lib rest key) := by
  unfold firstMatch catalogEntries
  rw [List.filterMap_cons]
  cases hd : lib.UnmarshalSystem systemStr with
  | none => simp [Option.filter]
  | some e =>
    simp only []
    by_cases ha : answersTo lib key e = true
    · simp [Option.filter, ha]
    · simp [Option.filter, ha]

theorem foldl_nameToIDStep_get (lib : GoLib) (systems : List String) :
    ∀ (m : List (String × String)) (key : String),
      mapGet (systems.foldl (nameToIDStep lib) m) key
        = (mapGet m key).or ((firstMatch lib systems key).map resolvedID) := by
  induction systems with
  | nil => intro m key; simp [firstMatch, catalogEntries, Option.or_none]
  | cons s rest ih =>
    intro m key
    rw [List.foldl_cons, ih, nameToIDStep_get, Option.or_assoc, firstMatch_cons]
    congr 1
    cases ((lib.UnmarshalSystem s).filter (answersTo lib key)) with
    | none => simp
    | some e => simp

theorem buildNameToID_get (lib : GoLib) (systems : List String) (key : String) :
    mapGet (buildNameToID lib systems) key = (firstMatch lib systems key).map resolvedID := by
  unfold buildNameToID
  rw [foldl_nameToIDStep_get]
  simp [mapGet]

theorem unmatched_eq (lib : GoLib) (systems : List String) (t : String) :
    unmatched lib systems t = (firstMatch lib systems (lib.ToLower t)).isNone := by
  unfold unmatched firstMatch
  cases hf : (catalogEntries lib systems).find? (answersTo lib (lib.ToLower t)) with
  | none =>
    rw [List.find?_eq_none] at hf
    simp only [Option.isNone_none, List.all_eq_true, Bool.not_eq_true']
    intro e he
    simpa using hf e he
  | some e =>
    have h1 := List.find?_some hf
    have h2 := List.mem_of_find?_eq_some hf
    simp only [Option.isNone_some]
    rw [Bool.eq_false_iff]
    intro hall
    rw [List.all_eq_true] at hall
    have := hall e h2
    simp [h1] at this

theorem buildNameToID_ne_nil (lib : GoLib) (systems : List String)
    (hcat : ∃ e ∈ catalogEntries lib systems, resolvedID e ≠ "" ∧ entryNames lib e ≠ []) :
    buildNameToID lib systems ≠ [] := by
  obtain ⟨e, he, hid, hnames⟩ := hcat
  obtain ⟨key, hkey⟩ := List.exists_mem_of_ne_nil _ hnames
  have hans : answersTo lib key e = true := by
    simp [answersTo, hid, hkey]
  have hsome : (firstMatch lib systems key).isSome = true := by
    unfold firstMatch
    rw [List.find?_isSome]
    exact ⟨e, he, hans⟩
  intro hnil
  have hget := buildNameToID_get lib systems key
  rw [hnil] at hget
  simp only [mapGet] at hget
  cases hf : firstMatch lib systems key with
  | none => rw [hf] at hsome; cases hsome
  | some e2 => rw [hf] at hget; cases hget

theorem buildNameToID_nil (lib : GoLib) : buildNameToID lib [] = [] := rfl

theorem lookupNames_blank (lib : GoLib) (m : List (String × String)) (names : List String) :
    ∀ (ids missing : List String), (∃ n ∈ names, TrimSpace n = "") →
      lookupNames lib m names ids missing = Except.error "system name cannot be empty" := by
  induction names with
  | nil => intro _ _ h; obtain ⟨n, hn, _⟩ := h; cases hn
  | cons n rest ih =>
    intro ids missing h
    unfold lookupNames
    by_cases hb : TrimSpace n = ""
    · simp [hb]
    · have hrest : ∃ n2 ∈ rest, TrimSpace n2 = "" := by
        obtain ⟨n2, hn2, hb2⟩ := h
        rcases List.mem_cons.mp hn2 with h0 | h0
        · subst h0; exact absurd hb2 hb
        · exact ⟨n2, h0, hb2⟩
      simp only [hb, if_false]
      cases mapGet m (lib.ToLower (TrimSpace n)) with
      | none => exact ih _ _ hrest
      | some id => exact ih _ _ hrest

theorem lookupNames_ok (lib : GoLib) (m : List (String × String)) (names : List String) :
    ∀ (ids missing : List String), (∀ n ∈ names, TrimSpace n ≠ "") →
      lookupNames lib m names ids missing
        = Except.ok
            (ids ++ names.filterMap (fun n => mapGet m (lib.ToLower (TrimSpace n))),
             missing ++ (names.map TrimSpace).filter
                (fun t => (mapGet m (lib.ToLower t)).isNone)) := by
  induction names with
  | nil => intro ids missing _; simp [lookupNames]
  | cons n rest ih =>
    intro ids missing h
    have hb : TrimSpace n ≠ "" := h n (by simp)
    have hrest : ∀ n2 ∈ rest, TrimSpace n2 ≠ "" := fun n2 hn2 => h n2 (by simp [hn2])
    unfold lookupNames
    simp only [hb, if_false]
    cases hg : mapGet m (lib.ToLower (TrimSpace n)) with
    | none =>
      simp only []
      rw [ih _ _ hrest]
      simp [List.filterMap_cons, hg, List.filter_cons]
    | some id =>
      simp only []
      rw [ih _ _ hrest]
      simp [List.filterMap_cons, hg, List.filter_cons]

theorem resolve_eq (lib : GoLib) (resp : SystemFrameworkResponse) (names : List String)
    (hnames : names ≠ [])
    (hmap : buildNameToID lib (resp.OwnSystemArr ++ resp.ShareSystemArr) ≠ [])
    (hnb : ∀ n ∈ names, TrimSpace n ≠ "") :
    ResolveSystemNameToIDs lib (Except.ok (some resp)) names
      = if (names.map TrimSpace).filter
            (fun t => unmatched lib (resp.OwnSystemArr ++ resp.ShareSystemArr) t) = [] then
          Except.ok (names.filterMap (fun n =>
            (firstMatch lib (resp.OwnSystemArr ++ resp.ShareSystemArr)
              (lib.ToLower (TrimSpace n))).map resolvedID))
        else
          Except.error ("system(s) not found: " ++ ", ".intercalate
            ((names.map TrimSpace).filter
              (fun t => unmatched lib (resp.OwnSystemArr ++ resp.ShareSystemArr) t))) := by
  have hsys : resp.OwnSystemArr ++ resp.ShareSystemArr ≠ [] := by
    intro h
    rw [h] at hmap
    exact hmap rfl
  have hfun : (fun t => (mapGet (buildNameToID lib (resp.OwnSystemArr ++ resp.ShareSystemArr))
        (lib.ToLower t)).isNone)
      = (fun t => unmatched lib (resp.OwnSystemArr ++ resp.ShareSystemArr) t) := by
    funext t
    rw [unmatched_eq, buildNameToID_get]
    cases firstMatch lib (resp.OwnSystemArr ++ resp.ShareSystemArr) (lib.ToLower t) <;> rfl
  have hfun2 : (fun n => mapGet (buildNameToID lib (resp.OwnSystemArr ++ resp.ShareSystemArr))
        (lib.ToLower (TrimSpace n)))
      = (fun n => (firstMatch lib (resp.OwnSystemArr ++ resp.ShareSystemArr)
              (lib.ToLower (TrimSpace n))).map resolvedID) := by
    funext n
    rw [buildNameToID_get]
  unfold ResolveSystemNameToIDs
  rw [if_neg (by simpa using hnames)]
  simp only []
  rw [if_neg (by simpa using hsys), if_neg (by simpa using hmap), lookupNames_ok _ _ _ _ _ hnb]
  simp only [List.nil_append, hfun, hfun2]
  by_cases hm : (names.map TrimSpace).filter
      (fun t => unmatched lib (resp.OwnSystemArr ++ resp.ShareSystemArr) t) = []
  · rw [if_pos hm, hm]
    simp
  · rw [if_neg hm, if_pos (List.length_pos.mpr hm)]

theorem firstMatch_isSome_of (lib : GoLib) (systems : List String) (key : String)
    (h : ∃ e ∈ catalogEntries lib systems, resolvedID e ≠ "" ∧ key ∈ entryNames lib e) :
    ∃ e, firstMatch lib systems key = some e := by
  obtain ⟨e, he, hid, hkey⟩ := h
  have hsome : (firstMatch lib systems key).isSome = true := by
    unfold firstMatch
    rw [List.find?_isSome]
    exact ⟨e, he, by simp [answersTo, hid, hkey]⟩
  exact Option.isSome_iff_exists.mp hsome

theorem forall₂_resolved (lib : GoLib) (systems : List String) (names : List String)
    (h : ∀ n ∈ names, ∃ e, firstMatch lib systems (lib.ToLower (TrimSpace n)) = some e) :
    List.Forall₂
      (fun n id => ∃ e, firstMatch lib systems (lib.ToLower (TrimSpace n)) = some e
        ∧ id = resolvedID e)
      names
      (names.filterMap (fun n =>
        (firstMatch lib systems (lib.ToLower (TrimSpace n))).map resolvedID)) := by
  induction names with
  | nil => exact List.Forall₂.nil
  | cons n rest ih =>
    obtain ⟨e, he⟩ := h n (by simp)
    rw [List.filterMap_cons, he]
    exact List.Forall₂.cons ⟨e, he, rfl⟩ (ih (fun n2 hn2 => h n2 (by simp [hn2])))

theorem filter_unmatched_nil (lib : GoLib) (systems : List String) (names : List String)
    (h : ∀ n ∈ names, ∃ e, firstMatch lib systems (lib.ToLower (TrimSpace n)) = some e) :
    (names.map TrimSpace).filter (fun t => unmatched lib systems t) = [] := by
  rw [List.filter_eq_nil_iff]
  intro t ht
  obtain ⟨n, hn, rfl⟩ := List.mem_map.mp ht
  obtain ⟨e, he⟩ := h n hn
  rw [unmatched_eq, he]
  simp

/-! ## The claims on name resolution -/

/-- C6 as stated fails: a requested name that folds to the display name of a
catalog entry without any identifier is reported as not found. -/
theorem ResolveSystemNameToIDs_entry_without_id :
    exampleLib.UnmarshalSystem nameOnlyJSON = some (mkSystem "" "X")
      ∧ exampleLib.ToLower (TrimSpace "x")
          = exampleLib.ToLower (TrimSpace (mkSystem "" "X").SystemDisplayName)
      ∧ exampleLib.ToLower (TrimSpace "sysa")
          = exampleLib.ToLower (TrimSpace (mkSystem "1" "sysA").SystemDisplayName)
      ∧ ResolveSystemNameToIDs exampleLib
          (Except.ok (some (mkResponse [sysAJSON, nameOnlyJSON] []))) ["sysa", "x"]
        = Except.error "system(s) not found: x" := by
  decide

/-- C6, amended. When every requested name is non-blank and folds to a
non-blank display or system name of a catalog entry that has a resolved
identifier, the call succeeds with one identifier per name, in input order:
the resolved identifier of the first such entry for that name. -/
theorem ResolveSystemNameToIDs_resolves (lib : GoLib) (resp : SystemFrameworkResponse)
    (systemNames : List String)
    (hmatch : ∀ n ∈ systemNames, TrimSpace n ≠ "" ∧
      ∃ e ∈ catalogEntries lib (resp.OwnSystemArr ++ resp.ShareSystemArr),
        resolvedID e ≠ "" ∧ lib.ToLower (TrimSpace n) ∈ entryNames lib e) :
    ∃ ids, ResolveSystemNameToIDs lib (Except.ok (some resp)) systemNames = Except.ok ids
      ∧ List.Forall₂
          (fun n id => ∃ e,
            firstMatch lib (resp.OwnSystemArr ++ resp.ShareSystemArr)
              (lib.ToLower (TrimSpace n)) = some e ∧ id = resolvedID e)
          systemNames ids := by
  cases hn : systemNames with
  | nil => exact ⟨[], by simp [ResolveSystemNameToIDs], List.Forall₂.nil⟩
  | cons n0 rest =>
    rw [← hn]
    have hne : systemNames ≠ [] := by rw [hn]; simp
    have hfound : ∀ n ∈ systemNames, ∃ e,
        firstMatch lib (resp.OwnSystemArr ++ resp.ShareSystemArr)
          (lib.ToLower (TrimSpace n)) = some e :=
      fun n hmem => firstMatch_isSome_of lib _ _ (hmatch n hmem).2
    have hmap : buildNameToID lib (resp.OwnSystemArr ++ resp.ShareSystemArr) ≠ [] := by
      obtain ⟨e, he, hid, hkey⟩ := (hmatch n0 (by rw [hn]; simp)).2
      exact buildNameToID_ne_nil lib _ ⟨e, he, hid, List.ne_nil_of_mem hkey⟩
    refine ⟨_, ?_, forall₂_resolved lib _ systemNames hfound⟩
    rw [resolve_eq lib resp systemNames hne hmap (fun n hmem => (hmatch n hmem).1),
      if_pos (filter_unmatched_nil lib _ systemNames hfound)]

/-- Witness of C6: the example of the specification, a case-insensitive match. -/
theorem ResolveSystemNameToIDs_resolves_witness :
    ResolveSystemNameToIDs exampleLib
        (Except.ok (some (mkResponse [sysAJSON, sysBJSON] []))) ["sysa"] = Except.ok ["1"]
      ∧ ∃ ids, ResolveSystemNameToIDs exampleLib
          (Except.ok (some (mkResponse [sysAJSON, sysBJSON] []))) ["sysa"] = Except.ok ids
        ∧ List.Forall₂
            (fun n id => ∃ e,
              firstMatch exampleLib ((mkResponse [sysAJSON, sysBJSON] []).OwnSystemArr
                  ++ (mkResponse [sysAJSON, sysBJSON] []).ShareSystemArr)
                (exampleLib.ToLower (TrimSpace n)) = some e ∧ id = resolvedID e)
            ["sysa"] ids :=
  ⟨by decide,
    ResolveSystemNameToIDs_resolves exampleLib (mkResponse [sysAJSON, sysBJSON] []) ["sysa"]
      (by
        intro n hn
        rw [List.mem_singleton] at hn
        subst hn
        exact ⟨by decide, mkSystem "1" "sysA", by decide, by decide, by decide⟩)⟩

/-- C7 as stated fails: the only named entry of the catalog has no identifier,
and the error for the unmatched name `y` does not list it. -/
theorem ResolveSystemNameToIDs_named_entry_without_id :
    exampleLib.UnmarshalSystem nameOnlyJSON = some (mkSystem "" "X")
      ∧ TrimSpace (mkSystem "" "X").SystemDisplayName = "X"
      ∧ TrimSpace "y" = "y"
      ∧ ResolveSystemNameToIDs exampleLib
          (Except.ok (some (mkResponse [nameOnlyJSON] []))) ["y"]
        = Except.error "no systems found" := by
  decide

/-- C7, amended. When some catalog entry has a resolved identifier and a
non-blank name, the requested names are all non-blank and one of them is
carried by no entry that has a resolved identifier, the call fails with the
not-found error that lists every such name, trimmed, in input order. -/
theorem ResolveSystemNameToIDs_lists_missing (lib : GoLib) (resp : SystemFrameworkResponse)
    (systemNames : List String)
    (hcat : ∃ e ∈ catalogEntries lib (resp.OwnSystemArr ++ resp.ShareSystemArr),
      resolvedID e ≠ "" ∧ entryNames lib e ≠ [])
    (hnb : ∀ n ∈ systemNames, TrimSpace n ≠ "")
    (hmiss : ∃ n ∈ systemNames,
      unmatched lib (resp.OwnSystemArr ++ resp.ShareSystemArr) (TrimSpace n) = true) :
    ResolveSystemNameToIDs lib (Except.ok (some resp)) systemNames
      = Except.error ("system(s) not found: " ++ ", ".intercalate
          ((systemNames.map TrimSpace).filter
            (fun t => unmatched lib (resp.OwnSystemArr ++ resp.ShareSystemArr) t))) := by
  obtain ⟨n, hn, hu⟩ := hmiss
  have hne : systemNames ≠ [] := List.ne_nil_of_mem hn
  have hfilter : (systemNames.map TrimSpace).filter
      (fun t => unmatched lib (resp.OwnSystemArr ++ resp.ShareSystemArr) t) ≠ [] := by
    apply List.ne_nil_of_mem (a := TrimSpace n)
    rw [List.mem_filter]
    exact ⟨List.mem_map.mpr ⟨n, hn, rfl⟩, hu⟩
  rw [resolve_eq lib resp systemNames hne (buildNameToID_ne_nil lib _ hcat) hnb,
    if_neg hfilter]

/-- Witness of C7: two of three names are missing and both are listed. -/
theorem ResolveSystemNameToIDs_lists_missing_witness :
    ResolveSystemNameToIDs exampleLib
        (Except.ok (some (mkResponse [sysAJSON] [sysBJSON]))) ["missing", "sysb", " gone "]
      = Except.error "system(s) not found: missing, gone"
    ∧ ResolveSystemNameToIDs exampleLib
        (Except.ok (some (mkResponse [sysAJSON] [sysBJSON]))) ["missing", "sysb", " gone "]
      = Except.error ("system(s) not found: " ++ ", ".intercalate
          ((["missing", "sysb", " gone "].map TrimSpace).filter
            (fun t => unmatched exampleLib
              ((mkResponse [sysAJSON] [sysBJSON]).OwnSystemArr
                ++ (mkResponse [sysAJSON] [sysBJSON]).ShareSystemArr) t))) :=
  ⟨by decide,
    ResolveSystemNameToIDs_lists_missing exampleLib (mkResponse [sysAJSON] [sysBJSON])
      ["missing", "sysb", " gone "]
      ⟨mkSystem "1" "sysA", by decide, by decide, by decide⟩
      (by decide) ⟨"missing", by decide, by decide⟩⟩

/-- C8 as stated fails: with an empty catalog a blank name is answered with
"no systems found". -/
theorem ResolveSystemNameToIDs_blank_empty_catalog :
    TrimSpace "" = ""
      ∧ ResolveSystemNameToIDs exampleLib (Except.ok (some (mkResponse [] []))) [""]
        = Except.error "no systems found" := by
  decide

/-- C8, amended. When some catalog entry has a resolved identifier and a
non-blank name, a list of requested names that contains a blank name fails as
a whole with "system name cannot be empty". -/
theorem ResolveSystemNameToIDs_blank (lib : GoLib) (resp : SystemFrameworkResponse)
    (systemNames : List String)
    (hcat : ∃ e ∈ catalogEntries lib (resp.OwnSystemArr ++ resp.ShareSystemArr),
      resolvedID e ≠ "" ∧ entryNames lib e ≠ [])
    (hblank : ∃ n ∈ systemNames, TrimSpace n = "") :
    ResolveSystemNameToIDs lib (Except.ok (some resp)) systemNames
      = Except.error "system name cannot be empty" := by
  have hmap := buildNameToID_ne_nil lib _ hcat
  have hsys : resp.OwnSystemArr ++ resp.ShareSystemArr ≠ [] := by
    intro h
    rw [h] at hmap
    exact hmap rfl
  have hne : systemNames ≠ [] := by
    obtain ⟨n, hn, _⟩ := hblank
    exact List.ne_nil_of_mem hn
  unfold ResolveSystemNameToIDs
  rw [if_neg (by simpa using hne)]
  simp only []
  rw [if_neg (by simpa using hsys), if_neg (by simpa using hmap),
    lookupNames_blank lib _ systemNames [] [] hblank]

/-- Witness of C8: a blank name after a resolvable and a missing one. -/
theorem ResolveSystemNameToIDs_blank_witness :
    ResolveSystemNameToIDs exampleLib
        (Except.ok (some (mkResponse [sysAJSON, sysBJSON] []))) ["sysa", "missing", "  "]
      = Except.error "system name cannot be empty" :=
  ResolveSystemNameToIDs_blank exampleLib (mkResponse [sysAJSON, sysBJSON] [])
    ["sysa", "missing", "  "]
    ⟨mkSystem "1" "sysA", by decide, by decide, by decide⟩
    ⟨"  ", by decide, by decide⟩

theorem idToNameStep_get (lib : GoLib) (m : List (String × String)) (systemStr id : String) :
    mapGet (idToNameStep lib m systemStr) id
      = ((((lib.UnmarshalSystem systemStr).filter (namesID id)).map displayNameOf)).or
          (mapGet m id) := by
  unfold idToNameStep
  cases hd : lib.UnmarshalSystem systemStr with
  | none => simp
  | some e =>
    simp only []
    by_cases hid : resolvedID e = ""
    · simp [hid, namesID, Option.filter]
    · rw [if_neg hid]
      have hdn : (if TrimSpace e.SystemDisplayName = "" then TrimSpace e.SystemName
          else TrimSpace e.SystemDisplayName) = displayNameOf e := rfl
      rw [hdn]
      by_cases hname : displayNameOf e = ""
      · simp [hname, namesID, Option.filter]
      · rw [if_neg hname]
        by_cases heq : resolvedID e = id
        · subst heq
          simp [mapGet_mapSet_same, namesID, Option.filter, hid, hname]
        · rw [mapGet_mapSet_other _ _ _ _ heq]
          simp [namesID, Option.filter, heq]

theorem lastNamed_cons (lib : GoLib) (systemStr : String) (rest : List String) (id : String) :
    lastNamed lib (systemStr :: rest) id
      = (lastNamed lib rest id).or ((lib.UnmarshalSystem systemStr).filter (namesID id)) := by
  unfold lastNamed catalogEntries
  rw [List.filterMap_cons]
  cases hd : lib.UnmarshalSystem systemStr with
  | none => simp [Option.filter, Option.or_none]
  | some e =>
    simp only [List.reverse_cons, List.find?_append]
    by_cases ha : namesID id e = true
    · simp [Option.filter, ha]
    · simp [Option.filter, ha]

theorem foldl_idToNameStep_get (lib : GoLib) (systems : List String) :
    ∀ (m : List (String × String)) (id : String),
      mapGet (systems.foldl (idToNameStep lib) m) id
        = ((lastNamed lib systems id).map displayNameOf).or (mapGet m id) := by
  induction systems with
  | nil => intro m id; simp [lastNamed, catalogEntries]
  | cons s rest ih =>
    intro m id
    rw [List.foldl_cons, ih, idToNameStep_get, lastNamed_cons]
    cases lastNamed lib rest id with
    | none => simp
    | some e => simp

theorem buildIDToName_get (lib : GoLib) (systems : List String) (id : String) :
    mapGet (buildIDToName lib systems) id = (lastNamed lib systems id).map displayNameOf := by
  unfold buildIDToName
  rw [foldl_idToNameStep_get]
  simp [mapGet, Option.or_none]

theorem foldl_lookupIDStep (lib : GoLib) (systems : List String) (ids : List String) :
    ∀ acc : List String,
      ids.foldl (lookupIDStep (buildIDToName lib systems)) acc
        = acc ++ ((ids.map TrimSpace).filter (fun t => decide (t ≠ ""))).map
            (nameOrID lib systems) := by
  induction ids with
  | nil => intro acc; simp
  | cons id rest ih =>
    intro acc
    rw [List.foldl_cons, ih]
    unfold lookupIDStep
    by_cases hb : TrimSpace id = ""
    · simp [hb, List.filter_cons]
    · simp only [hb, if_false, buildIDToName_get, List.map_cons, List.filter_cons, ne_eq,
        not_false_eq_true, decide_True, if_true]
      unfold nameOrID
      cases lastNamed lib systems (TrimSpace id) with
      | none => simp
      | some e => simp

theorem nameOrID_unknown (lib : GoLib) (systems : List String) (id : String)
    (h : ∀ e ∈ catalogEntries lib systems, resolvedID e ≠ id) :
    nameOrID lib systems id = id := by
  unfold nameOrID
  cases hl : lastNamed lib systems id with
  | none => rfl
  | some e =>
    unfold lastNamed at hl
    have h1 := List.find?_some hl
    have h2 := List.mem_reverse.mp (List.mem_of_find?_eq_some hl)
    simp only [namesID, Bool.and_eq_true, decide_eq_true_eq] at h1
    exact absurd h1.1.1 (h e h2)

/-- C9 as stated fails: for a fetched catalog without systems the call returns
the error "no systems found" instead of the requested id. -/
theorem ResolveSystemIDsToNames_empty_catalog :
    ResolveSystemIDsToNames exampleLib (Except.ok (some (mkResponse [] []))) ["9"]
      = Except.error "no systems found" := by
  decide

/-- C9, amended. For a fetched catalog with at least one system string the
call returns no error: it returns, for the requested ids that are not blank, in
order, the display name recorded for the trimmed id, and the trimmed id itself
when no catalog entry has that identifier. -/
theorem ResolveSystemIDsToNames_lenient (lib : GoLib) (resp : SystemFrameworkResponse)
    (systemIDs : List String)
    (hcat : resp.OwnSystemArr ++ resp.ShareSystemArr ≠ []) :
    ResolveSystemIDsToNames lib (Except.ok (some resp)) systemIDs
        = Except.ok (((systemIDs.map TrimSpace).filter (fun t => decide (t ≠ ""))).map
            (nameOrID lib (resp.OwnSystemArr ++ resp.ShareSystemArr)))
      ∧ ∀ t, (∀ e ∈ catalogEntries lib (resp.OwnSystemArr ++ resp.ShareSystemArr),
            resolvedID e ≠ t) →
          nameOrID lib (resp.OwnSystemArr ++ resp.ShareSystemArr) t = t := by
  refine ⟨?_, fun t ht => nameOrID_unknown lib _ t ht⟩
  unfold ResolveSystemIDsToNames
  by_cases hids : systemIDs.length = 0
  · have : systemIDs = [] := List.length_eq_zero.mp hids
    subst this
    simp
  · rw [if_neg hids]
    simp only []
    rw [if_neg (by simpa using hcat), foldl_lookupIDStep]
    simp

/-- Witness of C9: the example of the specification, an id that is not in the
catalog, next to a known id and a blank one. -/
theorem ResolveSystemIDsToNames_lenient_witness :
    ResolveSystemIDsToNames exampleLib
        (Except.ok (some (mkResponse [sysAJSON, sysBJSON] []))) ["9"] = Except.ok ["9"]
      ∧ ResolveSystemIDsToNames exampleLib
        (Except.ok (some (mkResponse [sysAJSON, sysBJSON] []))) [" 9 ", "", "2"]
          = Except.ok ["9", "sysB"]
      ∧ (ResolveSystemIDsToNames exampleLib
          (Except.ok (some (mkResponse [sysAJSON, sysBJSON] []))) [" 9 ", "", "2"]
            = Except.ok ((([" 9 ", "", "2"].map TrimSpace).filter
                (fun t => decide (t ≠ ""))).map
                (nameOrID exampleLib ((mkResponse [sysAJSON, sysBJSON] []).OwnSystemArr
                  ++ (mkResponse [sysAJSON, sysBJSON] []).ShareSystemArr)))
          ∧ ∀ t, (∀ e ∈ catalogEntries exampleLib
                ((mkResponse [sysAJSON, sysBJSON] []).OwnSystemArr
                  ++ (mkResponse [sysAJSON, sysBJSON] []).ShareSystemArr),
              resolvedID e ≠ t) →
            nameOrID exampleLib ((mkResponse [sysAJSON, sysBJSON] []).OwnSystemArr
                  ++ (mkResponse [sysAJSON, sysBJSON] []).ShareSystemArr) t = t) :=
  ⟨by decide, by decide,
    ResolveSystemIDsToNames_lenient exampleLib (mkResponse [sysAJSON, sysBJSON] [])
      [" 9 ", "", "2"] (by decide)⟩

theorem firstMatch_of_first (lib : GoLib) (pre post : List String) (systemStr key : String)
    (e : SystemFramework) (hdec : lib.UnmarshalSystem systemStr = some e)
    (hans : answersTo lib key e = true)
    (hfirst : ∀ e2 ∈ catalogEntries lib pre, answersTo lib key e2 = false) :
    firstMatch lib (pre ++ systemStr :: post) key = some e := by
  unfold firstMatch
  have hsplit : catalogEntries lib (pre ++ systemStr :: post)
      = catalogEntries lib pre ++ e :: catalogEntries lib post := by
    unfold catalogEntries
    rw [List.filterMap_append, List.filterMap_cons, hdec]
  have hnone : (catalogEntries lib pre).find? (answersTo lib key) = none := by
    rw [List.find?_eq_none]
    intro e2 he2
    simp [hfirst e2 he2]
  rw [hsplit, List.find?_append, hnone, Option.none_or, List.find?_cons_of_pos _ hans]

/-- C10 as stated fails: the first catalog entry whose display name folds to
`x` has no identifier, and the name resolves to the identifier of the second. -/
theorem ResolveSystemNameToIDs_first_without_id :
    exampleLib.UnmarshalSystem nameOnlyJSON = some (mkSystem "" "X")
      ∧ exampleLib.ToLower (TrimSpace (mkSystem "" "X").SystemDisplayName) = "x"
      ∧ resolvedID (mkSystem "" "X") = ""
      ∧ exampleLib.UnmarshalSystem sysXJSON = some (mkSystem "2" "x")
      ∧ ResolveSystemNameToIDs exampleLib
          (Except.ok (some (mkResponse [nameOnlyJSON, sysXJSON] []))) ["x"]
        = Except.ok ["2"] := by
  decide

/-- C10, amended. A non-blank requested name resolves to the identifier of the
first catalog entry, own systems before shared ones, that has a resolved
identifier and carries the folded name, whatever entries follow it. -/
theorem ResolveSystemNameToIDs_first_wins (lib : GoLib) (resp : SystemFrameworkResponse)
    (pre post : List String) (systemStr : String) (e : SystemFramework) (name : String)
    (hsys : resp.OwnSystemArr ++ resp.ShareSystemArr = pre ++ systemStr :: post)
    (hdec : lib.UnmarshalSystem systemStr = some e)
    (hid : resolvedID e ≠ "")
    (hname : TrimSpace name ≠ "")
    (hcarry : lib.ToLower (TrimSpace name) ∈ entryNames lib e)
    (hfirst : ∀ e2 ∈ catalogEntries lib pre,
      answersTo lib (lib.ToLower (TrimSpace name)) e2 = false) :
    ResolveSystemNameToIDs lib (Except.ok (some resp)) [name] = Except.ok [resolvedID e] := by
  have hans : answersTo lib (lib.ToLower (TrimSpace name)) e = true := by
    simp [answersTo, hid, hcarry]
  have hfm : firstMatch lib (resp.OwnSystemArr ++ resp.ShareSystemArr)
      (lib.ToLower (TrimSpace name)) = some e := by
    rw [hsys]
    exact firstMatch_of_first lib pre post systemStr _ e hdec hans hfirst
  have hmem : e ∈ catalogEntries lib (resp.OwnSystemArr ++ resp.ShareSystemArr) := by
    unfold firstMatch at hfm
    exact List.mem_of_find?_eq_some hfm
  have hmap : buildNameToID lib (resp.OwnSystemArr ++ resp.ShareSystemArr) ≠ [] :=
    buildNameToID_ne_nil lib _ ⟨e, hmem, hid, List.ne_nil_of_mem hcarry⟩
  have hfound : ∀ n ∈ [name], ∃ e2,
      firstMatch lib (resp.OwnSystemArr ++ resp.ShareSystemArr)
        (lib.ToLower (TrimSpace n)) = some e2 := by
    intro n hn
    rw [List.mem_singleton] at hn
    subst hn
    exact ⟨e, hfm⟩
  rw [resolve_eq lib resp [name] (by simp) hmap
      (by intro n hn; rw [List.mem_singleton] at hn; subst hn; exact hname),
    if_pos (filter_unmatched_nil lib _ [name] hfound)]
  simp [List.filterMap_cons, hfm]

/-- Witness of C10: two entries whose display names fold to `sysa`, an own
system and a shared one; the own system comes first and wins. -/
theorem ResolveSystemNameToIDs_first_wins_witness :
    ResolveSystemNameToIDs exampleLib
        (Except.ok (some (mkResponse [sysAJSON] [sysA2JSON]))) ["SysA"]
      = Except.ok [resolvedID (mkSystem "1" "sysA")]
    ∧ resolvedID (mkSystem "1" "sysA") = "1"
    ∧ exampleLib.ToLower (TrimSpace "SysA") ∈ entryNames exampleLib (mkSystem "3" "SYSA") :=
  ⟨ResolveSystemNameToIDs_first_wins exampleLib (mkResponse [sysAJSON] [sysA2JSON])
      [] [sysA2JSON] sysAJSON (mkSystem "1" "sysA") "SysA"
      (by decide) (by decide) (by decide) (by decide) (by decide) (by decide),
    by decide, by decide⟩

/-! ## The client: label tables, deletion and status handling -/

/-- C17, evaluated. The two tables disagree on eight label types:
`MapLabelTypeToAPIField` has no entry for them and returns the label type,
while `convertLogLabelsToState` reads them from a field named with the suffix
`Labels`. -/
theorem MapLabelTypeToAPIField_disagrees :
    apiFieldToLabelType.filter (fun p => MapLabelTypeToAPIField p.2 != p.1)
        = [ ("patternSignatureLabels", "patternSignature"),
            ("patternMatchRegexLabels", "patternMatchRegex"),
            ("patternIgnoreRegexLabels", "patternIgnoreRegex"),
            ("customActionLabels", "customAction"),
            ("logEventIDLabels", "logEventID"),
            ("logSeverityLabels", "logSeverity"),
            ("logStatusCodeLabels", "logStatusCode"),
            ("alertEventTypeLabels", "alertEventType") ]
      ∧ mapGet apiFieldToLabelType "logSeverityLabels" = some "logSeverity"
      ∧ MapLabelTypeToAPIField "logSeverity" = "logSeverity" := by
  decide

theorem deleteLoop_success {F : Type} (lib : ClientLib F) (c : Client)
    (transport : Transport) (path : String) (l : List String) :
    ∀ n, (∀ t ∈ l, (deleteRequest lib c path t).toBool = true) →
      ((deleteLoop lib c transport path n l).2 = none ↔
        ∀ i t, l[i]? = some t → ∃ req body status,
          deleteRequest lib c path t = Except.ok req
            ∧ transport (n + i) req = Except.ok (body, status)
            ∧ (status = 200 ∨ status = 204)) := by
  induction l with
  | nil => intro n _; simp [deleteLoop]
  | cons t rest ih =>
    intro n hreq
    have ht := hreq t (by simp)
    have hrest : ∀ t2 ∈ rest, (deleteRequest lib c path t2).toBool = true :=
      fun t2 h2 => hreq t2 (List.mem_cons_of_mem _ h2)
    unfold deleteRequest at ht
    cases hm : lib.Marshal (deleteRequestBody t) with
    | error e => simp [hm, Except.toBool] at ht
    | ok bodyJSON =>
      rw [hm] at ht
      simp only at ht
      cases hr : newRequest lib c "POST" path (GoValue.bytes bodyJSON) with
      | error e => simp [hr, Except.toBool] at ht
      | ok req =>
        have hdr : deleteRequest lib c path t = Except.ok req := by
          simp [deleteRequest, hm, hr]
        rw [deleteLoop]
        simp only [hm, DoRequest, hr]
        cases htr : transport n req with
        | error err =>
          simp only []
          constructor
          · intro h
            cases h
          · intro h
            obtain ⟨req2, body, status, h1, h2, _⟩ := h 0 t List.getElem?_cons_zero
            rw [hdr] at h1
            cases h1
            rw [Nat.add_zero, htr] at h2
            cases h2
        | ok p =>
          obtain ⟨body, status⟩ := p
          simp only []
          by_cases hs : status ≠ 200 ∧ status ≠ 204
          · rw [if_pos hs]
            constructor
            · intro h
              cases h
            · intro h
              obtain ⟨req2, body2, status2, h1, h2, h3⟩ := h 0 t List.getElem?_cons_zero
              rw [hdr] at h1
              cases h1
              rw [Nat.add_zero, htr] at h2
              cases h2
              rcases h3 with h3 | h3
              · exact absurd h3 hs.1
              · exact absurd h3 hs.2
          · rw [if_neg hs]
            simp only []
            rw [ih (n + 1) hrest]
            have hok : status = 200 ∨ status = 204 := by
              by_cases h200 : status = 200
              · exact Or.inl h200
              · by_cases h204 : status = 204
                · exact Or.inr h204
                · exact absurd ⟨h200, h204⟩ hs
            constructor
            · intro h i t2 hi
              cases i with
              | zero =>
                simp only [List.getElem?_cons_zero, Option.some.injEq] at hi
                subst hi
                exact ⟨req, body, status, hdr, by rw [Nat.add_zero]; exact htr, hok⟩
              | succ j =>
                simp only [List.getElem?_cons_succ] at hi
                obtain ⟨req2, body2, status2, h1, h2, h3⟩ := h j t2 hi
                exact ⟨req2, body2, status2, h1, by rw [← h2]; congr 1; omega, h3⟩
            · intro h i t2 hi
              obtain ⟨req2, body2, status2, h1, h2, h3⟩ := h (i + 1) t2 (by simpa using hi)
              exact ⟨req2, body2, status2, h1, by rw [← h2]; congr 1; omega, h3⟩

/-- C18 as stated fails: a write answered with status 404 or 405 makes
`DeleteLogLabels` return an error. -/
theorem DeleteLogLabels_rejects_404_405 :
    (DeleteLogLabels exampleClientLib exampleClient (fun _ _ => Except.ok ("", 404))
        "proj1" "user" ["whitelist"]).2
        = some "failed to delete log label: HTTP 404 - "
      ∧ (DeleteLogLabels exampleClientLib exampleClient (fun _ _ => Except.ok ("", 405))
        "proj1" "user" ["whitelist"]).2
        = some "failed to delete log label: HTTP 405 - " := by
  decide

/-- C18, amended. When the request bodies can be marshalled, `DeleteLogLabels`
returns success exactly when every write, one per label type in list order, is
answered with status 200 or 204; every other status, 404 and 405 included, and
every transport error makes it fail. -/
theorem DeleteLogLabels_success_iff {F : Type} (lib : ClientLib F) (c : Client)
    (transport : Transport) (projectName username : String) (labelTypes : List String)
    (hreq : ∀ t ∈ labelTypes,
      (deleteRequest lib c (labelPath lib projectName username) t).toBool = true) :
    (DeleteLogLabels lib c transport projectName username labelTypes).2 = none ↔
      ∀ i t, labelTypes[i]? = some t → ∃ req body status,
        deleteRequest lib c (labelPath lib projectName username) t = Except.ok req
          ∧ transport i req = Except.ok (body, status)
          ∧ (status = 200 ∨ status = 204) := by
  unfold DeleteLogLabels
  rw [deleteLoop_success lib c transport _ labelTypes 0 hreq]
  simp only [Nat.zero_add]

/-- Witness of C18: two label types, both writes answered with status 204. -/
theorem DeleteLogLabels_success_iff_witness :
    (DeleteLogLabels exampleClientLib exampleClient (fun _ _ => Except.ok ("", 204))
        "proj1" "user" ["whitelist", "blacklist"]).2 = none
      ∧ ((DeleteLogLabels exampleClientLib exampleClient (fun _ _ => Except.ok ("", 204))
          "proj1" "user" ["whitelist", "blacklist"]).2 = none ↔
        ∀ i t, ["whitelist", "blacklist"][i]? = some t → ∃ req body status,
          deleteRequest exampleClientLib exampleClient
              (labelPath exampleClientLib "proj1" "user") t = Except.ok req
            ∧ (fun (_ : Nat) (_ : HTTPRequest) => (Except.ok ("", 204) : Response)) i req
                = Except.ok (body, status)
            ∧ (status = 200 ∨ status = 204)) :=
  ⟨by decide,
    DeleteLogLabels_success_iff exampleClientLib exampleClient
      (fun _ _ => Except.ok ("", 204)) "proj1" "user" ["whitelist", "blacklist"]
      (by decide)⟩

/-- C19, evaluated. `GetSystemFramework` answers status 204 with an error,
while it returns the absent result for 404, and the three other read
operations return the absent result for both 404 and 204. -/
theorem GetSystemFramework_status_204 {F P Q : Type} (lib : ClientLib F) (body : String)
    (parseProject : String → Except String (Option P))
    (parseServiceNow : String → Except String (Option Q)) :
    GetSystemFramework lib (Except.ok (body, 204))
        = Except.error "failed to get system framework: HTTP 204"
      ∧ GetSystemFramework lib (Except.ok (body, 404)) = Except.ok none
      ∧ GetLogLabels lib (Except.ok (body, 204)) = Except.ok none
      ∧ GetLogLabels lib (Except.ok (body, 404)) = Except.ok none
      ∧ GetProject parseProject (Except.ok (body, 204)) = Except.ok none
      ∧ GetProject parseProject (Except.ok (body, 404)) = Except.ok none
      ∧ GetServiceNowConfig parseServiceNow (Except.ok (body, 204)) = Except.ok none
      ∧ GetServiceNowConfig parseServiceNow (Except.ok (body, 404)) = Except.ok none := by
  refine ⟨?_, ?_, ?_, ?_, ?_, ?_, ?_, ?_⟩
  · simp only [GetSystemFramework]
    rw [if_neg (by decide), if_pos (by decide)]
    rfl
  · simp [GetSystemFramework]
  · simp [GetLogLabels]
  · simp [GetLogLabels]
  · simp [GetProject]
  · simp [GetProject]
  · simp [GetServiceNowConfig]
  · simp [GetServiceNowConfig]

/-- C20, evaluated. `GetJWTConfig` returns the absent result when the catalog
has entries and none matches the name, and returns the error "no systems
found" when the catalog is empty: that message does not contain "not found". -/
theorem GetJWTConfig_empty_catalog :
    GetJWTConfig exampleLib exampleClientLib
        (Except.ok (some (mkResponse [sysBJSON] []))) (Except.ok (some (mkResponse [sysBJSON] [])))
        (Except.ok (some (mkResponse [sysBJSON] []))) "sysA" = Except.ok none
      ∧ GetJWTConfig exampleLib exampleClientLib
        (Except.ok (some (mkResponse [] []))) (Except.ok (some (mkResponse [] [])))
        (Except.ok (some (mkResponse [] []))) "sysA" = Except.error "no systems found"
      ∧ Contains (exampleLib.ToLower "no systems found") "not found" = false := by
  decide

/-- C15, evaluated. After the API reports the whitelist `["ERROR"]`, `Read`
records the rule string marshalled a second time, as a JSON string literal,
not the array text that `GetLogLabels` produced. -/
theorem logLabelsResource_Read_double_encodes :
    GetLogLabels exampleClientLib (Except.ok (keywordsJSON, 200))
        = Except.ok (some [("whitelist", "[\"ERROR\"]")])
      ∧ logLabelsResource.Read exampleClientLib
          { ID := StringValue "proj1", ProjectName := StringValue "proj1",
            LabelSettings := [mkSetting "whitelist" "[\"ERROR\"]"] }
          (GetLogLabels exampleClientLib (Except.ok (keywordsJSON, 200)))
        = Except.ok (some
          { ID := StringValue "proj1", ProjectName := StringValue "proj1",
            LabelSettings := [mkSetting "whitelist" "\"[\\\"ERROR\\\"]\""] }) := by
  decide

/-! ## The project resource -/

set_option maxRecDepth 100000

theorem settingFields_names_nodup : (settingFields.map (fun f => f.name)).Nodup := by
  decide

theorem settingFields_keys_nodup : (settingFields.map (fun f => f.key)).Nodup := by
  decide

theorem settingFields_keys_fresh :
    ∀ f ∈ settingFields, f.key ≠ "projectName" ∧ f.key ∉ unassignedStructKeys := by
  decide

theorem foldl_update_of_not_mem {F : Type} (upd : SettingField → Option (TFValue F))
    (l : List SettingField) :
    ∀ (m : String → TFValue F) (name : String), name ∉ l.map (fun f => f.name) →
      (l.foldl (fun m g => match upd g with
          | some v => setField m g.name v
          | none => m) m) name = m name := by
  induction l with
  | nil => intro m name _; rfl
  | cons g rest ih =>
    intro m name hn
    simp only [List.map_cons, List.mem_cons, not_or] at hn
    rw [List.foldl_cons, ih _ _ hn.2]
    cases upd g with
    | none => rfl
    | some v => simp [setField, hn.1]

theorem foldl_update_of_mem {F : Type} (upd : SettingField → Option (TFValue F))
    (l : List SettingField) :
    ∀ (m : String → TFValue F) (f : SettingField), (l.map (fun f => f.name)).Nodup → f ∈ l →
      (l.foldl (fun m g => match upd g with
          | some v => setField m g.name v
          | none => m) m) f.name = (upd f).getD (m f.name) := by
  induction l with
  | nil => intro m f _ hf; cases hf
  | cons g rest ih =>
    intro m f hnd hf
    simp only [List.map_cons, List.nodup_cons] at hnd
    rw [List.foldl_cons]
    rcases List.mem_cons.mp hf with h | h
    · subst h
      rw [foldl_update_of_not_mem upd rest _ _ hnd.1]
      cases upd f with
      | none => rfl
      | some v => simp [setField]
    · rw [ih _ f hnd.2 h]
      have hne : f.name ≠ g.name := by
        intro heq
        apply hnd.1
        rw [← heq]
        exact List.mem_map.mpr ⟨f, h, rfl⟩
      cases upd f with
      | some v => rfl
      | none =>
        simp only [Option.getD_none]
        cases upd g with
        | none => rfl
        | some v => simp [setField, hne]

theorem populateFromAPI_get {F : Type} (lib : ClientLib F)
    (settings : List (String × GoValue F)) (m : String → TFValue F) (f : SettingField)
    (hf : f ∈ settingFields) :
    populateFromAPI lib settings m f.name = readField lib settings f := by
  have h := foldl_update_of_mem (fun g => some (readField lib settings g)) settingFields m f
    settingFields_names_nodup hf
  simpa [populateFromAPI] using h

theorem preserveConfig_get {F : Type} (config m : String → TFValue F) (f : SettingField)
    (hf : f ∈ settingFields) :
    preserveConfig config m f.name
      = if (config f.name).IsNull then m f.name else config f.name := by
  have h := foldl_update_of_mem
    (fun g => if (config g.name).IsNull then none else some (config g.name)) settingFields m f
    settingFields_names_nodup hf
  have hstep : (fun (m : String → TFValue F) (g : SettingField) =>
        if (config g.name).IsNull then m else setField m g.name (config g.name))
      = (fun m g =>
          match (if (config g.name).IsNull then none else some (config g.name)) with
          | some v => setField m g.name v
          | none => m) := by
    funext m g
    by_cases hc : (config g.name).IsNull = true
    · simp [hc]
    · simp [hc]
  unfold preserveConfig
  rw [hstep, h]
  by_cases hc : (config f.name).IsNull = true
  · simp [hc]
  · simp [hc]

theorem readField_missing {F : Type} (lib : ClientLib F)
    (settings : List (String × GoValue F)) (f : SettingField)
    (h : mapGet settings f.key = none) : readField lib settings f = TFValue.null := by
  unfold readField
  cases f.kind <;> simp [getInt64, getFloat64, getString, getBool, getJSONString, h]

theorem createLabels_settings {F : Type} (lib : ClientLib F) (api : ProjectAPI F)
    (config plan labelled : projectResourceModel F)
    (h : createLabels lib api config plan = some labelled) :
    labelled.settings = plan.settings := by
  unfold createLabels at h
  cases hc : config.LogLabelSettings with
  | null =>
    simp only [hc, Option.some.injEq] at h
    rw [← h]
  | unknown =>
    simp only [hc, Option.some.injEq] at h
    rw [← h]
  | known cs =>
    simp only [hc] at h
    by_cases hlen : cs.length > 0
    · rw [if_pos hlen] at h
      cases hlab : api.CreateOrUpdateLogLabels with
      | some e => simp [hlab] at h
      | none =>
        simp only [hlab, Option.some.injEq] at h
        rw [← h]
    · rw [if_neg hlen] at h
      simp only [Option.some.injEq] at h
      rw [← h]

theorem Create_settings {F : Type} (lib : ClientLib F) (api : ProjectAPI F)
    (plan config state : projectResourceModel F)
    (h : projectResource.Create lib api plan config = some state) :
    (∃ err, api.GetProject = Except.error err ∧ state.settings = config.settings)
      ∨ (∃ project, api.GetProject = Except.ok (some project)
          ∧ state.settings = preserveConfig config.settings
              (populateFromAPI lib (settingsOf project) config.settings))
      ∨ (api.GetProject = Except.ok none
          ∧ state.settings = preserveConfig config.settings plan.settings) := by
  unfold projectResource.Create at h
  split at h
  · cases h
  · split at h
    · cases h
    · simp only [] at h
      split at h
      · cases h
      · split at h
        · rename_i err hgp
          simp only [Option.some.injEq] at h
          exact Or.inl ⟨err, hgp, by rw [← h]⟩
        · rename_i project hgp
          rw [Option.map_eq_some'] at h
          obtain ⟨labelled, hl, rfl⟩ := h
          have hsettings := createLabels_settings lib api config _ labelled hl
          cases project with
          | none =>
            simp only [mergeReadBack] at hsettings
            exact Or.inr (Or.inr ⟨hgp, hsettings⟩)
          | some project =>
            simp only [mergeReadBack] at hsettings
            exact Or.inr (Or.inl ⟨project, hgp, hsettings⟩)

theorem mapGet_append {β : Type} (a b : List (String × β)) (k : String) :
    mapGet (a ++ b) k = (mapGet a k).or (mapGet b k) := by
  induction a with
  | nil => simp [mapGet]
  | cons p rest ih =>
    obtain ⟨k0, v0⟩ := p
    by_cases h : k0 = k
    · simp [mapGet, h]
    · simp [mapGet, h, ih]

theorem mapGet_none_of_not_mem {β : Type} (m : List (String × β)) (k : String)
    (h : k ∉ m.map (fun p => p.1)) : mapGet m k = none := by
  induction m with
  | nil => rfl
  | cons p rest ih =>
    obtain ⟨k0, v0⟩ := p
    simp only [List.map_cons, List.mem_cons, not_or] at h
    have hne : ¬ k0 = k := fun heq => h.1 heq.symm
    simp only [mapGet, hne, if_false]
    exact ih h.2

theorem some_of_ite_none {α : Type} {c : Prop} [Decidable c] {x y : α}
    (h : (if c then (none : Option α) else some x) = some y) : x = y := by
  split at h
  · cases h
  · exact Option.some.inj h

theorem settingEntry_key {F : Type} (lib : ClientLib F) (plan : String → TFValue F)
    (f : SettingField) (e : String × GoValue F)
    (h : settingEntry lib plan f = some (some e)) : e.1 = f.key := by
  unfold settingEntry at h
  cases hk : f.kind <;> simp only [hk, Option.some.injEq] at h
  · exact (congrArg Prod.fst (some_of_ite_none h)).symm
  · exact (congrArg Prod.fst (some_of_ite_none h)).symm
  · exact (congrArg Prod.fst (some_of_ite_none h)).symm
  · exact (congrArg Prod.fst (some_of_ite_none h)).symm
  · exact (congrArg Prod.fst h).symm
  · split at h
    · simp only [Option.some.injEq] at h
      exact (congrArg Prod.fst (some_of_ite_none h)).symm
    · split at h
      · simp only [Option.some.injEq] at h
        exact (congrArg Prod.fst (some_of_ite_none h)).symm
      · cases h

theorem collectEntries_none_of_not_mem {F : Type} (lib : ClientLib F)
    (plan : String → TFValue F) (l : List SettingField) :
    ∀ es, collectEntries lib plan l = some es → ∀ k, k ∉ l.map (fun f => f.key) →
      mapGet es k = none := by
  induction l with
  | nil =>
    intro es h k _
    simp only [collectEntries, Option.some.injEq] at h
    rw [← h]
    rfl
  | cons g rest ih =>
    intro es h k hk
    simp only [List.map_cons, List.mem_cons, not_or] at hk
    unfold collectEntries at h
    cases hg : settingEntry lib plan g with
    | none => simp [hg] at h
    | some entry =>
      cases hr : collectEntries lib plan rest with
      | none => simp [hg, hr] at h
      | some entries =>
        simp only [hg, hr, Option.some.injEq] at h
        rw [← h, mapGet_append, ih entries hr k hk.2, Option.or_none]
        cases entry with
        | none => rfl
        | some e =>
          have hkey := settingEntry_key lib plan g e hg
          obtain ⟨k0, v0⟩ := e
          simp only at hkey
          subst hkey
          have hne : ¬ g.key = k := fun heq => hk.1 heq.symm
          simp [mapGet, hne]

theorem collectEntries_get {F : Type} (lib : ClientLib F) (plan : String → TFValue F)
    (l : List SettingField) :
    ∀ es, collectEntries lib plan l = some es → (l.map (fun f => f.key)).Nodup →
      ∀ f ∈ l, ∃ e, settingEntry lib plan f = some e
        ∧ mapGet es f.key = e.map (fun p => p.2) := by
  induction l with
  | nil => intro es _ _ f hf; cases hf
  | cons g rest ih =>
    intro es h hnd f hf
    simp only [List.map_cons, List.nodup_cons] at hnd
    unfold collectEntries at h
    cases hg : settingEntry lib plan g with
    | none => simp [hg] at h
    | some entry =>
      cases hr : collectEntries lib plan rest with
      | none => simp [hg, hr] at h
      | some entries =>
        simp only [hg, hr, Option.some.injEq] at h
        rcases List.mem_cons.mp hf with hfg | hfr
        · subst hfg
          refine ⟨entry, hg, ?_⟩
          rw [← h, mapGet_append,
            collectEntries_none_of_not_mem lib plan rest entries hr f.key hnd.1, Option.or_none]
          cases entry with
          | none => rfl
          | some e =>
            have hkey := settingEntry_key lib plan f e hg
            obtain ⟨k0, v0⟩ := e
            simp only at hkey
            subst hkey
            simp [mapGet]
        · obtain ⟨e, he1, he2⟩ := ih entries hr hnd.2 f hfr
          refine ⟨e, he1, ?_⟩
          rw [← h, mapGet_append, he2]
          have hne : f.key ≠ g.key := by
            intro heq
            apply hnd.1
            rw [← heq]
            exact List.mem_map.mpr ⟨f, hfr, rfl⟩
          cases entry with
          | none => rfl
          | some e0 =>
            have hkey := settingEntry_key lib plan g e0 hg
            obtain ⟨k0, v0⟩ := e0
            simp only at hkey
            subst hkey
            have hne2 : ¬ g.key = f.key := fun heq => hne heq.symm
            simp [mapGet, hne2]

theorem populateSettings_get {F : Type} (lib : ClientLib F) (plan : projectResourceModel F)
    (payload : List (String × GoValue F)) (h : populateSettings lib plan = some payload)
    (f : SettingField) (hf : f ∈ settingFields) :
    ∃ e, settingEntry lib plan.settings f = some e
      ∧ mapGet payload f.key = e.map (fun p => p.2) := by
  unfold populateSettings at h
  cases hc : collectEntries lib plan.settings settingFields with
  | none => simp [hc] at h
  | some entries =>
    simp only [hc, Option.some.injEq] at h
    obtain ⟨e, he1, he2⟩ :=
      collectEntries_get lib plan.settings settingFields entries hc settingFields_keys_nodup f hf
    refine ⟨e, he1, ?_⟩
    have hfresh := settingFields_keys_fresh f hf
    have hpn : mapGet (if plan.ProjectName = TFString.null ∨ plan.ProjectName.ValueString = ""
        then ([] : List (String × GoValue F))
        else [("projectName", GoValue.string plan.ProjectName.ValueString)]) f.key
        = none := by
      split
      · rfl
      · have hne : ¬ "projectName" = f.key := fun heq => hfresh.1 heq.symm
        simp [mapGet, hne]
    have hst : mapGet (unassignedStructKeys.map (fun key => (key, lib.StructJSON key none)))
        f.key = none := by
      apply mapGet_none_of_not_mem
      simpa using hfresh.2
    rw [← h, mapGet_append, mapGet_append, hpn, he2, hst, Option.none_or, Option.or_none]

theorem eq_some_getD_of_isSome {α : Type} (o : Option α) (d : α)
    (h : o.isSome = true) : o = some (o.getD d) := by
  cases o with
  | none => cases h
  | some a => rfl

/-! ## The claims on the project resource -/

theorem readField_eq_coerced {F : Type} (lib : ClientLib F)
    (settings : List (String × GoValue F)) (f : SettingField) :
    readField lib settings f = coerced lib f.kind (mapGet settings f.key) := by
  unfold readField getInt64 getFloat64 getString getBool getJSONString
  generalize mapGet settings f.key = entry
  cases f.kind <;> cases entry with
  | none => simp [coerced]
  | some value => cases value <;> simp [coerced]

/-- C11. In the state that `Create` records, every settings field that the
configuration sets to a non-null value holds the declared value, whatever the
read-back returned; a field that the configuration leaves null holds, when
the read-back returned the project, the value that the entry of the remote
settings map under the key of the field is coerced to, as the specification
gives it for the kind of the field (`coerced`), which is null when the map has
no entry for the key. -/
theorem Create_precedence {F : Type} (lib : ClientLib F) (api : ProjectAPI F)
    (plan config state : projectResourceModel F)
    (h : projectResource.Create lib api plan config = some state)
    (f : SettingField) (hf : f ∈ settingFields) :
    ((config.settings f.name).IsNull = false → state.settings f.name = config.settings f.name)
      ∧ ((config.settings f.name).IsNull = true →
          ∀ project, api.GetProject = Except.ok (some project) →
            state.settings f.name = coerced lib f.kind (mapGet (settingsOf project) f.key)
              ∧ (mapGet (settingsOf project) f.key = none →
                  state.settings f.name = TFValue.null)) := by
  rcases Create_settings lib api plan config state h with
    ⟨err, hgp, hs⟩ | ⟨project, hgp, hs⟩ | ⟨hgp, hs⟩
  · refine ⟨fun _ => by rw [hs], fun _ project hp => ?_⟩
    rw [hgp] at hp
    cases hp
  · constructor
    · intro hnull
      rw [hs, preserveConfig_get _ _ f hf, hnull]
      simp
    · intro hnull project2 hp
      rw [hgp] at hp
      cases hp
      have hval : state.settings f.name = readField lib (settingsOf project) f := by
        rw [hs, preserveConfig_get _ _ f hf, hnull]
        simp only [if_true]
        exact populateFromAPI_get lib _ _ f hf
      exact ⟨by rw [hval, readField_eq_coerced],
        fun hmiss => by rw [hval, readField_missing lib _ f hmiss]⟩
  · constructor
    · intro hnull
      rw [hs, preserveConfig_get _ _ f hf, hnull]
      simp
    · intro _ project hp
      rw [hgp] at hp
      cases hp

/-- Witness of C11: the configuration declares `c_value = 7` and the four list
attributes, the plan holds unknown for every other settings attribute, and the
read-back reports `cValue = 5`, `pValue = 2`, `samplingInterval = 600`, a
proxy, `enableHotEvent = true`, a string for the integer `retentionTime` and
an array for `emailSetting`.  `Create` records a state: 7 for the declared
field and the declared text of a list attribute, the float 2, the integer 600,
the proxy and `true` for the fields that the remote reports, null for the
integer field reported as a string and for a field that is not reported, and
the compact JSON text of the array. -/
theorem Create_precedence_witness :
    (projectResource.Create exampleClientLib (apiReturning remoteSettings)
        (plannedFrom declaredModel) declaredModel).isSome = true
    ∧ ((projectResource.Create exampleClientLib (apiReturning remoteSettings)
        (plannedFrom declaredModel) declaredModel).getD exampleModel).settings "CValue"
        = TFValue.int64 7
    ∧ ((projectResource.Create exampleClientLib (apiReturning remoteSettings)
        (plannedFrom declaredModel) declaredModel).getD exampleModel).settings "PValue"
        = TFValue.float64 2
    ∧ ((projectResource.Create exampleClientLib (apiReturning remoteSettings)
        (plannedFrom declaredModel) declaredModel).getD exampleModel).settings
          "SamplingInterval" = TFValue.int64 600
    ∧ (projectResource.Create exampleClientLib (apiReturning remoteSettings)
        (plannedFrom declaredModel) declaredModel).map
        (fun state =>
          [state.settings "CdfSetting", state.settings "Proxy",
            state.settings "EnableHotEvent", state.settings "RetentionTime",
            state.settings "UBLRetentionTime", state.settings "EmailSetting"])
        = some [TFValue.string "[]", TFValue.string "http://proxy", TFValue.bool true,
            TFValue.null, TFValue.null, TFValue.string "[\"a\"]"] :=
  ⟨by decide,
    (Create_precedence exampleClientLib (apiReturning remoteSettings)
      (plannedFrom declaredModel) declaredModel _
      (eq_some_getD_of_isSome _ exampleModel (by decide))
      (SettingField.mk "CValue" FieldKind.int64 "cValue" true) (by decide)).1 (by decide),
    ((Create_precedence exampleClientLib (apiReturning remoteSettings)
      (plannedFrom declaredModel) declaredModel _
      (eq_some_getD_of_isSome _ exampleModel (by decide))
      (SettingField.mk "PValue" FieldKind.float64 "pValue" true) (by decide)).2 (by decide)
      (projectWith remoteSettings) rfl).1,
    ((Create_precedence exampleClientLib (apiReturning remoteSettings)
      (plannedFrom declaredModel) declaredModel _
      (eq_some_getD_of_isSome _ exampleModel (by decide))
      (SettingField.mk "SamplingInterval" FieldKind.int64 "samplingInterval" true)
      (by decide)).2 (by decide) (projectWith remoteSettings) rfl).1,
    by decide⟩

/-- C12. `Update` does not keep the declared value: with `c_value = 7`
declared and planned and the read-back after the update reporting
`cValue = 5`, the state that `Update` records holds 5, where `Create` on the
same request records 7. -/
theorem Update_records_remote_value :
    (projectResource.Update exampleClientLib (apiReturning [("cValue", GoValue.float64 5)])
        (withSetting exampleModel "CValue" (TFValue.int64 7))
        (withSetting exampleModel "CValue" (TFValue.int64 7))).map
        (fun s => s.settings "CValue") = some (TFValue.int64 5)
    ∧ (projectResource.Create exampleClientLib (apiReturning [("cValue", GoValue.float64 5)])
        (withSetting exampleModel "CValue" (TFValue.int64 7))
        (withSetting exampleModel "CValue" (TFValue.int64 7))).map
        (fun s => s.settings "CValue") = some (TFValue.int64 7) := by
  decide

/-- Counterexample to C13: a scalar field with `omitempty` that the
configuration sets to the zero value of its type has no entry in the map that
`populateSettings` returns: `enable_hot_event = false`, `c_value = 0` and
`proxy = ""` are not sent. -/
theorem populateSettings_omits_zero_values :
    (populateSettings exampleClientLib
        (withSetting exampleModel "EnableHotEvent" (TFValue.bool false))).map
        (fun payload => (mapGet payload "enableHotEvent").isSome) = some false
    ∧ (populateSettings exampleClientLib
        (withSetting exampleModel "CValue" (TFValue.int64 0))).map
        (fun payload => (mapGet payload "cValue").isSome) = some false
    ∧ (populateSettings exampleClientLib
        (withSetting exampleModel "Proxy" (TFValue.string ""))).map
        (fun payload => (mapGet payload "proxy").isSome) = some false := by
  decide

/-- C13 (amended). In the map that `populateSettings` returns, a scalar field
that the configuration sets to a non-null value has an entry under its API key
with that value (an integer as the `float64` the decoder gives), unless the
field has `omitempty` and the value is the zero value of its type (0, 0.0,
the empty string, false): then the map has no entry under the key. -/
theorem populateSettings_scalar {F : Type} (lib : ClientLib F) (plan : projectResourceModel F)
    (payload : List (String × GoValue F)) (h : populateSettings lib plan = some payload)
    (f : SettingField) (hf : f ∈ settingFields)
    (hset : (plan.settings f.name).IsNull = false) :
    (f.kind = FieldKind.int64 → mapGet payload f.key =
        if f.omitEmpty = true ∧ (plan.settings f.name).ValueInt64 = 0 then none
        else some (GoValue.float64 (lib.float.ofInt (plan.settings f.name).ValueInt64)))
    ∧ (f.kind = FieldKind.float64 → mapGet payload f.key =
        if f.omitEmpty = true
            ∧ lib.float.isZero ((plan.settings f.name).ValueFloat64 lib.float.zero) = true
        then none
        else some (GoValue.float64 ((plan.settings f.name).ValueFloat64 lib.float.zero)))
    ∧ (f.kind = FieldKind.string → mapGet payload f.key =
        if f.omitEmpty = true ∧ (plan.settings f.name).ValueString = "" then none
        else some (GoValue.string (plan.settings f.name).ValueString))
    ∧ (f.kind = FieldKind.bool → mapGet payload f.key =
        if f.omitEmpty = true ∧ (plan.settings f.name).ValueBool = false then none
        else some (GoValue.bool (plan.settings f.name).ValueBool)) := by
  obtain ⟨e, he1, he2⟩ := populateSettings_get lib plan payload h f hf
  unfold settingEntry at he1
  refine ⟨?_, ?_, ?_, ?_⟩
  all_goals
    intro hk
    simp only [hk, hset, Option.some.injEq, Bool.false_eq_true, if_false] at he1
    rw [he2, ← he1]
    exact apply_ite (Option.map (fun (p : String × GoValue F) => p.2)) _ _ _

/-- Witness of C13 (amended): with `c_value = 7` declared, `populateSettings`
returns a map, and it holds `7` under `cValue`. -/
theorem populateSettings_scalar_witness :
    (populateSettings exampleClientLib
        (withSetting exampleModel "CValue" (TFValue.int64 7))).isSome = true
    ∧ mapGet ((populateSettings exampleClientLib
        (withSetting exampleModel "CValue" (TFValue.int64 7))).getD []) "cValue"
        = some (GoValue.float64 7) :=
  ⟨by decide,
    (populateSettings_scalar exampleClientLib
      (withSetting exampleModel "CValue" (TFValue.int64 7)) _
      (eq_some_getD_of_isSome _ [] (by decide))
      (SettingField.mk "CValue" FieldKind.int64 "cValue" true) (by decide) (by decide)).1 rfl⟩

/-- C14. `populateSettings` is not total: the type assertion
`parseJSONField(...).([]interface{})` is unchecked, so `populateSettings`
panics when `cdf_setting`, `log_to_log_setting_list`, `webhook_header_list` or
`shared_usernames` is set to the empty string (`parseJSONField` returns nil)
or to a text that is not JSON (`parseJSONField` returns the text as a
string). -/
theorem populateSettings_panics :
    (populateSettings exampleClientLib
        (withSetting exampleModel "CdfSetting" (TFValue.string ""))).isSome = false
    ∧ (populateSettings exampleClientLib
        (withSetting exampleModel "LogToLogSettingList" (TFValue.string ""))).isSome = false
    ∧ (populateSettings exampleClientLib
        (withSetting exampleModel "WebhookHeaderList" (TFValue.string "not json"))).isSome
        = false
    ∧ (populateSettings exampleClientLib
        (withSetting exampleModel "SharedUsernames" (TFValue.string ""))).isSome = false
    ∧ (projectResource.Create exampleClientLib (apiReturning [])
        (withSetting exampleModel "CdfSetting" (TFValue.string ""))
        (withSetting exampleModel "CdfSetting" (TFValue.string ""))).isSome = false := by
  decide

/-- C16. `Update` records the declared label string as written: with
`whitelist = "[ \"ERROR\" ]"` declared, the state of `Update` holds
`"[ \"ERROR\" ]"`, which is not its canonical form `"[\"ERROR\"]"`, the
string that `Create` records for the same declaration. -/
theorem Update_keeps_label_string_verbatim :
    (projectResource.Update exampleClientLib (apiReturning [])
        (withLabels exampleModel [mkSetting "whitelist" "[ \"ERROR\" ]"])
        (withLabels exampleModel [mkSetting "whitelist" "[ \"ERROR\" ]"])).map
        (fun s => s.LogLabelSettings)
      = some (TFList.known [mkSetting "whitelist" "[ \"ERROR\" ]"])
    ∧ normalizeJSON exampleClientLib.codec "[ \"ERROR\" ]" = "[\"ERROR\"]"
    ∧ (projectResource.Create exampleClientLib (apiReturning [])
        (withLabels exampleModel [mkSetting "whitelist" "[ \"ERROR\" ]"])
        (withLabels exampleModel [mkSetting "whitelist" "[ \"ERROR\" ]"])).map
        (fun s => s.LogLabelSettings)
      = some (TFList.known [mkSetting "whitelist" "[\"ERROR\"]"]) := by
  decide

/-! ## The ServiceNow resource, the JWT resource and the client -/

/-- C24. `normalizeJSON` returns its input unchanged when the input is the
empty string, the text `[]`, or a text that `json.Unmarshal` rejects; the
function returns a string on every input and has no error result. -/
theorem normalizeJSON_unchanged {V : Type} (json : JSONCodec V) (jsonStr : String)
    (h : jsonStr = "" ∨ jsonStr = "[]" ∨ json.Unmarshal jsonStr = none) :
    normalizeJSON json jsonStr = jsonStr := by
  unfold normalizeJSON
  by_cases hfast : jsonStr = "" ∨ jsonStr = "[]"
  · rw [if_pos hfast]
  · rw [if_neg hfast]
    have hu : json.Unmarshal jsonStr = none := by
      rcases h with h | h | h
      · exact absurd (Or.inl h) hfast
      · exact absurd (Or.inr h) hfast
      · exact h
    rw [hu]

/-- Witness of C24: a text that is not JSON, on the codec of string arrays. -/
theorem normalizeJSON_unchanged_witness :
    StringArray.codec.Unmarshal "not json" = none
      ∧ normalizeJSON StringArray.codec "not json" = "not json" :=
  ⟨by decide,
    normalizeJSON_unchanged StringArray.codec "not json" (Or.inr (Or.inr (by decide)))⟩

/-- C25. `NewClient` returns an error only when one of its three arguments is
the empty string, and a client only when none is; the client holds the three
arguments and an HTTP client whose timeout is not zero. -/
theorem NewClient_result (baseURL username licenseKey : String) :
    match NewClient baseURL username licenseKey with
    | Except.error _ => baseURL = "" ∨ username = "" ∨ licenseKey = ""
    | Except.ok c =>
        baseURL ≠ "" ∧ username ≠ "" ∧ licenseKey ≠ ""
          ∧ c.BaseURL = baseURL ∧ c.Username = username ∧ c.LicenseKey = licenseKey
          ∧ c.HTTPClient.Timeout ≠ 0 := by
  unfold NewClient
  by_cases h1 : baseURL = ""
  · simp [h1]
  · by_cases h2 : username = ""
    · simp [h1, h2]
    · by_cases h3 : licenseKey = ""
      · simp [h1, h2, h3]
      · simp only [h1, h2, h3, if_false]
        refine ⟨h1, h2, h3, ?_⟩
        simp
        decide

/-- C23. The check of `Create` and `Update` counts bytes, not characters: the
secret `ééé` has three characters and six bytes, and both operations accept
it, resolve the system and send the secret, while the description of the
attribute and the diagnostic say "at least 6 characters". -/
theorem jwtConfigResource_counts_bytes :
    "ééé".length = 3 ∧ len "ééé" = 6
      ∧ jwtConfigResource.Create exampleLib (Except.ok (some (mkResponse [sysAJSON] [])))
          (fun _ => none)
          { ID := TFString.null, SystemName := StringValue "sysA",
            JWTSecret := StringValue "ééé", JWTType := TFInt64.null }
        = ([JWTCall.GetSystemFramework,
            JWTCall.CreateOrUpdateJWTConfig
              { SystemName := "sysA", SystemID := "1", JWTSecret := "ééé", JWTType := 1 }],
          Except.ok
            { ID := StringValue "sysA", SystemName := StringValue "sysA",
              JWTSecret := StringValue "ééé", JWTType := TFInt64.known 1 })
      ∧ jwtConfigResource.Update exampleLib (Except.ok (some (mkResponse [sysAJSON] [])))
          (fun _ => none)
          { ID := StringValue "sysA", SystemName := StringValue "sysA",
            JWTSecret := StringValue "ééé", JWTType := TFInt64.null }
        = ([JWTCall.GetSystemFramework,
            JWTCall.CreateOrUpdateJWTConfig
              { SystemName := "sysA", SystemID := "1", JWTSecret := "ééé", JWTType := 1 }],
          Except.ok
            { ID := StringValue "sysA", SystemName := StringValue "sysA",
              JWTSecret := StringValue "ééé", JWTType := TFInt64.known 1 })
      ∧ jwtConfigResource.Create exampleLib (Except.ok (some (mkResponse [sysAJSON] [])))
          (fun _ => none)
          { ID := TFString.null, SystemName := StringValue "sysA",
            JWTSecret := StringValue "abcde", JWTType := TFInt64.null }
        = ([], Except.error
            ("Invalid JWT Secret", "JWT secret must be at least 6 characters long.")) := by
  decide

/-- C28. The body that `DeleteLogLabels` sends is not the JSON object: the
function marshals the object and hands the bytes to `DoRequest`, which
marshals its argument again, and `json.Marshal` of a byte slice is a JSON
string holding the base64 text of the bytes.  `CreateOrUpdateLogLabels` hands
the map to `DoRequest` and sends the object. -/
theorem DeleteLogLabels_body_marshalled_twice :
    (DeleteLogLabels exampleClientLib exampleClient (fun _ _ => Except.ok ("", 200))
        "proj1" "user" ["whitelist"]).1.map (fun req => req.Body)
      = [some ("\"eyJsb2dMYWJlbFNldHRpbmdDcmVhdGUiOnsibGFiZWxUeXBlIjoid2hpdGVsaXN0Iiwi"
          ++ "bG9nTGFiZWxTdHJpbmciOiJbXSJ9fQ==\"")]
    ∧ exampleClientLib.Marshal (deleteRequestBody "whitelist")
      = Except.ok ("\x7b\"logLabelSettingCreate\":\x7b\"labelType\":\"whitelist\","
          ++ "\"logLabelString\":\"[]\"\x7d\x7d")
    ∧ (CreateOrUpdateLogLabels exampleClientLib exampleClient
        (fun _ _ => Except.ok ("", 200)) "proj1" "user"
        [{ LabelType := "whitelist", LogLabelString := "[]" }]).1
      = [GateEvent.lock,
          GateEvent.request
            { Method := "POST",
              URL := "https://if.example/api/external/v1/watch-tower-setting"
                ++ "?projectName=proj1&customerName=user",
              Body := some ("\x7b\"logLabelSettingCreate\":\x7b\"labelType\":\"whitelist\","
                ++ "\"logLabelString\":\"[]\"\x7d\x7d") },
          GateEvent.unlock] := by
  decide

theorem gateDiscipline_requests (reqs : List HTTPRequest) :
    gateDiscipline true (reqs.map GateEvent.request ++ [GateEvent.unlock]) = true := by
  induction reqs with
  | nil => rfl
  | cons r rest ih => simpa [gateDiscipline] using ih

/-- C27. `CreateOrUpdateLogLabels` keeps the discipline of the gate on every
path: it locks the mutex first, makes its requests while holding it and
unlocks it last.  `DeleteLogLabels` does not: it never locks the mutex, and
its write for the label type `whitelist` is made while the gate is not
held. -/
theorem DeleteLogLabels_without_gate {F : Type} (lib : ClientLib F) (c : Client)
    (transport : Transport) (projectName username : String)
    (settings : List LogLabelSetting) :
    gateDiscipline false
        (CreateOrUpdateLogLabels lib c transport projectName username settings).1 = true
      ∧ DeleteLogLabels.events exampleClientLib exampleClient
          (fun _ _ => Except.ok ("", 200)) "proj1" "user" ["whitelist"]
        = (DeleteLogLabels exampleClientLib exampleClient
            (fun _ _ => Except.ok ("", 200)) "proj1" "user" ["whitelist"]).1.map
            GateEvent.request
      ∧ (DeleteLogLabels exampleClientLib exampleClient
            (fun _ _ => Except.ok ("", 200)) "proj1" "user" ["whitelist"]).1.length = 1
      ∧ gateDiscipline false
          (DeleteLogLabels.events exampleClientLib exampleClient
            (fun _ _ => Except.ok ("", 200)) "proj1" "user" ["whitelist"]) = false := by
  refine ⟨?_, rfl, by decide, by decide⟩
  unfold CreateOrUpdateLogLabels
  simp only [gateDiscipline, Bool.not_false, Bool.true_and]
  exact gateDiscipline_requests _

/-- A blank requested identifier gets no name: three requested identifiers are
answered with two names, and the name at index 1 belongs to the identifier at
index 2. -/
theorem ResolveSystemIDsToNames_skips_blank_ids :
    ResolveSystemIDsToNames exampleLib
        (Except.ok (some (mkResponse [sysAJSON, sysBJSON] []))) ["1", " ", "2"]
      = Except.ok ["sysA", "sysB"] := by
  decide

/-- The output of `ResolveSystemIDsToNames` for a catalog with at least one
system string: one name per requested identifier that is not blank, in order,
the name, or the trimmed identifier, of the `i`-th identifier that is not
blank.  Only when no requested identifier is blank does the output have the
length of the input and answer the `i`-th requested identifier at index
`i`. -/
theorem ResolveSystemIDsToNames_one_per_nonblank (lib : GoLib)
    (resp : SystemFrameworkResponse) (systemIDs : List String)
    (hcat : resp.OwnSystemArr ++ resp.ShareSystemArr ≠ []) :
    ∃ names, ResolveSystemIDsToNames lib (Except.ok (some resp)) systemIDs = Except.ok names
      ∧ names.length = (trimmedIDs systemIDs).length
      ∧ (∀ i, names.get? i = ((trimmedIDs systemIDs).get? i).map
          (nameOrID lib (resp.OwnSystemArr ++ resp.ShareSystemArr)))
      ∧ ((∀ id ∈ systemIDs, TrimSpace id ≠ "") →
          names.length = systemIDs.length
            ∧ ∀ i, names.get? i = (systemIDs.get? i).map
                (fun id => nameOrID lib (resp.OwnSystemArr ++ resp.ShareSystemArr)
                  (TrimSpace id))) := by
  have hres : ResolveSystemIDsToNames lib (Except.ok (some resp)) systemIDs
      = Except.ok ((trimmedIDs systemIDs).map
          (nameOrID lib (resp.OwnSystemArr ++ resp.ShareSystemArr))) := by
    unfold ResolveSystemIDsToNames trimmedIDs
    by_cases hids : systemIDs.length = 0
    · have : systemIDs = [] := List.length_eq_zero.mp hids
      subst this
      simp
    · rw [if_neg hids]
      simp only []
      rw [if_neg (by simpa using hcat), foldl_lookupIDStep]
      simp
  refine ⟨_, hres, by simp, fun i => by simp [List.getElem?_map], ?_⟩
  intro hall
  have htrim : trimmedIDs systemIDs = systemIDs.map TrimSpace := by
    unfold trimmedIDs
    rw [List.filter_eq_self]
    intro t ht
    obtain ⟨id, hid, rfl⟩ := List.mem_map.mp ht
    simpa using hall id hid
  rw [htrim]
  refine ⟨by simp, fun i => ?_⟩
  simp only [List.get?_eq_getElem?, List.getElem?_map, Option.map_map]
  rfl

/-- An instance: two identifiers, neither blank, one of them not in the
catalog. -/
theorem ResolveSystemIDsToNames_one_per_nonblank_witness :
    ResolveSystemIDsToNames exampleLib
        (Except.ok (some (mkResponse [sysAJSON, sysBJSON] []))) [" 2 ", "9"]
      = Except.ok ["sysB", "9"]
    ∧ ∃ names, ResolveSystemIDsToNames exampleLib
        (Except.ok (some (mkResponse [sysAJSON, sysBJSON] []))) [" 2 ", "9"] = Except.ok names
      ∧ names.length = (trimmedIDs [" 2 ", "9"]).length
      ∧ (∀ i, names.get? i = ((trimmedIDs [" 2 ", "9"]).get? i).map
          (nameOrID exampleLib ((mkResponse [sysAJSON, sysBJSON] []).OwnSystemArr
            ++ (mkResponse [sysAJSON, sysBJSON] []).ShareSystemArr)))
      ∧ ((∀ id ∈ [" 2 ", "9"], TrimSpace id ≠ "") →
          names.length = [" 2 ", "9"].length
            ∧ ∀ i, names.get? i = ([" 2 ", "9"].get? i).map
                (fun id => nameOrID exampleLib
                  ((mkResponse [sysAJSON, sysBJSON] []).OwnSystemArr
                    ++ (mkResponse [sysAJSON, sysBJSON] []).ShareSystemArr)
                  (TrimSpace id))) :=
  ⟨by decide,
    ResolveSystemIDsToNames_one_per_nonblank exampleLib (mkResponse [sysAJSON, sysBJSON] [])
      [" 2 ", "9"] (by decide)⟩

/-! ## The import of the ServiceNow identifier -/

theorem splitLoop_at_cons_ne (c : Char) (rest cur : List Char) (hc : ¬ '@' = c) :
    splitLoop ['@'] 0 cur (c :: rest) = splitLoop ['@'] 0 (c :: cur) rest := by
  simp [splitLoop, List.isPrefixOf, hc]

theorem splitLoop_at_cons_eq (rest cur : List Char) :
    splitLoop ['@'] 0 cur ('@' :: rest) = cur.reverse :: splitLoop ['@'] 0 [] rest := by
  simp [splitLoop, List.isPrefixOf]

theorem splitLoop_at_no_sep (rest cur : List Char) (h : '@' ∉ rest) :
    splitLoop ['@'] 0 cur rest = [cur.reverse ++ rest] := by
  induction rest generalizing cur with
  | nil => simp [splitLoop]
  | cons c rest ih =>
    simp only [List.mem_cons, not_or] at h
    rw [splitLoop_at_cons_ne c rest cur h.1, ih (c :: cur) h.2]
    simp

theorem splitLoop_at_first (before after cur : List Char) (h : '@' ∉ before) :
    splitLoop ['@'] 0 cur (before ++ '@' :: after)
      = (cur.reverse ++ before) :: splitLoop ['@'] 0 [] after := by
  induction before generalizing cur with
  | nil => simp [splitLoop_at_cons_eq]
  | cons c rest ih =>
    simp only [List.mem_cons, not_or] at h
    rw [List.cons_append, splitLoop_at_cons_ne c _ cur h.1, ih (c :: cur) h.2]
    simp

theorem splitLoop_at_length (rest cur : List Char) :
    (splitLoop ['@'] 0 cur rest).length = rest.count '@' + 1 := by
  induction rest generalizing cur with
  | nil => simp [splitLoop]
  | cons c rest ih =>
    by_cases hc : '@' = c
    · subst hc
      rw [splitLoop_at_cons_eq, List.length_cons, ih, List.count_cons_self]
    · rw [splitLoop_at_cons_ne c rest cur hc, ih, List.count_cons_of_ne hc]

theorem Split_at_length (s : String) :
    (Split s "@").length = s.data.count '@' + 1 := by
  unfold Split
  rw [if_neg (by decide)]
  simp [splitLoop_at_length]

theorem Split_at_one (before after : String) (h1 : '@' ∉ before.data) (h2 : '@' ∉ after.data) :
    Split (before ++ "@" ++ after) "@" = [before, after] := by
  unfold Split
  rw [if_neg (by decide)]
  have hdata : (before ++ "@" ++ after).data = before.data ++ '@' :: after.data := by
    simp [String.data_append]
  rw [hdata]
  show List.map String.mk (splitLoop ['@'] 0 [] (before.data ++ '@' :: after.data)) = _
  rw [splitLoop_at_first _ _ _ h1, splitLoop_at_no_sep _ _ h2]
  simp

/-- Counterexample to C21: an account that holds the character `@` makes an
identifier that `ImportState` rejects. -/
theorem ImportState_rejects_email_account :
    servicenowResource.CreateID (StringValue "user@example.com")
        (StringValue "dev.service-now.com") = "user@example.com@dev.service-now.com"
      ∧ servicenowResource.ImportState
          (servicenowResource.CreateID (StringValue "user@example.com")
            (StringValue "dev.service-now.com"))
        = Except.error
            ("Invalid Import ID", "Import ID must be in the format: account@service_host") := by
  decide

/-- C21 (amended). Importing the identifier that `Create` records for an
account and a service host sets exactly that account and that service host
when neither holds the character `@`, and fails with "Invalid Import ID" when
one of them does. -/
theorem ImportState_CreateID (account serviceHost : String) :
    servicenowResource.ImportState
        (servicenowResource.CreateID (StringValue account) (StringValue serviceHost))
      = if '@' ∈ account.data ∨ '@' ∈ serviceHost.data then
          Except.error
            ("Invalid Import ID", "Import ID must be in the format: account@service_host")
        else
          Except.ok
            { Account := account, ServiceHost := serviceHost,
              ID := account ++ "@" ++ serviceHost } := by
  have hid : servicenowResource.CreateID (StringValue account) (StringValue serviceHost)
      = account ++ "@" ++ serviceHost := rfl
  rw [hid]
  unfold servicenowResource.ImportState
  by_cases h : '@' ∈ account.data ∨ '@' ∈ serviceHost.data
  · rw [if_pos h]
    have hlen : (Split (account ++ "@" ++ serviceHost) "@").length ≠ 2 := by
      rw [Split_at_length]
      have hdata : (account ++ "@" ++ serviceHost).data
          = account.data ++ '@' :: serviceHost.data := by
        simp [String.data_append]
      rw [hdata, List.count_append, List.count_cons_self]
      rcases h with h | h
      · have := List.count_pos_iff.mpr h
        omega
      · have := List.count_pos_iff.mpr h
        omega
    simp only [hlen, ne_eq, not_false_eq_true, if_true]
  · rw [if_neg h]
    simp only [not_or] at h
    rw [Split_at_one account serviceHost h.1 h.2]
    simp

/-! ## alignSystemMappings -/

theorem trimmedIDs_cons (raw : String) (rest : List String) :
    trimmedIDs (raw :: rest)
      = if TrimSpace raw = "" then trimmedIDs rest else TrimSpace raw :: trimmedIDs rest := by
  unfold trimmedIDs
  by_cases h : TrimSpace raw = ""
  · simp [h]
  · simp [h]

theorem mem_distinctInOrder (l : List String) (x : String) :
    x ∈ distinctInOrder l ↔ x ∈ l := by
  induction l with
  | nil => simp [distinctInOrder]
  | cons y rest ih =>
    simp only [distinctInOrder, List.mem_cons, List.mem_filter, ih, decide_eq_true_eq]
    by_cases h : x = y
    · simp [h]
    · simp [h]

theorem alignLoop_eq (idToName : List (String × String)) (systemIDs : List String) :
    ∀ (seen : List String) (aligned : List String × List String),
      alignLoop idToName systemIDs seen aligned
        = (aligned.1 ++ (distinctInOrder (trimmedIDs systemIDs)).filter
              (fun id => decide (id ∉ seen)),
            aligned.2 ++ ((distinctInOrder (trimmedIDs systemIDs)).filter
              (fun id => decide (id ∉ seen))).map
                (fun id => (mapGet idToName id).getD "")) := by
  induction systemIDs with
  | nil => intro seen aligned; simp [alignLoop, trimmedIDs, distinctInOrder]
  | cons rawID rest ih =>
    intro seen aligned
    rw [trimmedIDs_cons]
    by_cases hb : TrimSpace rawID = ""
    · simp only [alignLoop, hb, if_true]
      exact ih seen aligned
    · by_cases hs : TrimSpace rawID ∈ seen
      · simp only [alignLoop, hb, hs, if_true, if_false, distinctInOrder]
        rw [ih seen aligned]
        have hf : (List.filter (fun y => decide (y ≠ TrimSpace rawID))
              (distinctInOrder (trimmedIDs rest))).filter (fun id => decide (id ∉ seen))
            = (distinctInOrder (trimmedIDs rest)).filter (fun id => decide (id ∉ seen)) := by
          rw [List.filter_filter]
          apply List.filter_congr
          intro x _
          by_cases hx : x ∈ seen
          · simp [hx]
          · have hne : x ≠ TrimSpace rawID := fun h => hx (h ▸ hs)
            simp [hx, hne]
        rw [List.filter_cons, if_neg (by simpa using hs), hf]
      · simp only [alignLoop, hb, hs, if_false, distinctInOrder]
        rw [ih (TrimSpace rawID :: seen) _]
        have hf : (List.filter (fun y => decide (y ≠ TrimSpace rawID))
              (distinctInOrder (trimmedIDs rest))).filter (fun id => decide (id ∉ seen))
            = (distinctInOrder (trimmedIDs rest)).filter
                (fun id => decide (id ∉ TrimSpace rawID :: seen)) := by
          rw [List.filter_filter]
          apply List.filter_congr
          intro x _
          by_cases hx : x ∈ seen
          · simp [hx]
          · by_cases hne : x = TrimSpace rawID
            · simp [hne]
            · simp [hx, hne]
        rw [List.filter_cons, if_pos (by simpa using hs), hf]
        simp

theorem alignName_eq (systemNames : List String) (i : Nat) (id : String) :
    (if (if i < systemNames.length then TrimSpace (systemNames.getD i "") else "") = ""
      then id
      else (if i < systemNames.length then TrimSpace (systemNames.getD i "") else ""))
      = match systemNames.get? i with
        | none => id
        | some name => if TrimSpace name = "" then id else TrimSpace name := by
  by_cases hi : i < systemNames.length
  · have hget : systemNames.get? i = some (systemNames.getD i "") := by
      simp [List.getD, List.getElem?_eq_getElem hi]
    rw [hget]
    simp only [hi, if_true]
  · have hget : systemNames.get? i = none := by
      simp only [List.get?_eq_getElem?]
      exact List.getElem?_eq_none (Nat.le_of_not_lt hi)
    rw [hget]
    simp [hi]

theorem alignNames_get (systemNames : List String) (id : String) (hid : id ≠ "")
    (systemIDs : List String) :
    ∀ (i : Nat) (idToName : List (String × String)),
      mapGet (alignNames systemNames i systemIDs idToName) id
        = match ((List.enumFrom i systemIDs).filter
              (fun p => decide (TrimSpace p.2 = id))).getLast? with
          | some p =>
              some (match systemNames.get? p.1 with
                | none => id
                | some name => if TrimSpace name = "" then id else TrimSpace name)
          | none => mapGet idToName id := by
  induction systemIDs with
  | nil => intro i idToName; simp [alignNames]
  | cons x rest ih =>
    intro i idToName
    rw [List.enumFrom_cons]
    by_cases hb : TrimSpace x = ""
    · have hne : ¬ TrimSpace x = id := fun h => hid (h ▸ hb)
      simp only [alignNames, hb, if_true]
      rw [ih (i + 1) idToName, List.filter_cons, if_neg (by simpa using hne)]
    · simp only [alignNames, hb, if_false]
      rw [ih (i + 1) _, alignName_eq]
      by_cases he : TrimSpace x = id
      · rw [List.filter_cons, if_pos (by simpa using he), List.getLast?_cons]
        cases hl : (List.filter (fun p => decide (TrimSpace p.2 = id))
            (List.enumFrom (i + 1) rest)).getLast? with
        | some p => simp
        | none =>
          simp only [Option.getD_none]
          rw [he, mapGet_mapSet_same]
      · rw [List.filter_cons, if_neg (by simpa using he), mapGet_mapSet_other _ _ _ _ he]

theorem exists_mem_enumFrom (x : String) (l : List String) (h : x ∈ l) :
    ∀ i, ∃ j, (j, x) ∈ List.enumFrom i l := by
  induction l with
  | nil => cases h
  | cons y rest ih =>
    intro i
    rw [List.enumFrom_cons]
    rcases List.mem_cons.mp h with h | h
    · subst h
      exact ⟨i, List.mem_cons_self _ _⟩
    · obtain ⟨j, hj⟩ := ih h (i + 1)
      exact ⟨j, List.mem_cons_of_mem _ hj⟩

theorem alignSystemMappings_ids (systemIDs systemNames : List String) :
    (alignSystemMappings systemIDs systemNames).1 = distinctInOrder (trimmedIDs systemIDs) := by
  unfold alignSystemMappings
  by_cases h : systemIDs.length = 0
  · have : systemIDs = [] := List.length_eq_zero.mp h
    subst this
    simp [trimmedIDs, distinctInOrder]
  · rw [if_neg h, alignLoop_eq]
    simp

theorem alignSystemMappings_names (systemIDs systemNames : List String)
    (h : systemIDs ≠ []) :
    (alignSystemMappings systemIDs systemNames).2
      = (distinctInOrder (trimmedIDs systemIDs)).map (alignedName systemIDs systemNames) := by
  unfold alignSystemMappings
  rw [if_neg (by simpa using h), alignLoop_eq]
  simp only [List.nil_append, List.not_mem_nil, not_false_eq_true, decide_True,
    List.filter_true]
  apply List.map_congr_left
  intro id hmem
  have hin : id ∈ trimmedIDs systemIDs := (mem_distinctInOrder _ _).mp hmem
  unfold trimmedIDs at hin
  obtain ⟨hmap, hne⟩ := List.mem_filter.mp hin
  have hid : id ≠ "" := by simpa using hne
  obtain ⟨x, hx, hxid⟩ := List.mem_map.mp hmap
  obtain ⟨j, hj⟩ := exists_mem_enumFrom x systemIDs hx 0
  have hfilter : (j, x) ∈ (List.enumFrom 0 systemIDs).filter
      (fun p => decide (TrimSpace p.2 = id)) :=
    List.mem_filter.mpr ⟨hj, by simpa using hxid⟩
  rw [alignNames_get systemNames id hid systemIDs 0 []]
  unfold alignedName lastOccurrence List.enum
  cases hl : ((List.enumFrom 0 systemIDs).filter
      (fun p => decide (TrimSpace p.2 = id))).getLast? with
  | none =>
    rw [List.getLast?_eq_none_iff] at hl
    rw [hl] at hfilter
    cases hfilter
  | some p =>
    simp only [Option.map_some', Option.some_bind, Option.getD_some]

/-- C29. For a list of identifiers that is not empty, `alignSystemMappings`
returns the identifiers that are not blank, trimmed, each once, in the order
of their first occurrence, and as many names, the `i`-th name being the one of
the `i`-th identifier: the trimmed name at the index of the last occurrence of
the identifier in the input, the identifier itself when that name is blank or
the list of names is too short. -/
theorem alignSystemMappings_aligned (systemIDs systemNames : List String)
    (h : systemIDs ≠ []) :
    (alignSystemMappings systemIDs systemNames).1 = distinctInOrder (trimmedIDs systemIDs)
      ∧ (alignSystemMappings systemIDs systemNames).2
          = (distinctInOrder (trimmedIDs systemIDs)).map (alignedName systemIDs systemNames)
      ∧ (alignSystemMappings systemIDs systemNames).2.length
          = (alignSystemMappings systemIDs systemNames).1.length := by
  refine ⟨alignSystemMappings_ids _ _, alignSystemMappings_names _ _ h, ?_⟩
  rw [alignSystemMappings_ids, alignSystemMappings_names _ _ h, List.length_map]

/-- Witness of C29: a repeated identifier takes the name of its last
occurrence, a blank identifier is dropped, a blank or missing name gives the
identifier. -/
theorem alignSystemMappings_aligned_witness :
    alignSystemMappings [" a ", "b", "", "a", "c"] ["A1", " ", "X", "A2"]
      = (["a", "b", "c"], ["A2", "b", "c"])
    ∧ ((alignSystemMappings [" a ", "b", "", "a", "c"] ["A1", " ", "X", "A2"]).1
        = distinctInOrder (trimmedIDs [" a ", "b", "", "a", "c"])
      ∧ (alignSystemMappings [" a ", "b", "", "a", "c"] ["A1", " ", "X", "A2"]).2
          = (distinctInOrder (trimmedIDs [" a ", "b", "", "a", "c"])).map
              (alignedName [" a ", "b", "", "a", "c"] ["A1", " ", "X", "A2"])
      ∧ (alignSystemMappings [" a ", "b", "", "a", "c"] ["A1", " ", "X", "A2"]).2.length
          = (alignSystemMappings [" a ", "b", "", "a", "c"] ["A1", " ", "X", "A2"]).1.length) :=
  ⟨by decide,
    alignSystemMappings_aligned [" a ", "b", "", "a", "c"] ["A1", " ", "X", "A2"] (by decide)⟩

/-! ## The ServiceNow resource: Read -/

/-- Counterexample to C22: with `["2", "1"]` recorded and the API reporting
`["1", "2", "3"]`, `Read` records the identifiers in the order of the API, not
`["2", "1", "3"]`. -/
theorem servicenowResource_Read_api_order :
    servicenowResource.Read
        (ResolveSystemIDsToNames exampleLib
          (Except.ok (some (mkResponse [sysAJSON, sysBJSON] []))))
        (Except.ok (some { SystemIDs := ["1", "2", "3"], SystemNames := [] }))
        (some ["2", "1"]) (some ["sysB", "sysA"])
      = Except.ok (some (["1", "2", "3"], some ["sysA", "sysB", "3"])) := by
  decide

/-- C22 (amended). When the API reports identifiers, `Read` records a list of
identifiers and a list of names.  The recorded identifiers are the previous
list as it is when it has as many entries as the list of the API, each of its
identifiers, trimmed, is among the trimmed identifiers of the API, and names
were recorded; the previous identifiers that are not blank, trimmed, each
once, when the first two conditions hold and no name was recorded; and
otherwise the identifiers of the API that are not blank, trimmed, each once,
in the order of the API, whatever the previous order was. -/
theorem servicenowResource_Read_system_ids
    (resolve : List String → Except String (List String)) (config : ServiceNowConfig)
    (stateIDs stateNames : Option (List String)) (hapi : config.SystemIDs ≠ []) :
    ∃ ids names,
      servicenowResource.Read resolve (Except.ok (some config)) stateIDs stateNames
          = Except.ok (some (ids, some names))
        ∧ ids = if stateOrderKept (stateIDs.getD []) config.SystemIDs = true then
            if stateNames.getD [] = [] then distinctInOrder (trimmedIDs (stateIDs.getD []))
            else stateIDs.getD []
          else distinctInOrder (trimmedIDs config.SystemIDs) := by
  have hlen : config.SystemIDs.length > 0 := List.length_pos.mpr hapi
  unfold servicenowResource.Read
  simp only [hlen, if_true]
  by_cases hk : stateOrderKept (stateIDs.getD []) config.SystemIDs = true
  · simp only [hk, if_true]
    by_cases hn : (stateNames.getD []).length = 0
    · have hn2 : stateNames.getD [] = [] := List.length_eq_zero.mp hn
      simp only [hn, if_true, hn2]
      refine ⟨_, _, rfl, ?_⟩
      cases resolve (stateIDs.getD []) with
      | ok names => exact alignSystemMappings_ids _ _
      | error err =>
        by_cases hc : config.SystemNames.length > 0
        · simp only [hc, if_true]
          exact alignSystemMappings_ids _ _
        · simp only [hc, if_false]
          exact alignSystemMappings_ids _ _
    · have hn2 : ¬ stateNames.getD [] = [] := fun h => hn (by rw [h]; rfl)
      simp only [hn, if_false, hn2]
      exact ⟨_, _, rfl, rfl⟩
  · have hk2 : stateOrderKept (stateIDs.getD []) config.SystemIDs = false := by
      simpa using hk
    simp only [hk2, Bool.false_eq_true, if_false, List.length_nil, if_true]
    refine ⟨_, _, rfl, ?_⟩
    cases resolve config.SystemIDs with
    | ok names => exact alignSystemMappings_ids _ _
    | error err =>
      by_cases hc : config.SystemNames.length > 0
      · simp only [hc, if_true]
        exact alignSystemMappings_ids _ _
      · simp only [hc, if_false]
        exact alignSystemMappings_ids _ _

/-- Witness of C22 (amended): the previous list `["2", "1"]` is kept when the
API reports `["1", "2"]`. -/
theorem servicenowResource_Read_system_ids_witness :
    servicenowResource.Read
        (ResolveSystemIDsToNames exampleLib
          (Except.ok (some (mkResponse [sysAJSON, sysBJSON] []))))
        (Except.ok (some { SystemIDs := ["1", "2"], SystemNames := [] }))
        (some ["2", "1"]) (some ["sysB", "sysA"])
      = Except.ok (some (["2", "1"], some ["sysB", "sysA"]))
    ∧ ∃ ids names,
      servicenowResource.Read
          (ResolveSystemIDsToNames exampleLib
            (Except.ok (some (mkResponse [sysAJSON, sysBJSON] []))))
          (Except.ok (some { SystemIDs := ["1", "2"], SystemNames := [] }))
          (some ["2", "1"]) (some ["sysB", "sysA"])
          = Except.ok (some (ids, some names))
        ∧ ids = if stateOrderKept ((some ["2", "1"]).getD [])
              ({ SystemIDs := ["1", "2"], SystemNames := [] } : ServiceNowConfig).SystemIDs
              = true then
            if (some ["sysB", "sysA"]).getD [] = [] then
              distinctInOrder (trimmedIDs ((some ["2", "1"]).getD []))
            else (some ["2", "1"]).getD []
          else distinctInOrder (trimmedIDs
            ({ SystemIDs := ["1", "2"], SystemNames := [] } : ServiceNowConfig).SystemIDs) :=
  ⟨by decide,
    servicenowResource_Read_system_ids
      (ResolveSystemIDsToNames exampleLib
        (Except.ok (some (mkResponse [sysAJSON, sysBJSON] []))))
      { SystemIDs := ["1", "2"], SystemNames := [] }
      (some ["2", "1"]) (some ["sysB", "sysA"]) (by decide)⟩

/-! ## The mutex of the label operations -/

theorem running_not_lock (rest : List GateEvent) :
    ¬ runningProg (GateEvent.lock :: rest) := by
  rintro ⟨reqs, h⟩
  cases reqs with
  | nil => cases h
  | cons r reqs => cases h

theorem running_not_idle (p : List GateEvent) (h : runningProg p) : ¬ idleProg p := by
  rintro ⟨reqs, h2⟩
  rw [h2] at h
  exact running_not_lock _ h

theorem idle_lock (rest : List GateEvent) (h : idleProg (GateEvent.lock :: rest)) :
    runningProg rest := by
  obtain ⟨reqs, h⟩ := h
  exact ⟨reqs, (List.cons.inj h).2⟩

theorem idle_not_unlock (rest : List GateEvent) : ¬ idleProg (GateEvent.unlock :: rest) := by
  rintro ⟨reqs, h⟩
  cases h

theorem idle_not_request (req : HTTPRequest) (rest : List GateEvent) :
    ¬ idleProg (GateEvent.request req :: rest) := by
  rintro ⟨reqs, h⟩
  cases h

theorem running_request (req : HTTPRequest) (rest : List GateEvent)
    (h : runningProg (GateEvent.request req :: rest)) : runningProg rest := by
  obtain ⟨reqs, h⟩ := h
  cases reqs with
  | nil => cases h
  | cons r reqs => exact ⟨reqs, (List.cons.inj h).2⟩

theorem running_unlock (rest : List GateEvent)
    (h : runningProg (GateEvent.unlock :: rest)) : rest = [] := by
  obtain ⟨reqs, h⟩ := h
  cases reqs with
  | nil => exact (List.cons.inj h).2
  | cons r reqs => cases h

theorem GateInv_step (s : GateState) (b : Bool) (h : GateInv s) : GateInv (s.step b) := by
  unfold GateState.step
  cases hp : s.pending b with
  | nil => exact h
  | cons e rest =>
    have hshape := h.shape b
    rw [hp] at hshape
    cases e with
    | lock =>
      dsimp only
      by_cases hh : s.holder = none
      · rw [if_pos hh]
        have hidle : idleProg (GateEvent.lock :: rest) := by
          rcases hshape with h1 | h1 | h1
          · cases h1
          · exact h1
          · exact absurd h1.2 (running_not_lock rest)
        have hrun : runningProg rest := idle_lock rest hidle
        refine ⟨?_, ?_, ?_, h.serial⟩
        · intro t
          by_cases ht : t = b
          · subst ht
            right; right
            exact ⟨rfl, by simpa using hrun⟩
          · rcases h.shape t with h1 | h1 | h1
            · left; simpa [ht] using h1
            · right; left; simpa [ht] using h1
            · rw [hh] at h1; cases h1.1
        · intro t hidle_t e he
          by_cases ht : t = b
          · subst ht
            exact absurd (by simpa using hidle_t) (running_not_idle rest hrun)
          · exact h.idle t (by simpa [ht] using hidle_t) e he
        · intro t hheld
          have hbt : b = t := Option.some.inj hheld
          subst hbt
          refine ⟨s.trace, [], by simp, ?_, by simp⟩
          exact h.idle b (by rw [hp]; exact hidle)
      · rw [if_neg hh]; exact h
    | unlock =>
      dsimp only
      have hrun : s.holder = some b ∧ runningProg (GateEvent.unlock :: rest) := by
        rcases hshape with h1 | h1 | h1
        · cases h1
        · exact absurd h1 (idle_not_unlock rest)
        · exact h1
      have hrest : rest = [] := running_unlock rest hrun.2
      refine ⟨?_, ?_, ?_, h.serial⟩
      · intro t
        by_cases ht : t = b
        · subst ht
          left; simpa using hrest
        · rcases h.shape t with h1 | h1 | h1
          · left; simpa [ht] using h1
          · right; left; simpa [ht] using h1
          · rw [hrun.1] at h1
            exact absurd (Option.some.inj h1.1).symm ht
      · intro t hidle_t e he
        by_cases ht : t = b
        · subst ht
          have hnil : idleProg [] := by simpa [hrest] using hidle_t
          obtain ⟨reqs, hr⟩ := hnil
          cases hr
        · exact h.idle t (by simpa [ht] using hidle_t) e he
      · intro t hheld
        cases hheld
    | request req =>
      dsimp only
      have hrun : s.holder = some b ∧ runningProg (GateEvent.request req :: rest) := by
        rcases hshape with h1 | h1 | h1
        · cases h1
        · exact absurd h1 (idle_not_request req rest)
        · exact h1
      have hrest : runningProg rest := running_request req rest hrun.2
      obtain ⟨before, after, htrace, hbefore, hafter⟩ := h.held b hrun.1
      have hafter2 : ∀ e ∈ after ++ [(b, req)], e.1 = b := by
        intro e he
        rcases List.mem_append.mp he with he | he
        · exact hafter e he
        · simp only [List.mem_singleton] at he
          rw [he]
      refine ⟨?_, ?_, ?_, ?_⟩
      · intro t
        by_cases ht : t = b
        · subst ht
          right; right
          exact ⟨hrun.1, by simpa using hrest⟩
        · rcases h.shape t with h1 | h1 | h1
          · left; simpa [ht] using h1
          · right; left; simpa [ht] using h1
          · rw [hrun.1] at h1
            exact absurd (Option.some.inj h1.1).symm ht
      · intro t hidle_t e he
        by_cases ht : t = b
        · subst ht
          exact absurd (by simpa using hidle_t) (running_not_idle rest hrest)
        · have hold := h.idle t (by simpa [ht] using hidle_t)
          have htb : b = !t := by
            cases t <;> cases b <;> simp at ht ⊢
          rcases List.mem_append.mp he with he | he
          · exact hold e he
          · simp only [List.mem_singleton] at he
            rw [he]
            exact htb
      · intro t hheld
        have hbt : b = t := by
          have h2 : s.holder = some t := hheld
          rw [hrun.1] at h2
          exact Option.some.inj h2
        subst hbt
        exact ⟨before, after ++ [(b, req)], by rw [htrace, List.append_assoc], hbefore,
          hafter2⟩
      · exact ⟨!b, before, after ++ [(b, req)], by rw [htrace, List.append_assoc], hbefore,
          by simpa using hafter2⟩

theorem GateInv_run (schedule : List Bool) :
    ∀ s : GateState, GateInv s → GateInv (GateState.run schedule s) := by
  induction schedule with
  | nil => intro s h; exact h
  | cons b rest ih =>
    intro s h
    exact ih (s.step b) (GateInv_step s b h)

theorem GateInv_initial (first second : List GateEvent) (h1 : idleProg first)
    (h2 : idleProg second) : GateInv (GateState.initial first second) := by
  refine ⟨?_, ?_, ?_, ?_⟩
  · intro b
    right; left
    cases b
    · exact h1
    · exact h2
  · intro b _ e he
    cases he
  · intro b hheld
    cases hheld
  · exact ⟨true, [], [], rfl, by simp, by simp⟩

theorem CreateOrUpdateLogLabels_idleProg {F : Type} (lib : ClientLib F) (c : Client)
    (transport : Transport) (projectName username : String)
    (settings : List LogLabelSetting) :
    idleProg (CreateOrUpdateLogLabels lib c transport projectName username settings).1 :=
  ⟨_, rfl⟩

/-- C26. Two concurrent calls of `CreateOrUpdateLogLabels` never interleave
their requests: whatever the arguments and the answers of the transport, and
in whatever order the scheduler lets the two calls make their steps, all the
requests made so far by one call come before all the requests of the other. -/
theorem CreateOrUpdateLogLabels_serialized {F : Type} (lib : ClientLib F)
    (c1 c2 : Client) (transport1 transport2 : Transport)
    (projectName1 username1 projectName2 username2 : String)
    (settings1 settings2 : List LogLabelSetting) (schedule : List Bool) :
    Serialized (GateState.run schedule
      (GateState.initial
        (CreateOrUpdateLogLabels lib c1 transport1 projectName1 username1 settings1).1
        (CreateOrUpdateLogLabels lib c2 transport2 projectName2 username2 settings2).1)).trace :=
  (GateInv_run schedule _
    (GateInv_initial _ _
      (CreateOrUpdateLogLabels_idleProg lib c1 transport1 projectName1 username1 settings1)
      (CreateOrUpdateLogLabels_idleProg lib c2 transport2 projectName2 username2
        settings2))).serial

/-- A run of the scheduler: the second call waits for the mutex while the
first holds it, and makes its request after the first has unlocked. -/
theorem GateState_run_waits :
    ((GateState.run [false, true, false, true, false, true, true, true]
      (GateState.initial
        (CreateOrUpdateLogLabels exampleClientLib exampleClient
          (fun _ _ => Except.ok ("", 200)) "proj1" "user"
          [{ LabelType := "whitelist", LogLabelString := "[]" }]).1
        (CreateOrUpdateLogLabels exampleClientLib exampleClient
          (fun _ _ => Except.ok ("", 200)) "proj2" "user"
          [{ LabelType := "whitelist", LogLabelString := "[]" }]).1)).trace.map
      (fun e => (e.1, e.2.URL)))
      = [(false, "https://if.example/api/external/v1/watch-tower-setting"
            ++ "?projectName=proj1&customerName=user"),
          (true, "https://if.example/api/external/v1/watch-tower-setting"
            ++ "?projectName=proj2&customerName=user")] := by
  decide

/-- The same scheduler on two calls of `DeleteLogLabels`, which do not lock the
mutex: their requests alternate. -/
theorem GateState_run_DeleteLogLabels_alternates :
    ((GateState.run [false, true, false, true]
      (GateState.initial
        (DeleteLogLabels.events exampleClientLib exampleClient
          (fun _ _ => Except.ok ("", 200)) "proj1" "user" ["whitelist", "blacklist"])
        (DeleteLogLabels.events exampleClientLib exampleClient
          (fun _ _ => Except.ok ("", 200)) "proj2" "user"
          ["whitelist", "blacklist"]))).trace.map
      (fun e => e.1))
      = [false, true, false, true] := by
  decide

/-- C30. `ResolveSystemIDsToNames` does not return one name per requested
identifier: it skips a blank identifier, and its callers pair the result with
the identifiers by index.  For the identifiers `["1", " ", "2"]` on a catalog
that names `1` as `sysA` and `2` as `sysB` it returns the two names
`["sysA", "sysB"]`, so `Create` of the ServiceNow resource, which hands both
lists to `alignSystemMappings`, sends and records the identifier `2` with the
name `2`, and `Read` does the same for the identifiers that the API reports;
asked for `2` alone, the same catalog answers `sysB`. -/
theorem ResolveSystemIDsToNames_shifts_names :
    ResolveSystemIDsToNames exampleLib
        (Except.ok (some (mkResponse [sysAJSON, sysBJSON] []))) ["1", " ", "2"]
      = Except.ok ["sysA", "sysB"]
    ∧ servicenowResource.CreateMappings exampleLib
        (Except.ok (some (mkResponse [sysAJSON, sysBJSON] []))) none (some ["1", " ", "2"])
      = Except.ok (["1", "2"], ["sysA", "2"])
    ∧ servicenowResource.Read
        (ResolveSystemIDsToNames exampleLib
          (Except.ok (some (mkResponse [sysAJSON, sysBJSON] []))))
        (Except.ok (some { SystemIDs := ["1", " ", "2"], SystemNames := [] })) none none
      = Except.ok (some (["1", "2"], some ["sysA", "2"]))
    ∧ servicenowResource.CreateMappings exampleLib
        (Except.ok (some (mkResponse [sysAJSON, sysBJSON] []))) none (some ["2"])
      = Except.ok (["2"], ["sysB"]) := by
  decide

end InsightFinder
